import Mathlib

/-!
# gofer: frame codec, typed views and block arithmetic

A shallow embedding of `gofer/packet.go`, `gofer/message.go` and the
block-transfer parts of `gofer/big_file.go`.

Conventions of the embedding.

* A Go `[]byte` is the list of its visible bytes; a Go `string` is the list of
  its bytes as well (`[]byte(s)` and `string(b)` are the identity on contents).
  Every slice whose bounds matter below comes from `make` or is used whole, so
  its capacity equals its length.
* `uint16`, `uint32`, `uint64` values are natural numbers; every operation that
  can wrap carries an explicit `% 2 ^ w`.
* `int` is 64 bits wide.  `make([]byte, n)` panics when `n` exceeds the largest
  allocation of the Go runtime (`2 ^ 48` bytes on 64-bit Linux); running out of
  memory below that bound is outside the model.
* A function that can only panic returns `Option` (`none` is the run-time
  panic); a function with an `error` result returns `Result`.
* A `net.Conn` is the pair of the bytes still to be read and the bytes written;
  a file is the list of its bytes.  Sizes and offsets of files are `int64`, and
  a read that would end beyond offset `2 ^ 63 - 1` is refused by the operating
  system; the files of the model leave room for one block of 1 MiB below that
  offset.
-/

namespace Gofer

/-- A Go `byte`. -/
abbrev Byte := Fin 256

/-- Go conversion `byte(v)`: the low eight bits of an unsigned value. -/
def toByte (v : Nat) : Byte := ⟨v % 256, Nat.mod_lt v (by decide)⟩

/-- Largest Go `int` (64-bit platform). -/
def MaxInt : Nat := 2 ^ 63 - 1

/-- Largest allocation of the Go runtime, `maxAlloc` of `runtime/malloc.go`: the
heap addresses have 48 bits (64-bit Linux). -/
def maxAlloc : Nat := 2 ^ 48

/-- Go `make([]byte, n)` for an unsigned `n`: a zeroed slice, or a panic
(`makeslice: len out of range`) when `n` bytes are more than `maxAlloc`. -/
def makeBytes (n : Nat) : Option (List Byte) :=
  if n ≤ maxAlloc then some (List.replicate n 0) else none

/-- Go builtin `copy(dst, src)`: the contents of `dst` afterwards.  Copies
`min(len(dst), len(src))` bytes. -/
def copy (dst src : List Byte) : List Byte :=
  src.take dst.length ++ dst.drop src.length

/-- Slice expression `s[lo:hi]` (capacity equal to length): panics unless
`lo ≤ hi ≤ len(s)`. -/
def slice (s : List Byte) (lo hi : Nat) : Option (List Byte) :=
  if lo ≤ hi ∧ hi ≤ s.length then some ((s.take hi).drop lo) else none

/-- An in-place update `f` applied through the sub-slice `s[lo:hi]`: the
contents of `s` afterwards.  `f` returns the new contents of the sub-slice. -/
def onSlice (s : List Byte) (lo hi : Nat) (f : List Byte → Option (List Byte)) :
    Option (List Byte) :=
  match slice s lo hi with
  | none => none
  | some sub =>
    match f sub with
    | none => none
    | some sub' => some (s.take lo ++ sub' ++ s.drop hi)

/-! ## encoding/binary, big endian -/

/-- Go `binary.BigEndian.PutUint16(b, v)`. -/
def PutUint16 (b : List Byte) (v : Nat) : Option (List Byte) :=
  if b.length < 2 then none
  else some (toByte (v / 2 ^ 8) :: toByte v :: b.drop 2)

/-- Go `binary.BigEndian.PutUint32(b, v)`. -/
def PutUint32 (b : List Byte) (v : Nat) : Option (List Byte) :=
  if b.length < 4 then none
  else some (toByte (v / 2 ^ 24) :: toByte (v / 2 ^ 16) :: toByte (v / 2 ^ 8) :: toByte v
    :: b.drop 4)

/-- Go `binary.BigEndian.PutUint64(b, v)`. -/
def PutUint64 (b : List Byte) (v : Nat) : Option (List Byte) :=
  if b.length < 8 then none
  else some (toByte (v / 2 ^ 56) :: toByte (v / 2 ^ 48) :: toByte (v / 2 ^ 40)
    :: toByte (v / 2 ^ 32) :: toByte (v / 2 ^ 24) :: toByte (v / 2 ^ 16)
    :: toByte (v / 2 ^ 8) :: toByte v :: b.drop 8)

/-- Go `binary.BigEndian.Uint16(b)`; the bitwise or of the shifted bytes is
their sum. -/
def Uint16 (b : List Byte) : Option Nat :=
  match b with
  | b0 :: b1 :: _ => some (b1.val + b0.val * 2 ^ 8)
  | _ => none

/-- Go `binary.BigEndian.Uint32(b)`. -/
def Uint32 (b : List Byte) : Option Nat :=
  match b with
  | b0 :: b1 :: b2 :: b3 :: _ =>
    some (b3.val + b2.val * 2 ^ 8 + b1.val * 2 ^ 16 + b0.val * 2 ^ 24)
  | _ => none

/-- Go `binary.BigEndian.Uint64(b)`. -/
def Uint64 (b : List Byte) : Option Nat :=
  match b with
  | b0 :: b1 :: b2 :: b3 :: b4 :: b5 :: b6 :: b7 :: _ =>
    some (b7.val + b6.val * 2 ^ 8 + b5.val * 2 ^ 16 + b4.val * 2 ^ 24
      + b3.val * 2 ^ 32 + b2.val * 2 ^ 40 + b1.val * 2 ^ 48 + b0.val * 2 ^ 56)
  | _ => none

/-! ## packet.go -/

/-- Errors returned by the embedded functions. -/
inductive GoError where
  /-- Go `io.EOF` -/
  | EOF
  /-- Go `io.ErrUnexpectedEOF` -/
  | ErrUnexpectedEOF
  /-- The error "ValueError: b too short" -/
  | tooShort
  /-- The error "ValueError: b shorter than described" -/
  | shorterThanDescribed
  /-- The error "bigFileSender: resource not found" -/
  | resourceNotFound
  /-- The error "bigFileSender: resource not found: %v" (open failed) -/
  | openFailed
  /-- The error "bigFileSender: read file error: %v" -/
  | readFileError
  /-- The error "negative offset" of `os.File.ReadAt` -/
  | negativeOffset
  /-- An error of the operating system on a file operation -/
  | osError
  /-- The error `EINVAL` of `pread` -/
  | invalidArgument
  deriving DecidableEq, Repr

/-- Outcome of a Go function with results `(value, error)`. -/
inductive Result (α : Type) where
  /-- returned `(v, nil)` -/
  | ok : α → Result α
  /-- returned `(nil, err)` -/
  | err : GoError → Result α
  /-- run-time panic -/
  | panic : Result α
  deriving DecidableEq, Repr

/-- Fixed-length description region of a packet. -/
structure Header where
  /-- Field `Type uint16` -/
  Typ : Nat
  /-- Field `InfoSize uint32` -/
  InfoSize : Nat
  /-- Field `DataSize uint32` -/
  DataSize : Nat
  deriving DecidableEq, Repr

/-- Variable-length region of a packet. -/
structure Body where
  Info : List Byte
  Data : List Byte
  deriving DecidableEq, Repr

/-- A packet: header and body. -/
structure Packet extends Header, Body
  deriving DecidableEq, Repr

/-- The zero value `&Packet{}`. -/
def Packet.zero : Packet :=
  { Typ := 0, InfoSize := 0, DataSize := 0, Info := [], Data := [] }

/-- Go `NewPacket(typ, info, data)`. -/
def NewPacket (typ : Nat) (info data : List Byte) : Packet :=
  { Typ := typ
    InfoSize := info.length % 2 ^ 32
    DataSize := data.length % 2 ^ 32
    Info := info
    Data := data }

/-- Go `(*Packet).ToBytes`.  `totalSize` and the slice bounds are `uint32`
expressions. -/
def Packet.ToBytes (p : Packet) : Option (List Byte) :=
  let totalSize := (2 + 4 + 4 + 2 + p.InfoSize + p.DataSize) % 2 ^ 32
  let buf := List.replicate totalSize (0 : Byte)
  (onSlice buf 0 2 (fun b => PutUint16 b p.Typ)).bind fun buf =>
  (onSlice buf 2 6 (fun b => PutUint32 b p.InfoSize)).bind fun buf =>
  (onSlice buf 6 10 (fun b => PutUint32 b p.DataSize)).bind fun buf =>
  (onSlice buf 12 ((12 + p.InfoSize) % 2 ^ 32) (fun b => some (copy b p.Info))).bind fun buf =>
  onSlice buf ((12 + p.InfoSize) % 2 ^ 32) buf.length (fun b => some (copy b p.Data))

/-- Go `(*Packet).fillHeaderFromBytes`: the packet afterwards and the error. -/
def Packet.fillHeaderFromBytes (p : Packet) (header : List Byte) :
    Option (Packet × Option GoError) :=
  if header.length < 12 then some (p, some GoError.tooShort)
  else
    ((slice header 0 2).bind Uint16).bind fun typ =>
    ((slice header 2 6).bind Uint32).bind fun infoSize =>
    ((slice header 6 10).bind Uint32).bind fun dataSize =>
    some ({ p with Typ := typ, InfoSize := infoSize, DataSize := dataSize }, none)

/-- An `io.Reader` over an in-memory stream: the bytes not yet read; the
stream ends (EOF) after them. -/
abbrev Reader := List Byte

/-- Go `io.ReadFull(reader, buf)` for `len(buf) = n`: the contents of `buf`
afterwards, the error, and the reader afterwards. -/
def ReadFull (reader : Reader) (n : Nat) : List Byte × Option GoError × Reader :=
  if n ≤ reader.length then (reader.take n, none, reader.drop n)
  else if reader.length = 0 then (List.replicate n 0, some GoError.EOF, [])
  else (copy (List.replicate n 0) reader, some GoError.ErrUnexpectedEOF, [])

/-- Go `PacketFromReader(reader)`: the returned packet and error (`none` is a
panic), and the reader afterwards. -/
def PacketFromReader (reader : Reader) : Option (Packet × Option GoError) × Reader :=
  let p := Packet.zero
  match ReadFull reader 12 with
  | (_, some e, reader) => (some (p, some e), reader)
  | (header, none, reader) =>
    match p.fillHeaderFromBytes header with
    | none => (none, reader)
    | some (p, _) =>
      match ReadFull reader p.InfoSize with
      | (_, some e, reader) => (some (p, some e), reader)
      | (info, none, reader) =>
        let p := { p with Info := info }
        match ReadFull reader p.DataSize with
        | (_, some e, reader) => (some (p, some e), reader)
        | (data, none, reader) => (some ({ p with Data := data }, none), reader)

/-- A `net.Conn` seen from one side. -/
structure Conn where
  /-- bytes sent by the peer and not read yet -/
  incoming : Reader
  /-- bytes written by this side so far -/
  outgoing : List Byte
  deriving DecidableEq, Repr

/-- Go `conn.Write(b)` on an open connection. -/
def Conn.Write (conn : Conn) (b : List Byte) : Conn × Nat × Option GoError :=
  ({ conn with outgoing := conn.outgoing ++ b }, b.length, none)

/-- Go `(*Packet).WriteTo(writer)`. -/
def Packet.WriteTo (p : Packet) (conn : Conn) : Option (Conn × Nat × Option GoError) :=
  p.ToBytes.map conn.Write

/-! ## message.go -/

/-- A Go `string`: its bytes. -/
abbrev GoString := List Byte

def PacketTypeMessage : Nat := 2

/-- Go `NewMessage(info, content)`. -/
def NewMessage (info content : GoString) : Packet :=
  NewPacket PacketTypeMessage info content

/-- Go `PacketAsMessage(packet)`: the view shares the packet. -/
def PacketAsMessage (packet : Packet) : Packet := packet

def Message.GetInfo (m : Packet) : GoString := m.Info

def Message.SetInfo (m : Packet) (info : GoString) : Packet :=
  { m with Info := info, InfoSize := info.length % 2 ^ 32 }

def Message.GetContent (m : Packet) : GoString := m.Data

def Message.SetContent (m : Packet) (content : GoString) : Packet :=
  { m with Data := content, DataSize := content.length % 2 ^ 32 }

/-! ## big_file.go: typed views -/

def DefaultBlockSize : Nat := 1 * 1024 * 1024

def PacketTypeBigFileHeader : Nat := 4

def PacketTypeBigFileRequest : Nat := 5

def PacketTypeBigFileResponse : Nat := 6

/-- Go `PacketAsBigFileHeader(packet)`. -/
def PacketAsBigFileHeader (packet : Packet) : Packet := packet

def BigFileHeader.FileID (b : Packet) : List Byte := b.Info

def BigFileHeader.SetFileID (b : Packet) (fileID : List Byte) : Packet :=
  { b with Info := fileID, InfoSize := fileID.length % 2 ^ 32 }

/-- Go `string(b.Data[8:])`. -/
def BigFileHeader.FileName (b : Packet) : Option GoString :=
  slice b.Data 8 b.Data.length

def BigFileHeader.SetFileName (b : Packet) (fileName : GoString) : Option Packet :=
  let dataSize := (8 + fileName.length) % 2 ^ 32
  let buf := List.replicate dataSize (0 : Byte)
  (if b.Data.length ≥ 8 then (slice b.Data 0 8).map (copy buf) else some buf).bind fun buf =>
  (onSlice buf 8 buf.length (fun d => some (copy d fileName))).map fun buf =>
  { b with DataSize := dataSize, Data := buf }

/-- Go `binary.BigEndian.Uint64(b.Data[:8])`. -/
def BigFileHeader.FileSize (b : Packet) : Option Nat :=
  (slice b.Data 0 8).bind Uint64

def BigFileHeader.SetFileSize (b : Packet) (fileSize : Nat) : Option Packet :=
  let b := if b.DataSize < 8 then { b with DataSize := 8, Data := List.replicate 8 0 } else b
  (onSlice b.Data 0 8 (fun d => PutUint64 d fileSize)).map fun d => { b with Data := d }

def BigFileHeader.FileHash (b : Packet) : List Byte := BigFileHeader.FileID b

def BigFileHeader.SetFileHash (b : Packet) (fileHash : List Byte) : Packet :=
  BigFileHeader.SetFileID b fileHash

/-- Go `NewBigFileHeader(fileID, fileName, fileSize)`. -/
def NewBigFileHeader (fileID : List Byte) (fileName : GoString) (fileSize : Nat) :
    Option Packet :=
  let h := NewPacket PacketTypeBigFileHeader [] []
  let h := BigFileHeader.SetFileID h fileID
  (BigFileHeader.SetFileName h fileName).bind fun h =>
  BigFileHeader.SetFileSize h fileSize

/-- Go `PacketAsBigFileRequest(packet)`. -/
def PacketAsBigFileRequest (packet : Packet) : Packet := packet

def BigFileRequest.FileID (b : Packet) : List Byte := b.Info

def BigFileRequest.SetFileID (b : Packet) (fileID : List Byte) : Packet :=
  { b with Info := fileID, InfoSize := fileID.length % 2 ^ 32 }

/-- Go `binary.BigEndian.Uint64(b.Data[:8])`. -/
def BigFileRequest.Start (b : Packet) : Option Nat :=
  (slice b.Data 0 8).bind Uint64

def BigFileRequest.SetStart (b : Packet) (start : Nat) : Option Packet :=
  let b := if b.Data.length < 16 then { b with Data := List.replicate 16 0, DataSize := 16 } else b
  (onSlice b.Data 0 8 (fun d => PutUint64 d start)).map fun d => { b with Data := d }

/-- Go `binary.BigEndian.Uint64(b.Data[8:])`. -/
def BigFileRequest.Length (b : Packet) : Option Nat :=
  (slice b.Data 8 b.Data.length).bind Uint64

def BigFileRequest.SetLength (b : Packet) (length : Nat) : Option Packet :=
  let b := if b.Data.length < 16 then { b with Data := List.replicate 16 0, DataSize := 16 } else b
  (onSlice b.Data 8 b.Data.length (fun d => PutUint64 d length)).map fun d => { b with Data := d }

/-- Go `NewBigFileRequest(fileID, start, length)`. -/
def NewBigFileRequest (fileID : List Byte) (start length : Nat) : Option Packet :=
  let r := NewPacket PacketTypeBigFileRequest [] []
  let r := BigFileRequest.SetFileID r fileID
  (BigFileRequest.SetStart r start).bind fun r =>
  BigFileRequest.SetLength r length

/-- Go `PacketAsBigFileResponse(packet)`. -/
def PacketAsBigFileResponse (packet : Packet) : Packet := packet

def BigFileResponse.FileContent (b : Packet) : List Byte := b.Data

def BigFileResponse.SetFileContent (b : Packet) (fileContent : List Byte) : Packet :=
  { b with Data := fileContent, DataSize := fileContent.length % 2 ^ 32 }

/-- Go `binary.BigEndian.Uint64(b.Info[:8])`. -/
def BigFileResponse.Start (b : Packet) : Option Nat :=
  (slice b.Info 0 8).bind Uint64

def BigFileResponse.SetStart (b : Packet) (start : Nat) : Option Packet :=
  let b := if b.InfoSize < 8 then { b with InfoSize := 8, Info := List.replicate 8 0 } else b
  (onSlice b.Info 0 8 (fun d => PutUint64 d start)).map fun d => { b with Info := d }

/-- Go `b.Info[8:]`. -/
def BigFileResponse.FileID (b : Packet) : Option (List Byte) :=
  slice b.Info 8 b.Info.length

def BigFileResponse.SetFileID (b : Packet) (fileID : List Byte) : Option Packet :=
  let infoSize := (8 + fileID.length) % 2 ^ 32
  let buf := List.replicate infoSize (0 : Byte)
  (if b.Info.length ≥ 8 then (slice b.Info 0 8).map (copy buf) else some buf).bind fun buf =>
  (onSlice buf 8 buf.length (fun d => some (copy d fileID))).map fun buf =>
  { b with InfoSize := infoSize, Info := buf }

/-- Go `NewBigFileResponse(fileID, start, fileContent)`. -/
def NewBigFileResponse (fileID : List Byte) (start : Nat) (fileContent : List Byte) :
    Option Packet :=
  let r := NewPacket PacketTypeBigFileResponse [] []
  (BigFileResponse.SetFileID r fileID).bind fun r =>
  (BigFileResponse.SetStart r start).map fun r =>
  BigFileResponse.SetFileContent r fileContent

/-- One lowercase hexadecimal digit, as its ASCII byte. -/
def hexDigit (n : Nat) : Byte :=
  if n < 10 then toByte (48 + n) else toByte (87 + n)

/-- Go `FileIDString(fileID)`, that is `fmt.Sprintf("%x", fileID)`: two lowercase
hexadecimal digits per byte. -/
def FileIDString : List Byte → GoString
  | [] => []
  | b :: bs => hexDigit (b.val / 16) :: hexDigit (b.val % 16) :: FileIDString bs

/-! ## big_file.go: sender -/

/-- A `sync.Map` with string keys: the stored entries, the latest first. -/
abbrev SyncMap (V : Type) := List (GoString × V)

def SyncMap.Load {V : Type} (m : SyncMap V) (key : GoString) : Option V :=
  List.lookup key m

def SyncMap.Store {V : Type} (m : SyncMap V) (key : GoString) (value : V) : SyncMap V :=
  (key, value) :: m

/-- Largest file of the model: one block below the largest `int64` offset, so
that a block can be read at every offset inside a file. -/
def MaxFileSize : Nat := MaxInt - DefaultBlockSize

/-- A regular file on disk: its contents.  File sizes and offsets are `int64`;
a file within one block of `2 ^ 63 - 1` bytes, whose last block `pread` refuses
to read, is outside the model. -/
structure File where
  contents : List Byte
  size_le : contents.length ≤ MaxFileSize

/-- The files `os.Open` can open, by path; `none` when `os.Open` fails. -/
abbrev FileSystem := GoString → Option File

structure BigFileSender where
  /-- From the file id string to the path of the file -/
  filePathMap : SyncMap GoString
  /-- From the file id string to the header of the file -/
  headerMap : SyncMap Packet

/-- Go `NewBigFileSender()`. -/
def NewBigFileSender : BigFileSender := { filePathMap := [], headerMap := [] }

/-- Go `(*BigFileSender).AppendFile(filePath)`.  `md5sum` is the MD5 digest of
`crypto/md5` and `base` is `filepath.Base`, both outside this repository. -/
def BigFileSender.AppendFile (s : BigFileSender) (fs : FileSystem)
    (md5sum : List Byte → List Byte) (base : GoString → GoString) (filePath : GoString) :
    Option BigFileSender :=
  let fileName := base filePath
  match fs filePath with
  | none => some s
  | some file =>
    let fileSize := file.contents.length
    let fileHash := md5sum file.contents
    let fileIDString := FileIDString fileHash
    (NewBigFileHeader fileHash fileName (fileSize % 2 ^ 64)).map fun header =>
      { filePathMap := SyncMap.Store s.filePathMap fileIDString filePath
        headerMap := SyncMap.Store s.headerMap fileIDString header }

/-- Go conversion `int64(x)` of a `uint64`. -/
def int64 (x : Nat) : Int :=
  if x % 2 ^ 64 < 2 ^ 63 then ((x % 2 ^ 64 : Nat) : Int) else ((x % 2 ^ 64 : Nat) : Int) - 2 ^ 64

/-- Go `(*os.File).ReadAt(buf, off)` on a regular file: the count `n`, the
contents of `buf` afterwards, and the error.  A negative offset is an error;
with an empty `buf` nothing is read; `pread` fails with `EINVAL` when
`off + len(buf)` is beyond the largest `int64`; fewer than `len(buf)` bytes are
read only at end of file, with `io.EOF`. -/
def File.ReadAt (file : File) (buf : List Byte) (off : Int) :
    Nat × List Byte × Option GoError :=
  if off < 0 then (0, buf, some GoError.negativeOffset)
  else if buf.length = 0 then (0, buf, none)
  else if off.toNat + buf.length > MaxInt then (0, buf, some GoError.invalidArgument)
  else
    let got := (file.contents.drop off.toNat).take buf.length
    (got.length, copy buf got, if got.length < buf.length then some GoError.EOF else none)

/-- Go `BigFileSender.responseReq(req)`, reading files from `fs`. -/
def BigFileSender.responseReq (s : BigFileSender) (fs : FileSystem) (req : Packet) :
    Result Packet :=
  match SyncMap.Load s.filePathMap (FileIDString (BigFileRequest.FileID req)) with
  | none => Result.err GoError.resourceNotFound
  | some filePath =>
    match fs filePath with
    | none => Result.err GoError.openFailed
    | some file =>
      match (BigFileRequest.Length req).bind makeBytes, BigFileRequest.Start req with
      | some buf, some start =>
        match file.ReadAt buf (int64 start) with
        | (n, buf, err) =>
          if err ≠ none ∧ err ≠ some GoError.EOF then Result.err GoError.readFileError
          else
            match (slice buf 0 n).bind (NewBigFileResponse (BigFileRequest.FileID req) start) with
            | none => Result.panic
            | some resp => Result.ok resp
      | _, _ => Result.panic

/-! ## big_file.go: receiver worker -/

/-- A Go channel: its capacity and the values waiting in its buffer, the oldest
first. -/
structure Chan (α : Type) where
  cap : Nat
  buf : List α
  deriving DecidableEq, Repr

/-- Go `make(chan T, cap)`. -/
def Chan.make {α : Type} (cap : Nat) : Chan α := { cap := cap, buf := [] }

/-- A send that can proceed at once: the channel afterwards, when the buffer has
room. -/
def Chan.trySend {α : Type} (c : Chan α) (v : α) : Option (Chan α) :=
  if c.buf.length < c.cap then some { c with buf := c.buf ++ [v] } else none

/-- A receive that can proceed at once: the oldest buffered value and the
channel afterwards. -/
def Chan.tryRecv {α : Type} (c : Chan α) : Option (α × Chan α) :=
  match c.buf with
  | [] => none
  | v :: rest => some (v, { c with buf := rest })

structure BigFileReceiverWorker where
  header : Packet
  saveDir : GoString
  /-- Field `blockSize uint64` -/
  blockSize : Nat
  /-- Field `numBlock uint64` -/
  numBlock : Nat
  savedBlock : List Bool
  /-- Field `done chan string` (`none` is the nil channel) -/
  done : Option (Chan GoString) := none
  /-- Field `wait chan int` (`none` is the nil channel) -/
  wait : Option (Chan Nat) := none
  /-- Field `allSaved chan bool` (`none` is the nil channel) -/
  allSaved : Option (Chan Bool) := none
  deriving DecidableEq, Repr

/-- Go `NewBigFileReceiverWorker(header)`. -/
def NewBigFileReceiverWorker (header : Packet) : BigFileReceiverWorker :=
  { header := header, saveDir := [], blockSize := DefaultBlockSize, numBlock := 0,
    savedBlock := [] }

/-- Go `(*BigFileReceiverWorker)._numBlock`, in `uint64` arithmetic; division
by a zero block size panics. -/
def BigFileReceiverWorker._numBlock (w : BigFileReceiverWorker) : Option Nat :=
  (BigFileHeader.FileSize w.header).bind fun fileSize =>
  if w.blockSize = 0 then none
  else
    let n := fileSize / w.blockSize
    let r := fileSize % w.blockSize
    if r > 0 then some ((n + 1) % 2 ^ 64) else some n

/-- Go `(*BigFileReceiverWorker).requestDownload(blockIndex, conn)` for a
non-negative `blockIndex`: the connection afterwards and the returned error. -/
def BigFileReceiverWorker.requestDownload (w : BigFileReceiverWorker) (blockIndex : Nat)
    (conn : Conn) : Option (Conn × Option GoError) :=
  let start := (w.blockSize * (blockIndex % 2 ^ 64)) % 2 ^ 64
  (NewBigFileRequest (BigFileHeader.FileID w.header) start w.blockSize).bind fun req =>
  (req.WriteTo conn).map fun (conn, _, err) => (conn, err)

/-! ## Specification-level definitions -/

/-- The twelve header bytes of the wire layout: `Type`, `InfoSize`, `DataSize`
big endian, then two reserved zero bytes. -/
def wireHeader (typ infoSize dataSize : Nat) : List Byte :=
  [toByte (typ / 2 ^ 8), toByte typ,
   toByte (infoSize / 2 ^ 24), toByte (infoSize / 2 ^ 16), toByte (infoSize / 2 ^ 8),
   toByte infoSize,
   toByte (dataSize / 2 ^ 24), toByte (dataSize / 2 ^ 16), toByte (dataSize / 2 ^ 8),
   toByte dataSize, 0, 0]

/-- The `n`-byte big-endian representation of `v` (of `v % 256 ^ n`): the most
significant byte first. -/
def bigEndian : Nat → Nat → List Byte
  | 0, _ => []
  | n + 1, v => bigEndian n (v / 256) ++ [toByte v]

/-- The number a byte sequence denotes when read big endian. -/
def bigEndianValue (bs : List Byte) : Nat :=
  bs.foldl (fun acc b => acc * 256 + b.val) 0

/-- The size fields of a packet agree with the lengths of its buffers. -/
def SizesAgree (p : Packet) : Prop :=
  p.InfoSize = p.Info.length ∧ p.DataSize = p.Data.length

instance (p : Packet) : Decidable (SizesAgree p) := by
  unfold SizesAgree
  infer_instance

/-- The sender state `AppendFile` establishes for a file: the file id is a
16-byte MD5 digest, the path of the file is stored under the hex string of the
id, and `os.Open` of that path gives the file. -/
def Advertised (s : BigFileSender) (fs : FileSystem) (fileID : List Byte) (file : File) :
    Prop :=
  fileID.length = 16 ∧
    ∃ filePath, SyncMap.Load s.filePathMap (FileIDString fileID) = some filePath ∧
      fs filePath = some file

/-- The response the sender produces for the request the worker writes for
block `blockIndex`, if it produces one: `requestDownload` on a fresh connection
on the worker's side, then, as in the loop of `sendResponse`, `PacketFromReader`
on the bytes written, the type test, and `responseReq` on the decoded request. -/
def blockResponse (s : BigFileSender) (fs : FileSystem) (w : BigFileReceiverWorker)
    (blockIndex : Nat) : Option Packet :=
  match w.requestDownload blockIndex { incoming := [], outgoing := [] } with
  | some (conn, none) =>
    match PacketFromReader conn.outgoing with
    | (some (packet, none), _) =>
      if packet.Typ = PacketTypeBigFileRequest then
        match s.responseReq fs (PacketAsBigFileRequest packet) with
        | Result.ok resp => some resp
        | _ => none
      else none
    | _ => none
  | _ => none

/-- The block bytes carried by the sender's response for block `blockIndex`. -/
def blockContent (s : BigFileSender) (fs : FileSystem) (w : BigFileReceiverWorker)
    (blockIndex : Nat) : Option (List Byte) :=
  (blockResponse s fs w blockIndex).map BigFileResponse.FileContent

/-- The contents of the responses for blocks `0 .. n-1`, concatenated in
ascending index order; `none` when one of them is missing. -/
def blockContents (s : BigFileSender) (fs : FileSystem) (w : BigFileReceiverWorker) :
    Nat → Option (List Byte)
  | 0 => some []
  | n + 1 =>
    (blockContents s fs w n).bind fun acc =>
    (blockContent s fs w n).map fun block => acc ++ block

/-! ## A small sender and receiver worker -/

/-- A 16-byte file id. -/
def demoFileID : List Byte := List.replicate 16 7

/-- The path "a". -/
def demoPath : GoString := [97]

/-- A five-byte file. -/
def demoFile : File := { contents := [10, 11, 12, 13, 14], size_le := by decide }

/-- A file system holding `demoFile` at `demoPath`. -/
def demoFS : FileSystem := fun filePath => if filePath = demoPath then some demoFile else none

/-- A sender advertising `demoFile` under `demoFileID`. -/
def demoSender : BigFileSender :=
  { filePathMap := SyncMap.Store [] (FileIDString demoFileID) demoPath
    headerMap := [] }

/-- The header `AppendFile` builds for `demoFile`. -/
def demoHeader : Packet :=
  (NewBigFileHeader demoFileID demoPath demoFile.contents.length).getD Packet.zero

/-- A worker for `demoFile` with the given block size. -/
def demoWorker (blockSize : Nat) : BigFileReceiverWorker :=
  { NewBigFileReceiverWorker demoHeader with blockSize := blockSize }

/-! ## The receiver's working directory

The working directory of the receiver holds regular files and directories of
regular files (the staging directories).  Paths are relative to the working
directory and are followed component by component, as Linux does: `.` and an
empty component stay where they are, `..` leads from a directory back to the
working directory, a name is at most `NAME_MAX` bytes and a path shorter than
`PATH_MAX` bytes.  A path that leaves the working directory (an absolute path,
`..` at the working directory) is outside the model; there are no symbolic
links. -/

/-- The files of a directory, by name. -/
abbrev Dir := List (GoString × List Byte)

/-- An entry of the working directory. -/
inductive Node where
  /-- A regular file with its contents -/
  | file : List Byte → Node
  /-- A directory of regular files -/
  | dir : Dir → Node
  deriving DecidableEq, Repr

/-- The working directory of the receiver. -/
structure Disk where
  entries : List (GoString × Node)
  deriving DecidableEq, Repr

/-- Remove the entries stored under a key. -/
def kvErase {V : Type} (key : GoString) (l : List (GoString × V)) : List (GoString × V) :=
  l.filter (fun e => e.1 != key)

/-- Store a value under a key, replacing what was there. -/
def kvSet {V : Type} (key : GoString) (value : V) (l : List (GoString × V)) :
    List (GoString × V) :=
  (key, value) :: kvErase key l

/-- The longest file name Linux accepts, in bytes. -/
def NAME_MAX : Nat := 255

/-- The length from which Linux refuses a path (the limit counts the final
NUL). -/
def PATH_MAX : Nat := 4096

/-- A file or directory name: not empty, without `/` and NUL, neither `.` nor
`..`, and at most `NAME_MAX` bytes long. -/
def plainName (name : GoString) : Bool :=
  name != [] && !name.contains 47 && !name.contains 0 && name != [46] && name != [46, 46]
    && decide (name.length ≤ NAME_MAX)

/-- The components of a path: the pieces between its slashes. -/
def splitPath : GoString → List GoString
  | [] => [[]]
  | c :: cs =>
    if c = 47 then [] :: splitPath cs
    else
      match splitPath cs with
      | [] => [[c]]
      | comp :: rest => (c :: comp) :: rest

/-- The components joined by slashes. -/
def joinSlash : List GoString → GoString
  | [] => []
  | [c] => c
  | c :: d :: rest => c ++ 47 :: joinSlash (d :: rest)

/-- The loop of Go `path.Clean` over the components of a path; `out` holds the
components kept so far, the last one first.  Empty components and `.` are
dropped; `..` removes the component before it, is dropped at the root, and is
kept at the start of a path that is not rooted. -/
def cleanStack (rooted : Bool) : List GoString → List GoString → List GoString
  | [], out => out.reverse
  | c :: cs, out =>
    if c = [] ∨ c = [46] then cleanStack rooted cs out
    else if c = [46, 46] then
      match out with
      | last :: before =>
        if last = [46, 46] then cleanStack rooted cs (c :: out)
        else cleanStack rooted cs before
      | [] => if rooted then cleanStack rooted cs [] else cleanStack rooted cs [c]
    else cleanStack rooted cs (c :: out)

/-- Go `path.Clean(path)`. -/
def pathClean (path : GoString) : GoString :=
  if path = [] then [46]
  else if path.head? = some 47 then
    47 :: joinSlash (cleanStack true (splitPath path) [])
  else if cleanStack false (splitPath path) [] = [] then [46]
  else joinSlash (cleanStack false (splitPath path) [])

/-- Go `path.Join(dir, name)`: the operands joined by a slash, an empty `dir`
left out, and the result cleaned; two empty operands give the empty string. -/
def pathJoin (dir name : GoString) : GoString :=
  if dir = [] ∧ name = [] then []
  else if dir = [] then pathClean name
  else pathClean (dir ++ 47 :: name)

/-- The result of following a path. -/
inductive Sys (α : Type) where
  /-- The path leads to a place -/
  | ok : α → Sys α
  /-- The operating system refuses the path -/
  | error : Sys α
  /-- The path leaves the working directory -/
  | unsupported : Sys α
  deriving DecidableEq, Repr

/-- The place a path leads to. -/
inductive Loc where
  /-- The working directory itself -/
  | cwd : Loc
  /-- An entry of the working directory, which may or may not exist -/
  | top : GoString → Loc
  /-- An entry of a directory of the working directory, which may or may not
  exist -/
  | inDir : GoString → GoString → Loc
  deriving DecidableEq, Repr

/-- Whether the working directory has a directory of this name. -/
def Disk.isDir (disk : Disk) (name : GoString) : Bool :=
  match List.lookup name disk.entries with
  | some (Node.dir _) => true
  | _ => false

/-- Follow the components of a path from a place.  Going on from a place needs a
directory there: nothing lies beyond a regular file, a missing entry, or an
entry of a directory (directories hold regular files only). -/
def Disk.walk (disk : Disk) : Loc → List GoString → Sys Loc
  | loc, [] => Sys.ok loc
  | loc, c :: cs =>
    match loc with
    | Loc.inDir _ _ => Sys.error
    | Loc.top d =>
      if disk.isDir d = false then Sys.error
      else if c = [] ∨ c = [46] then disk.walk (Loc.top d) cs
      else if c = [46, 46] then disk.walk Loc.cwd cs
      else if c.length > NAME_MAX then Sys.error
      else disk.walk (Loc.inDir d c) cs
    | Loc.cwd =>
      if c = [] ∨ c = [46] then disk.walk Loc.cwd cs
      else if c = [46, 46] then Sys.unsupported
      else if c.length > NAME_MAX then Sys.error
      else disk.walk (Loc.top c) cs

/-- The place a path leads to.  The empty path, a path with a NUL byte and a
path of `PATH_MAX` bytes or more are refused before any component is looked
at. -/
def Disk.locate (disk : Disk) (path : GoString) : Sys Loc :=
  if path = [] then Sys.error
  else if path.contains 0 then Sys.error
  else if path.length ≥ PATH_MAX then Sys.error
  else if path.head? = some 47 then Sys.unsupported
  else disk.walk Loc.cwd (splitPath path)

/-- The regular files of the working directory itself. -/
def Disk.files (disk : Disk) : Dir :=
  disk.entries.filterMap fun e =>
    match e.2 with
    | Node.file contents => some (e.1, contents)
    | Node.dir _ => none

/-- What is at a place, `none` when nothing is. -/
def Disk.nodeAt (disk : Disk) : Loc → Option Node
  | Loc.cwd => some (Node.dir disk.files)
  | Loc.top name => List.lookup name disk.entries
  | Loc.inDir d name =>
    match List.lookup d disk.entries with
    | some (Node.dir files) => (List.lookup name files).map Node.file
    | _ => none

/-- Create or replace the regular file at a place; `none` when the place is a
directory or its directory is missing. -/
def Disk.putAt (disk : Disk) (loc : Loc) (contents : List Byte) : Option Disk :=
  match loc with
  | Loc.cwd => none
  | Loc.top name =>
    match List.lookup name disk.entries with
    | some (Node.dir _) => none
    | _ => some { entries := kvSet name (Node.file contents) disk.entries }
  | Loc.inDir d name =>
    match List.lookup d disk.entries with
    | some (Node.dir files) =>
      some { entries := kvSet d (Node.dir (kvSet name contents files)) disk.entries }
    | _ => none

/-- Remove the regular file or the empty directory at a place; `none` when
there is neither. -/
def Disk.removeAt (disk : Disk) (loc : Loc) : Option Disk :=
  match loc with
  | Loc.cwd => none
  | Loc.top name =>
    match List.lookup name disk.entries with
    | some (Node.file _) => some { entries := kvErase name disk.entries }
    | some (Node.dir []) => some { entries := kvErase name disk.entries }
    | _ => none
  | Loc.inDir d name =>
    match List.lookup d disk.entries with
    | some (Node.dir files) =>
      match List.lookup name files with
      | some _ => some { entries := kvSet d (Node.dir (kvErase name files)) disk.entries }
      | none => none
    | _ => none

/-- Go `os.Stat(path)`: the entry at the path, `none` when there is none or the
path is not followed to a place. -/
def Disk.stat (disk : Disk) (path : GoString) : Option Node :=
  match disk.locate path with
  | Sys.ok loc => disk.nodeAt loc
  | _ => none

/-- The contents of the regular file at a path (`os.Open` and reading to the
end); `none` when it cannot be opened or read. -/
def Disk.readFile (disk : Disk) (path : GoString) : Option (List Byte) :=
  match disk.stat path with
  | some (Node.file contents) => some contents
  | _ => none

/-- Create or replace the regular file at a path with the given contents
(`os.OpenFile` with `O_WRONLY|O_TRUNC|O_CREATE` and one `Write`); `none` when
the file cannot be opened. -/
def Disk.putFile (disk : Disk) (path : GoString) (contents : List Byte) : Option Disk :=
  match disk.locate path with
  | Sys.ok loc => disk.putAt loc contents
  | _ => none

/-- Append to the regular file at a path (a `Write` through a handle opened
with `O_APPEND|O_WRONLY`); `none` when there is no such file. -/
def Disk.appendFile (disk : Disk) (path : GoString) (more : List Byte) : Option Disk :=
  match disk.readFile path with
  | some contents => disk.putFile path (contents ++ more)
  | none => none

/-- Go `os.Remove(path)`: a regular file or an empty directory is removed;
`none` on error. -/
def Disk.remove (disk : Disk) (path : GoString) : Option Disk :=
  match disk.locate path with
  | Sys.ok loc => disk.removeAt loc
  | _ => none

/-- Go `os.Rename(oldpath, newpath)` of a regular file; `none` on error.  The
new path must lead to a place that is not a directory, in a directory that
exists; a path that names the file itself leaves the disk as it is.  A
directory at `oldpath` is outside the model. -/
def Disk.rename (disk : Disk) (oldpath newpath : GoString) : Option Disk :=
  match disk.locate oldpath, disk.readFile oldpath, disk.locate newpath with
  | Sys.ok src, some contents, Sys.ok dst =>
    if src = dst then some disk
    else
      match disk.nodeAt dst with
      | some (Node.dir _) => none
      | _ => (disk.removeAt src).bind fun disk => disk.putAt dst contents
  | _, _, _ => none

/-- The test `endsWithDot` of `os.RemoveAll`: the path is `.` or ends in
`/.`. -/
def endsWithDot (path : GoString) : Bool :=
  path = [46] || [47, 46].isSuffixOf path

/-- Go `os.RemoveAll(path)`: the disk afterwards (the error is dropped by the
caller).  A path that ends in a dot is refused, a path that is not followed to
a place removes nothing, and what is at the place goes with all it holds.  A
path that leads back to the working directory without ending in a dot is
outside the model. -/
def Disk.removeAll (disk : Disk) (path : GoString) : Disk :=
  if endsWithDot path then disk
  else
    match disk.locate path with
    | Sys.ok (Loc.top name) => { entries := kvErase name disk.entries }
    | Sys.ok (Loc.inDir d name) =>
      match List.lookup d disk.entries with
      | some (Node.dir files) =>
        { entries := kvSet d (Node.dir (kvErase name files)) disk.entries }
      | _ => disk
    | _ => disk

/-- Go `os.Mkdir(path, 0755)` for a path that leads to an entry of the working
directory; `none` on error (directories inside directories are outside the
model). -/
def Disk.mkdir (disk : Disk) (path : GoString) : Option Disk :=
  match disk.locate path with
  | Sys.ok (Loc.top name) =>
    match List.lookup name disk.entries with
    | none => some { entries := kvSet name (Node.dir []) disk.entries }
    | some _ => none
  | _ => none

/-! ## fmt: `%d` -/

/-- The decimal digits of `n` in front of `acc`, with `fuel` digits at most. -/
def decimalAux : Nat → Nat → List Byte → List Byte
  | 0, _, acc => acc
  | fuel + 1, n, acc =>
    if n < 10 then toByte (48 + n) :: acc
    else decimalAux fuel (n / 10) (toByte (48 + n % 10) :: acc)

/-- Go `fmt.Sprintf("%d", n)` for an unsigned `n`. -/
def decimal (n : Nat) : GoString := decimalAux (n + 1) n []

/-- The width in bytes of the white-space rune at the head of a string, `0` when
the string does not start with one: the runes of `isSpace` in `fmt/scan.go`
other than the newline, in UTF-8 (U+0009, U+000B to U+000D, U+0020, U+0085,
U+00A0, U+1680, U+2000 to U+200A, U+2028, U+2029, U+202F, U+205F, U+3000). -/
def spaceWidth : GoString → Nat
  | [] => 0
  | c :: rest =>
    if c = 9 ∨ c = 11 ∨ c = 12 ∨ c = 13 ∨ c = 32 then 1
    else
      match rest with
      | [] => 0
      | d :: rest =>
        if c = 0xC2 ∧ (d = 0x85 ∨ d = 0xA0) then 2
        else
          match rest with
          | [] => 0
          | e :: _ =>
            if (c = 0xE1 ∧ d = 0x9A ∧ e = 0x80)
                ∨ (c = 0xE2 ∧ d = 0x80 ∧
                    ((0x80 ≤ e.val ∧ e.val ≤ 0x8A) ∨ e = 0xA8 ∨ e = 0xA9 ∨ e = 0xAF))
                ∨ (c = 0xE2 ∧ d = 0x81 ∧ e = 0x9F)
                ∨ (c = 0xE3 ∧ d = 0x80 ∧ e = 0x80) then 3
            else 0

/-- The loop of `SkipSpace`, at most `fuel` runes. -/
def skipSpaceAux : Nat → GoString → Option GoString
  | 0, s => some s
  | fuel + 1, s =>
    match s with
    | [] => some []
    | c :: cs =>
      if c = 10 then none
      else if spaceWidth (c :: cs) = 0 then some (c :: cs)
      else skipSpaceAux fuel ((c :: cs).drop (spaceWidth (c :: cs)))

/-- The `SkipSpace` of `fmt.Sscanf`: `none` is the error "unexpected newline". -/
def skipSpace (s : GoString) : Option GoString := skipSpaceAux s.length s

def isDigit (b : Byte) : Bool := 48 ≤ b.val && b.val ≤ 57

/-- The number denoted by decimal digits. -/
def digitsValue (ds : List Byte) : Nat :=
  ds.foldl (fun v d => v * 10 + (d.val - 48)) 0

/-- Go `fmt.Sscanf(str, "%d", &p)` for an `int` variable holding `p`: the value
of the variable afterwards.  Leading white space is skipped, then an optional
sign and at least one digit are read; on an error (no digit, a newline, a value
outside `int64`) the variable keeps its value. -/
def Sscanf_d (str : GoString) (p : Int) : Int :=
  match skipSpace str with
  | none => p
  | some rest =>
    let neg : Bool := match rest with
      | 45 :: _ => true
      | _ => false
    let body : GoString := match rest with
      | 45 :: r => r
      | 43 :: r => r
      | r => r
    let ds := body.takeWhile isDigit
    if ds = [] then p
    else if neg then (if digitsValue ds ≤ 2 ^ 63 then -((digitsValue ds : Nat) : Int) else p)
    else (if digitsValue ds ≤ 2 ^ 63 - 1 then ((digitsValue ds : Nat) : Int) else p)

/-- Go `strings.HasSuffix(s, suffix)`. -/
def HasSuffix (s suffix : GoString) : Bool := suffix.isSuffixOf s

/-- The string ".block". -/
def blockExt : GoString := [46, 98, 108, 111, 99, 107]

/-! ## big_file.go: the receiver worker on its disk and connection -/

/-- How a piece of the receiver ends. -/
inductive Exec (α : Type) where
  /-- It returns -/
  | done : α → Exec α
  /-- A call of `log.Fatal` ends the process; the disk at that moment -/
  | fatal : Disk → Exec α
  /-- A run-time panic -/
  | panic : Exec α
  /-- It waits for a frame that never comes -/
  | blocked : Exec α
  /-- It is still running when the fuel of the model is used up -/
  | timeout : Exec α
  /-- It reaches behaviour outside the model (a second worker, a simple file, a
  staging directory without a plain name, a path that leaves the working
  directory) -/
  | unsupported : Exec α
  deriving DecidableEq, Repr

/-- Sequencing of pieces of the receiver. -/
def Exec.bind {α β : Type} (x : Exec α) (f : α → Exec β) : Exec β :=
  match x with
  | Exec.done a => f a
  | Exec.fatal disk => Exec.fatal disk
  | Exec.panic => Exec.panic
  | Exec.blocked => Exec.blocked
  | Exec.timeout => Exec.timeout
  | Exec.unsupported => Exec.unsupported

/-- What the worker did on the connection, in order (a record kept beside the
state, not a variable of the program). -/
inductive Event where
  /-- The worker wrote the REQUEST for a block index -/
  | request : Nat → Event
  /-- `Receive` processed the RESPONSE for a block -/
  | response : Nat → Event
  deriving DecidableEq, Repr

/-- How the operating system fails a call of `saveBlock`. -/
inductive SaveFault where
  /-- The call of `os.OpenFile` returns an error; the disk is as before -/
  | openFails : SaveFault
  /-- The file is created or truncated, then `file.Write` returns an error
  after writing this many bytes -/
  | writeFails : Nat → SaveFault
  deriving DecidableEq, Repr

/-- The surroundings of a worker: the disk, the connection, the record of
requests written and responses processed, and what the operating system will do
to the coming calls of `saveBlock` (one entry a call, `none` and an exhausted
list for no failure). -/
structure World where
  disk : Disk
  conn : Conn
  trace : List Event
  faults : List (Option SaveFault) := []
  deriving DecidableEq, Repr

/-- The other end of the connection: the bytes it sends in reaction to the bytes
of one write. -/
abbrev Peer := List Byte → List Byte

/-- The connection after the peer has reacted to what was written since
`before`. -/
def Conn.deliver (peer : Peer) (before after : Conn) : Conn :=
  { after with
    incoming := after.incoming ++ peer (after.outgoing.drop before.outgoing.length) }

/-- Go `(*BigFileReceiverWorker)._saveDir`: `fmt.Sprintf(".%s", fileIDString)`. -/
def BigFileReceiverWorker._saveDir (w : BigFileReceiverWorker) : GoString :=
  46 :: FileIDString (BigFileHeader.FileID w.header)

/-- Go `BigFileReceiverWorker.BlockTmpFilePath(block)`. -/
def BigFileReceiverWorker.BlockTmpFilePath (w : BigFileReceiverWorker) (block : Nat) :
    GoString :=
  pathJoin w.saveDir (decimal block ++ blockExt)

/-- Go `(*BigFileReceiverWorker).prepareSaveDir`.  The staging directory of the
model has a plain name, as `.` followed by the hexadecimal digits of a file id
of 1 to 127 bytes is; the worker of another header (the empty file id, whose
staging directory is the working directory itself, or an id too long for a
name) is outside the model, here and wherever the worker goes to the disk. -/
def BigFileReceiverWorker.prepareSaveDir (w : BigFileReceiverWorker) (disk : Disk) :
    Exec Disk :=
  if plainName w.saveDir = false then Exec.unsupported
  else
    match disk.stat w.saveDir with
    | none =>
      match disk.mkdir w.saveDir with
      | some disk => Exec.done disk
      | none => Exec.fatal disk
    | some (Node.dir _) => Exec.done disk
    | some (Node.file _) => Exec.fatal disk

/-- The function `checkSaved` hands to `filepath.Walk`, at a regular file:
`none` is the panic of an index out of range. -/
def BigFileReceiverWorker.checkSavedVisit (w : BigFileReceiverWorker)
    (path name : GoString) : Option BigFileReceiverWorker :=
  if HasSuffix path blockExt then
    let p := Sscanf_d name 0
    if p < (w.savedBlock.length : Int) then
      if p < 0 then none
      else some { w with savedBlock := w.savedBlock.set p.toNat true }
    else some w
  else some w

/-- Go `(*BigFileReceiverWorker).checkSaved`: `filepath.Walk` over `saveDir`,
a staging directory with a plain name; `none` is a panic. -/
def BigFileReceiverWorker.checkSaved (w : BigFileReceiverWorker) (disk : Disk) :
    Option BigFileReceiverWorker :=
  match disk.stat w.saveDir with
  | none => none
  | some (Node.file _) => w.checkSavedVisit w.saveDir w.saveDir
  | some (Node.dir files) =>
    files.foldl
      (fun acc e => acc.bind fun w => w.checkSavedVisit (pathJoin w.saveDir e.1) e.1)
      (some w)

/-- Go `(*BigFileReceiverWorker).init`. -/
def BigFileReceiverWorker.init (w : BigFileReceiverWorker) (disk : Disk) :
    Exec (BigFileReceiverWorker × Disk) :=
  match w._numBlock with
  | none => Exec.panic
  | some n =>
    if n > maxAlloc then Exec.panic
    else
      let w := { w with numBlock := n, savedBlock := List.replicate n false }
      let w := { w with saveDir := w._saveDir }
      (w.prepareSaveDir disk).bind fun disk =>
      match w.checkSaved disk with
      | none => Exec.panic
      | some w => Exec.done (w, disk)

/-- Go `(*BigFileReceiverWorker).missingBlockIndices`. -/
def BigFileReceiverWorker.missingBlockIndices (w : BigFileReceiverWorker) : List Nat :=
  (List.range w.savedBlock.length).filter fun i => !(w.savedBlock.getD i true)

/-- Go `(*BigFileReceiverWorker).saveBlock(block, fileContent)`: the disk
afterwards and the error.  `fault` is what the operating system does to this
call: `os.OpenFile` fails, or `file.Write` fails part of the way. -/
def BigFileReceiverWorker.saveBlock (w : BigFileReceiverWorker) (block : Nat)
    (fileContent : List Byte) (disk : Disk) (fault : Option SaveFault) :
    Disk × Option GoError :=
  match fault with
  | some SaveFault.openFails => (disk, some GoError.osError)
  | some (SaveFault.writeFails n) =>
    match disk.putFile (w.BlockTmpFilePath block) (fileContent.take n) with
    | some disk => (disk, some GoError.osError)
    | none => (disk, some GoError.osError)
  | none =>
    match disk.putFile (w.BlockTmpFilePath block) fileContent with
    | some disk => (disk, none)
    | none => (disk, some GoError.osError)

/-- Go `(*BigFileReceiverWorker).Receive(response)`.  The receive from `wait`
takes the oldest buffered value; with an empty buffer it gives up after ten
seconds.  The call of `saveBlock` meets the first
entry of `world.faults` and uses it up. -/
def BigFileReceiverWorker.Receive (w : BigFileReceiverWorker) (response : Packet)
    (world : World) : Exec (BigFileReceiverWorker × World) :=
  match BigFileResponse.FileID response, BigFileResponse.Start response with
  | some fileID, some start =>
    if FileIDString fileID ≠ FileIDString (BigFileHeader.FileID w.header) then
      Exec.fatal world.disk
    else if w.blockSize = 0 then Exec.panic
    else if plainName w.saveDir = false then Exec.unsupported
    else
      let block := start / w.blockSize
      let fault : Option SaveFault :=
        match world.faults with
        | [] => none
        | fault :: _ => fault
      match w.saveBlock block (BigFileResponse.FileContent response) world.disk fault with
      | (disk, err) =>
        let marked : Option BigFileReceiverWorker :=
          if err = none then
            if block < w.savedBlock.length then
              some { w with savedBlock := w.savedBlock.set block true }
            else none
          else some w
        match marked with
        | none => Exec.panic
        | some w =>
          let w : BigFileReceiverWorker :=
            match w.wait with
            | none => w
            | some wait =>
              match wait.tryRecv with
              | some (_, wait) => { w with wait := some wait }
              | none => w
          Exec.done (w, { world with disk := disk
                                     trace := world.trace ++ [Event.response block]
                                     faults := world.faults.tail })
  | _, _ => Exec.panic

/-- Go `DistributerInstance().Receive(p, conn)` as called in the loop of
`requestAllMissing`, for a worker registry that holds this worker only: a
RESPONSE goes through `BigFileReceiver.handleBigFileResponse` to `Receive` when
it bears the worker's file id and is dropped otherwise, a HEADER of the worker's
file is ignored by `handleBigFileHeader`, a message is printed, an unknown type
is logged. -/
def BigFileReceiverWorker.dispatch (w : BigFileReceiverWorker) (p : Packet) (world : World) :
    Exec (BigFileReceiverWorker × World) :=
  if p.Typ = PacketTypeBigFileResponse then
    match BigFileResponse.FileID p with
    | none => Exec.panic
    | some fileID =>
      if FileIDString fileID = FileIDString (BigFileHeader.FileID w.header) then
        w.Receive (PacketAsBigFileResponse p) world
      else Exec.done (w, world)
  else if p.Typ = PacketTypeBigFileHeader then
    if FileIDString (BigFileHeader.FileID p) = FileIDString (BigFileHeader.FileID w.header)
    then Exec.done (w, world)
    else Exec.unsupported
  else if p.Typ = 3 then Exec.unsupported
  else Exec.done (w, world)

/-- The loop labelled `WAIT` in `requestAllMissing` for block index `i`: the
send to `wait` is taken when the buffer has room; otherwise the timer fires, one
frame is read from the connection and dispatched, and the loop goes round. -/
def BigFileReceiverWorker.waitLoop :
    Nat → BigFileReceiverWorker → Nat → World → Exec (BigFileReceiverWorker × World)
  | 0, _, _, _ => Exec.timeout
  | fuel + 1, w, i, world =>
    match w.wait with
    | none => Exec.done (w, world)
    | some wait =>
      match wait.trySend i with
      | some wait => Exec.done ({ w with wait := some wait }, world)
      | none =>
        if world.conn.incoming = [] then Exec.blocked
        else
          match PacketFromReader world.conn.incoming with
          | (none, _) => Exec.panic
          | (some (_, some _), rest) =>
            BigFileReceiverWorker.waitLoop fuel w i
              { world with conn := { world.conn with incoming := rest } }
          | (some (p, none), rest) =>
            (w.dispatch p { world with conn := { world.conn with incoming := rest } }).bind
              fun (w, world) => BigFileReceiverWorker.waitLoop fuel w i world

/-- The body of `for _, i := range m` in `requestAllMissing`, over the indices
still to visit; `err` is the variable declared in front of the loops. -/
def BigFileReceiverWorker.requestEach (peer : Peer) (fuel : Nat) :
    List Nat → BigFileReceiverWorker → Option GoError → World →
      Exec (BigFileReceiverWorker × Option GoError × World)
  | [], w, err, world => Exec.done (w, err, world)
  | i :: m, w, err, world =>
    match w.savedBlock.get? i with
    | none => Exec.panic
    | some saved =>
      let requested : Option (Option GoError × World) :=
        if !saved then
          (w.requestDownload i world.conn).map fun (conn, err) =>
            (err, { world with conn := Conn.deliver peer world.conn conn
                               trace := world.trace ++ [Event.request i] })
        else some (err, world)
      match requested with
      | none => Exec.panic
      | some (err, world) =>
        if err = none ∧ w.wait ≠ none then
          (w.waitLoop fuel i world).bind fun (w, world) =>
            BigFileReceiverWorker.requestEach peer fuel m w err world
        else BigFileReceiverWorker.requestEach peer fuel m w err world

/-- Go `(*BigFileReceiverWorker).requestAllMissing(conn, wait, allSaved)` with
`wait` the worker's own channel, up to the send on `allSaved`. -/
def BigFileReceiverWorker.requestAllMissing (peer : Peer) :
    Nat → BigFileReceiverWorker → Option GoError → World →
      Exec (BigFileReceiverWorker × World)
  | 0, _, _, _ => Exec.timeout
  | fuel + 1, w, err, world =>
    if w.missingBlockIndices = [] then Exec.done (w, world)
    else
      (BigFileReceiverWorker.requestEach peer fuel w.missingBlockIndices w err world).bind
        fun (w, err, world) =>
          if plainName w.saveDir = false then Exec.unsupported
          else
            match w.checkSaved world.disk with
            | none => Exec.panic
            | some w => BigFileReceiverWorker.requestAllMissing peer fuel w err world

/-- The loop of `merge` over the block indices still to append. -/
def BigFileReceiverWorker.mergeBlocks (w : BigFileReceiverWorker) :
    List Nat → Disk → Exec Disk
  | [], disk => Exec.done disk
  | i :: rest, disk =>
    match disk.readFile (w.BlockTmpFilePath i) with
    | none => Exec.fatal disk
    | some contents =>
      match disk.appendFile (w.BlockTmpFilePath 0) contents with
      | none => Exec.fatal disk
      | some disk =>
        BigFileReceiverWorker.mergeBlocks w rest
          ((disk.remove (w.BlockTmpFilePath i)).getD disk)

/-- Go `(*BigFileReceiverWorker).merge`, for a staging directory with a plain
name and a file name that stays inside the working directory. -/
def BigFileReceiverWorker.merge (w : BigFileReceiverWorker) (disk : Disk) : Exec Disk :=
  if plainName w.saveDir = false then Exec.unsupported
  else
    let filePath0 := w.BlockTmpFilePath 0
    match disk.readFile filePath0 with
    | none => Exec.fatal disk
    | some _ =>
      (w.mergeBlocks (List.range' 1 (w.numBlock - 1)) disk).bind fun disk =>
      match BigFileHeader.FileName w.header with
      | none => Exec.panic
      | some fileName =>
        if disk.locate fileName = Sys.unsupported then Exec.unsupported
        else
          match disk.rename filePath0 fileName with
          | none => Exec.fatal disk
          | some disk => Exec.done (disk.removeAll w.saveDir)

/-- Go `(*BigFileReceiverWorker).checkFinalSum`; `md5sum` stands for
`crypto/md5`. -/
def BigFileReceiverWorker.checkFinalSum (w : BigFileReceiverWorker)
    (md5sum : List Byte → List Byte) (disk : Disk) : Exec Bool :=
  match BigFileHeader.FileName w.header with
  | none => Exec.panic
  | some fileName =>
    if disk.locate fileName = Sys.unsupported then Exec.unsupported
    else
      match disk.readFile fileName with
      | none => Exec.fatal disk
      | some contents => Exec.done (md5sum contents == BigFileHeader.FileHash w.header)

/-- Read frames until one fails, as the goroutine at the end of `Run` does. -/
def drain : Nat → Reader → Reader
  | 0, reader => reader
  | fuel + 1, reader =>
    match PacketFromReader reader with
    | (some (_, none), rest) => drain fuel rest
    | (_, rest) => rest

/-- The part of `Run` in front of the goroutines: the channels and `init`. -/
def BigFileReceiverWorker.RunSetup (w : BigFileReceiverWorker) (disk : Disk) :
    Exec (BigFileReceiverWorker × Disk) :=
  let w := { w with done := some (Chan.make 0), wait := some (Chan.make 1),
                    allSaved := some (Chan.make 0) }
  w.init disk

/-- The goroutine of `Run` that waits for `allSaved`: merge, check the sum,
send the header back and read what is left on the connection.  The result is
the verdict of `checkFinalSum`. -/
def BigFileReceiverWorker.RunFinish (w : BigFileReceiverWorker)
    (md5sum : List Byte → List Byte) (peer : Peer) (world : World) : Exec (Bool × World) :=
  (w.merge world.disk).bind fun disk =>
  (w.checkFinalSum md5sum disk).bind fun correct =>
  match Packet.WriteTo w.header world.conn with
  | none => Exec.panic
  | some (conn, _, _) =>
    let conn := Conn.deliver peer world.conn conn
    Exec.done (correct, { world with
      disk := disk
      conn := { conn with incoming := drain (conn.incoming.length + 1) conn.incoming } })

/-- Go `(*BigFileReceiverWorker).Run(conn)` followed to the send on `done`: the
set-up, the request loop, and the goroutine that finishes.  A worker that is
already running returns at once, with no verdict. -/
def BigFileReceiverWorker.Run (w : BigFileReceiverWorker) (md5sum : List Byte → List Byte)
    (peer : Peer) (fuel : Nat) (world : World) :
    Exec (BigFileReceiverWorker × Option Bool × World) :=
  if w.done ≠ none then Exec.done (w, none, world)
  else
    (w.RunSetup world.disk).bind fun (w, disk) =>
    (w.requestAllMissing peer fuel none { world with disk := disk }).bind fun (w, world) =>
    (w.RunFinish md5sum peer world).bind fun (correct, world) =>
    Exec.done (w, some correct, world)

/-- One round of the loop of `BigFileSender.sendResponse` on the bytes of one
frame: the bytes the sender writes in answer. -/
def BigFileSender.answer (s : BigFileSender) (fs : FileSystem) : Peer := fun written =>
  match PacketFromReader written with
  | (some (packet, none), _) =>
    if packet.Typ = PacketTypeBigFileHeader then []
    else if packet.Typ ≠ PacketTypeBigFileRequest then []
    else
      match s.responseReq fs (PacketAsBigFileRequest packet) with
      | Result.ok resp => (resp.ToBytes).getD []
      | _ => []
  | _ => []

/-- The block indices of the REQUESTs in a record, in the order written. -/
def requestsOf (trace : List Event) : List Nat :=
  trace.filterMap fun e =>
    match e with
    | Event.request i => some i
    | Event.response _ => none

/-- The number of REQUESTs written whose RESPONSEs `Receive` has not yet
processed, at the end of a record. -/
def outstanding (trace : List Event) : Int :=
  trace.foldl
    (fun n e =>
      match e with
      | Event.request _ => n + 1
      | Event.response _ => n - 1)
    0

/-! ## big_file.go: the master of the receiving side -/

/-- Go `sync.Map.Delete`. -/
def SyncMap.Delete {V : Type} (m : SyncMap V) (key : GoString) : SyncMap V :=
  m.filter fun e => e.1 != key

/-- Go `BigFileReceiver`: the registry of workers and the counter of the
`sync.WaitGroup`. -/
structure BigFileReceiver where
  workerMap : SyncMap BigFileReceiverWorker
  wg : Nat
  deriving DecidableEq, Repr

/-- Go `NewBigFileReceiver`. -/
def NewBigFileReceiver : BigFileReceiver := { workerMap := [], wg := 0 }

/-- Go `(*BigFileReceiver).handleBigFileHeader(header, conn)` up to its return:
the registry and the disk afterwards.  Of `worker.Run(conn)` the part in front
of its goroutines is run here; the worker stored is the running one. -/
def BigFileReceiver.handleBigFileHeader (r : BigFileReceiver) (header : Packet)
    (disk : Disk) : Exec (BigFileReceiver × Disk) :=
  let fileID := FileIDString (BigFileHeader.FileID header)
  match r.workerMap.Load fileID with
  | some _ => Exec.done (r, disk)
  | none =>
    let worker := NewBigFileReceiverWorker header
    ((worker.RunSetup disk)).bind fun (worker, disk) =>
      Exec.done ({ workerMap := r.workerMap.Store fileID worker, wg := r.wg + 1 }, disk)

/-- Handle HEADER frames one after the other. -/
def BigFileReceiver.handleHeaders (r : BigFileReceiver) :
    List Packet → Disk → Exec (BigFileReceiver × Disk)
  | [], disk => Exec.done (r, disk)
  | header :: rest, disk =>
    (r.handleBigFileHeader header disk).bind fun (r, disk) =>
      BigFileReceiver.handleHeaders r rest disk

/-- The cleanup goroutine of `handleBigFileHeader` once the worker has sent its
file id on `done`. -/
def BigFileReceiver.cleanup (r : BigFileReceiver) (f : GoString) : BigFileReceiver :=
  { workerMap := r.workerMap.Delete f, wg := r.wg - 1 }

/-! ## distributer.go -/

/-- Go `PacketReceiver`: `Receive(packet, conn)` acts on the state of the
program and returns a channel. -/
abbrev PacketReceiver (σ : Type) := Packet → σ → Chan Bool × σ

/-- Go `Distributer`: the handlers by packet type, newest first. -/
structure Distributer (σ : Type) where
  packetReceivers : List (Nat × PacketReceiver σ)

/-- Go `(*Distributer).Register(packetType, packetReceiver)`. -/
def Distributer.Register {σ : Type} (d : Distributer σ) (packetType : Nat)
    (packetReceiver : PacketReceiver σ) : Distributer σ :=
  { packetReceivers :=
      (packetType, packetReceiver) :: d.packetReceivers.filter fun e => e.1 != packetType }

/-- Go `(*Distributer).Receive(packet, conn)`: the channel returned and the
state afterwards; `none` when the send on `done` would block. -/
def Distributer.Receive {σ : Type} (d : Distributer σ) (packet : Packet) (state : σ) :
    Option (Chan Bool × σ) :=
  let done : Chan Bool := Chan.make 1
  match List.lookup packet.Typ d.packetReceivers with
  | none => (done.trySend false).map fun done => (done, state)
  | some packetReceiver => some (packetReceiver packet state)

/-! ## packet.go: `PacketFromBytes` -/

/-- Go `PacketFromBytes(b)`.  The comparison and the slice bounds are computed
in `uint32`. -/
def PacketFromBytes (b : List Byte) : Result Packet :=
  match Packet.zero.fillHeaderFromBytes b with
  | none => Result.panic
  | some (_, some e) => Result.err e
  | some (p, none) =>
    if b.length % 2 ^ 32 < (12 + p.InfoSize + p.DataSize) % 2 ^ 32 then
      Result.err GoError.shorterThanDescribed
    else
      match slice b 12 ((12 + p.InfoSize) % 2 ^ 32),
            slice b ((12 + p.InfoSize) % 2 ^ 32) ((12 + p.InfoSize + p.DataSize) % 2 ^ 32) with
      | some info, some data => Result.ok { p with Info := info, Data := data }
      | _, _ => Result.panic

/-- Go `Message.ToBytes`: the method of the embedded `*Packet`. -/
def Message.ToBytes (m : Packet) : Option (List Byte) := Packet.ToBytes m

/-! ## Data for the receiver -/

/-- An empty working directory and a connection on which nothing has happened. -/
def World.initial : World :=
  { disk := { entries := [] }, conn := { incoming := [], outgoing := [] }, trace := [] }

/-- A hash function that gives the five-byte file, and no other contents, its
advertised id. -/
def demoSum : List Byte → List Byte := fun contents =>
  if contents = demoFile.contents then demoFileID else List.replicate 16 0

/-- The id of the empty file: the MD5 digest d41d8cd98f00b204e9800998ecf8427e. -/
def emptyFileID : List Byte :=
  [0xd4, 0x1d, 0x8c, 0xd9, 0x8f, 0x00, 0xb2, 0x04, 0xe9, 0x80, 0x09, 0x98, 0xec, 0xf8,
    0x42, 0x7e]

/-- The HEADER of an empty file named "a". -/
def emptyHeader : Packet := (NewBigFileHeader emptyFileID demoPath 0).getD Packet.zero

/-- A handler that counts its calls in the state and returns a channel that
holds `true`. -/
def countingReceiver : PacketReceiver Nat :=
  fun _ calls => ({ cap := 1, buf := [true] }, calls + 1)

/-- A master that has registered a worker for the five-byte file. -/
def demoReceiver : BigFileReceiver :=
  { workerMap := SyncMap.Store [] (FileIDString demoFileID) (NewBigFileReceiverWorker demoHeader)
    wg := 1 }

/-- The name "foo.block". -/
def fooBlock : GoString := [102, 111, 111] ++ blockExt

/-- A working directory whose only entry is the staging directory of the
five-byte file, holding the given files. -/
def stagingDisk (files : Dir) : Disk :=
  { entries := [((NewBigFileReceiverWorker demoHeader)._saveDir, Node.dir files)] }

/-- The frame of the REQUEST for block 0 of the five-byte file, one block of
`DefaultBlockSize` bytes. -/
def demoRequest : List Byte :=
  ((NewBigFileRequest demoFileID 0 DefaultBlockSize).bind Packet.ToBytes).getD []

/-- The frame of the RESPONSE that carries the five-byte file as block 0. -/
def demoResponse : List Byte :=
  ((NewBigFileResponse demoFileID 0 demoFile.contents).bind Packet.ToBytes).getD []

/-- The sender of the five-byte file with its answer to `demoRequest` written
out. -/
def demoAnswer : Peer := fun written =>
  if written = demoRequest then demoResponse else demoSender.answer demoFS written

/-- The worker for a header with the given block size and number of blocks,
after `init` on a staging directory that holds all its blocks. -/
def stagedWorker (header : Packet) (blockSize numBlock : Nat) : BigFileReceiverWorker :=
  { header := header, saveDir := (NewBigFileReceiverWorker header)._saveDir,
    blockSize := blockSize, numBlock := numBlock,
    savedBlock := List.replicate numBlock true }

/-- The three blocks of the five-byte file for block size 2, as block files. -/
def threeBlocks : Dir :=
  [(decimal 0 ++ blockExt, [10, 11]), (decimal 1 ++ blockExt, [12, 13]),
    (decimal 2 ++ blockExt, [14])]

/-- Block `i` of the five-byte file for block size 2. -/
def demoBlock (i : Nat) : List Byte := (demoFile.contents.drop (2 * i)).take 2

/-- The HEADER of the five-byte file with an empty file name. -/
def namelessHeader : Packet :=
  (NewBigFileHeader demoFileID [] demoFile.contents.length).getD Packet.zero

/-- The HEADER of the five-byte file with a file name of 256 letters `a`. -/
def longNameHeader : Packet :=
  (NewBigFileHeader demoFileID (List.replicate 256 97) demoFile.contents.length).getD
    Packet.zero

/-- The path `x` inside the staging directory of the five-byte file. -/
def stagedPath : GoString := (NewBigFileReceiverWorker demoHeader)._saveDir ++ [47, 120]

/-- The HEADER of the five-byte file with `stagedPath` as its file name. -/
def stagedNameHeader : Packet :=
  (NewBigFileHeader demoFileID stagedPath demoFile.contents.length).getD Packet.zero

/-! ## big_file.go: the sender on a connection -/

/-- How a step of the sender ends. -/
inductive Served (α : Type) where
  /-- The sender goes on in this state -/
  | next : α → Served α
  /-- A call of `log.Fatal` ends the process -/
  | fatal : Served α
  /-- A run-time panic -/
  | panic : Served α
  deriving DecidableEq, Repr

/-- Sequencing of steps of the sender. -/
def Served.bind {α β : Type} (x : Served α) (f : α → Served β) : Served β :=
  match x with
  | Served.next a => f a
  | Served.fatal => Served.fatal
  | Served.panic => Served.panic

/-- `BigFileSender.Send` on a connection: the connection, whether the goroutine
of `sendResponse` is still in its loop, and whether `Send` has returned. -/
structure SendState where
  conn : Conn
  serving : Bool
  returned : Bool
  deriving DecidableEq, Repr

/-- What happens next on the sender's side of a connection. -/
inductive SendEvent where
  /-- The goroutine of `sendResponse` goes once round its loop on the next frame
  of the connection -/
  | round : SendEvent
  /-- Three seconds pass in `Send` with nothing received from `resp` -/
  | tick : SendEvent
  deriving DecidableEq, Repr

/-- The entries a `Range` over a `sync.Map` visits: each key once, with its
newest value. -/
def SyncMap.entries {V : Type} : SyncMap V → List (GoString × V)
  | [] => []
  | e :: rest => e :: (SyncMap.entries rest).filter fun e' => e'.1 != e.1

/-- Write the headers of a list one after the other; `none` is a panic. -/
def writeHeaders : List (GoString × Packet) → Conn → Option Conn
  | [], conn => some conn
  | (_, header) :: rest, conn =>
    match header.WriteTo conn with
    | none => none
    | some (conn, _, _) => writeHeaders rest conn

/-- Go `BigFileSender.sendHeader(conn)`: every header of `headerMap` is
written. -/
def BigFileSender.sendHeader (s : BigFileSender) (conn : Conn) : Option Conn :=
  writeHeaders (SyncMap.entries s.headerMap) conn

/-- One round of the goroutine of `sendResponse` and what `Send` does with the
value it receives from `resp`.  With nothing to read the goroutine waits; once
it has left its loop nobody reads the connection. -/
def BigFileSender.round (s : BigFileSender) (fs : FileSystem) (st : SendState) :
    Served SendState :=
  if st.serving = false ∨ st.conn.incoming = [] then Served.next st
  else
    match PacketFromReader st.conn.incoming with
    | (none, _) => Served.panic
    | (some (_, some _), _) => Served.fatal
    | (some (packet, none), rest) =>
      let conn : Conn := { st.conn with incoming := rest }
      if packet.Typ = PacketTypeBigFileHeader then
        Served.next { conn := conn, serving := false, returned := true }
      else if packet.Typ ≠ PacketTypeBigFileRequest then
        Served.next { conn := conn, serving := false, returned := st.returned }
      else
        match s.responseReq fs (PacketAsBigFileRequest packet) with
        | Result.panic => Served.panic
        | Result.err _ =>
          Served.next { conn := conn, serving := false, returned := st.returned }
        | Result.ok resp =>
          match resp.WriteTo conn with
          | none => Served.panic
          | some (conn, _, _) =>
            Served.next { conn := conn, serving := true, returned := st.returned }

/-- The timer branch of the `select` in `Send`: the headers are sent again,
unless `Send` has returned. -/
def BigFileSender.tick (s : BigFileSender) (st : SendState) : Served SendState :=
  if st.returned then Served.next st
  else
    match s.sendHeader st.conn with
    | none => Served.panic
    | some conn => Served.next { st with conn := conn }

/-- Go `BigFileSender.Send(conn)` up to its loop: the headers are sent and the
goroutine of `sendResponse` is started. -/
def BigFileSender.SendStart (s : BigFileSender) (conn : Conn) : Served SendState :=
  match s.sendHeader conn with
  | none => Served.panic
  | some conn => Served.next { conn := conn, serving := true, returned := false }

/-- The loop of `Send` and the goroutine of `sendResponse` over a sequence of
events. -/
def BigFileSender.SendLoop (s : BigFileSender) (fs : FileSystem) :
    List SendEvent → SendState → Served SendState
  | [], st => Served.next st
  | SendEvent.round :: events, st =>
    (s.round fs st).bind fun st => BigFileSender.SendLoop s fs events st
  | SendEvent.tick :: events, st =>
    (s.tick st).bind fun st => BigFileSender.SendLoop s fs events st

/-- Go `BigFileSender.Send(conn)` over a sequence of events. -/
def BigFileSender.Send (s : BigFileSender) (fs : FileSystem) (events : List SendEvent)
    (conn : Conn) : Served SendState :=
  (s.SendStart conn).bind fun st => s.SendLoop fs events st

/-! ## receiver.go -/

/-- Go `Receiver.ReceiveAndHandle(conn)`: what `Distributer.Receive` returns
(`none` when it does not return) and the connection afterwards.  The error of
`PacketFromReader` is printed and nothing else. -/
def Receiver.ReceiveAndHandle {σ : Type} (d : Distributer σ) (conn : Conn) (state : σ) :
    Option (Chan Bool × σ) × Conn :=
  match PacketFromReader conn.incoming with
  | (none, rest) => (none, { conn with incoming := rest })
  | (some (packet, _), rest) => (d.Receive packet state, { conn with incoming := rest })

/-! ## Data for the sender's loop and the receiver's entry -/

/-- The sender after `AppendFile` of the five-byte file "a". -/
def servingSender : BigFileSender :=
  (NewBigFileSender.AppendFile demoFS demoSum (fun filePath => filePath) demoPath).getD
    NewBigFileSender

/-- The frame of a REQUEST for the first five bytes of the five-byte file. -/
def goodRequest : List Byte :=
  ((NewBigFileRequest demoFileID 0 5).bind Packet.ToBytes).getD []

/-- The frame of a REQUEST for a file id that no file has. -/
def unknownRequest : List Byte :=
  ((NewBigFileRequest (List.replicate 16 9) 0 5).bind Packet.ToBytes).getD []

/-- The frame of the HEADER of the five-byte file. -/
def demoHeaderFrame : List Byte := (demoHeader.ToBytes).getD []

/-- The frame of the message "hi" with content "x". -/
def messageFrame : List Byte := ((NewMessage [104, 105] [120]).ToBytes).getD []

/-- A message frame cut short: the header announces four bytes of info and two
arrive. -/
def shortMessageFrame : List Byte := wireHeader PacketTypeMessage 4 0 ++ [104, 105]

/-- The name "-1.block". -/
def minusOneBlock : GoString := [45, 49] ++ blockExt

/-- The RESPONSE that carries the five-byte file as block 0. -/
def demoResponsePacket : Packet :=
  (NewBigFileResponse demoFileID 0 demoFile.contents).getD Packet.zero

/-- A RESPONSE for the five-byte file whose start is one block size, past the
only block. -/
def farResponse : Packet :=
  (NewBigFileResponse demoFileID DefaultBlockSize [1]).getD Packet.zero

/-- The world of a worker whose next call of `saveBlock` meets the given
fault. -/
def faultyWorld (disk : Disk) (fault : SaveFault) : World :=
  { disk := disk, conn := { incoming := [], outgoing := [] }, trace := [],
    faults := [some fault] }

/-! ## Blocks over the wire -/

/-- The RESPONSE the worker decodes for a block: the frame that `requestDownload`
writes is answered by one round of the sender's loop, and `PacketFromReader`
decodes the bytes of the answer; `none` when there is no such RESPONSE. -/
def blockReply (s : BigFileSender) (fs : FileSystem) (w : BigFileReceiverWorker)
    (blockIndex : Nat) : Option Packet :=
  match w.requestDownload blockIndex { incoming := [], outgoing := [] } with
  | some (conn, none) =>
    match PacketFromReader (s.answer fs conn.outgoing) with
    | (some (packet, none), _) => some packet
    | _ => none
  | _ => none

/-- The contents of the decoded responses for blocks `0 .. n-1`, concatenated in
ascending index order; `none` when one of them is missing. -/
def replyContents (s : BigFileSender) (fs : FileSystem) (w : BigFileReceiverWorker) :
    Nat → Option (List Byte)
  | 0 => some []
  | n + 1 =>
    (replyContents s fs w n).bind fun acc =>
    ((blockReply s fs w n).map BigFileResponse.FileContent).map fun block => acc ++ block
/-! ## Slices and big-endian integers -/

theorem toByte_val (v : Nat) : (toByte v).val = v % 256 := rfl

theorem slice_mid (a b c : List Byte) (lo hi : Nat) (hlo : lo = a.length)
    (hhi : hi = a.length + b.length) : slice (a ++ b ++ c) lo hi = some b := by
  subst hlo hhi
  simp [slice, List.take_append_eq_append_take]

theorem onSlice_append (a b c : List Byte) (f : List Byte → Option (List Byte)) :
    onSlice (a ++ (b ++ c)) a.length (a.length + b.length) f
      = (f b).map (fun t => a ++ (t ++ c)) := by
  unfold onSlice
  rw [← List.append_assoc, slice_mid a b c _ _ rfl rfl]
  have h : List.drop (a.length + b.length) (a ++ b ++ c) = c := by
    rw [← List.length_append]; exact List.drop_left' rfl
  rcases hf : f b with _ | t <;> simp [h, hf]

theorem copy_replicate (n : Nat) (src : List Byte) (h : src.length = n) :
    copy (List.replicate n 0) src = src := by
  subst h
  simp [copy]

theorem Uint16_PutUint16 (b : List Byte) (v : Nat) (hv : v < 2 ^ 16) (hb : 2 ≤ b.length) :
    (PutUint16 b v).bind Uint16 = some v := by
  have : ¬ b.length < 2 := by omega
  simp only [PutUint16, this, if_false, Option.some_bind, Uint16, toByte_val, Option.some.injEq]
  omega

theorem Uint32_PutUint32 (b : List Byte) (v : Nat) (hv : v < 2 ^ 32) (hb : 4 ≤ b.length) :
    (PutUint32 b v).bind Uint32 = some v := by
  have : ¬ b.length < 4 := by omega
  simp only [PutUint32, this, if_false, Option.some_bind, Uint32, toByte_val, Option.some.injEq]
  omega

theorem Uint64_PutUint64 (b : List Byte) (v : Nat) (hv : v < 2 ^ 64) (hb : 8 ≤ b.length) :
    (PutUint64 b v).bind Uint64 = some v := by
  have : ¬ b.length < 8 := by omega
  simp only [PutUint64, this, if_false, Option.some_bind, Uint64, toByte_val, Option.some.injEq]
  omega

/-! ## The frame codec -/

/-- Without overflow of the total size, `ToBytes` writes the header, then
`Info`, then `Data`. -/
theorem ToBytes_eq (p : Packet) (hI : p.InfoSize = p.Info.length)
    (hD : p.DataSize = p.Data.length) (hsum : 12 + p.Info.length + p.Data.length < 2 ^ 32) :
    p.ToBytes = some (wireHeader p.Typ p.InfoSize p.DataSize ++ p.Info ++ p.Data) := by
  have htot : (2 + 4 + 4 + 2 + p.InfoSize + p.DataSize) % 2 ^ 32
      = 2 + (4 + (4 + (2 + (p.Info.length + p.Data.length)))) := by
    rw [hI, hD]; omega
  have hhi : (12 + p.InfoSize) % 2 ^ 32 = 12 + p.Info.length := by
    rw [hI]; omega
  unfold Packet.ToBytes
  simp only [htot, hhi, List.replicate_add]
  have h1 := onSlice_append [] (List.replicate 2 0)
    (List.replicate 4 0 ++ (List.replicate 4 0 ++ (List.replicate 2 0
      ++ (List.replicate p.Info.length 0 ++ List.replicate p.Data.length 0))))
    (fun b => PutUint16 b p.Typ)
  have h2 := onSlice_append [toByte (p.Typ / 2 ^ 8), toByte p.Typ] (List.replicate 4 0)
    (List.replicate 4 0 ++ (List.replicate 2 0
      ++ (List.replicate p.Info.length 0 ++ List.replicate p.Data.length 0)))
    (fun b => PutUint32 b p.InfoSize)
  have h3 := onSlice_append [toByte (p.Typ / 2 ^ 8), toByte p.Typ,
      toByte (p.InfoSize / 2 ^ 24), toByte (p.InfoSize / 2 ^ 16), toByte (p.InfoSize / 2 ^ 8),
      toByte p.InfoSize] (List.replicate 4 0)
    (List.replicate 2 0 ++ (List.replicate p.Info.length 0 ++ List.replicate p.Data.length 0))
    (fun b => PutUint32 b p.DataSize)
  have h4 := onSlice_append (wireHeader p.Typ p.InfoSize p.DataSize)
    (List.replicate p.Info.length 0) (List.replicate p.Data.length 0)
    (fun b => some (copy b p.Info))
  have h5 := onSlice_append (wireHeader p.Typ p.InfoSize p.DataSize ++ p.Info)
    (List.replicate p.Data.length 0) [] (fun b => some (copy b p.Data))
  simp only [copy_replicate _ _ rfl] at h4 h5
  simp [PutUint16, PutUint32, wireHeader, List.replicate_succ] at h1 h2 h3 h4 h5 ⊢
  rw [h1, Option.some_bind, h2, Option.some_bind, h3, Option.some_bind, h4, Option.some_bind]
  simp
  convert h5 using 2 <;> omega

theorem onSlice_length {s s' : List Byte} {lo hi : Nat} {f : List Byte → Option (List Byte)}
    (hf : ∀ b t, f b = some t → t.length = b.length) (h : onSlice s lo hi f = some s') :
    s'.length = s.length ∧ lo ≤ hi ∧ hi ≤ s.length := by
  unfold onSlice slice at h
  by_cases hb : lo ≤ hi ∧ hi ≤ s.length
  · rw [if_pos hb] at h
    rcases hfb : f (List.drop lo (List.take hi s)) with _ | t
    · simp [hfb] at h
    · simp only [hfb, Option.some.injEq] at h
      have ht := hf _ _ hfb
      subst h
      simp only [List.length_append, List.length_take, List.length_drop, ht]
      omega
  · rw [if_neg hb] at h
    simp at h

theorem onSlice_bounds {s s' : List Byte} {lo hi : Nat} {f : List Byte → Option (List Byte)}
    (h : onSlice s lo hi f = some s') : lo ≤ hi ∧ hi ≤ s.length := by
  unfold onSlice slice at h
  by_cases hb : lo ≤ hi ∧ hi ≤ s.length
  · exact hb
  · rw [if_neg hb] at h
    simp at h

theorem PutUint16_length (v : Nat) (b t : List Byte) (h : PutUint16 b v = some t) :
    t.length = b.length := by
  unfold PutUint16 at h
  split at h
  · simp at h
  · simp only [Option.some.injEq] at h
    subst h
    simp only [List.length_cons, List.length_drop]
    omega

theorem PutUint32_length (v : Nat) (b t : List Byte) (h : PutUint32 b v = some t) :
    t.length = b.length := by
  unfold PutUint32 at h
  split at h
  · simp at h
  · simp only [Option.some.injEq] at h
    subst h
    simp only [List.length_cons, List.length_drop]
    omega

theorem PutUint64_length (v : Nat) (b t : List Byte) (h : PutUint64 b v = some t) :
    t.length = b.length := by
  unfold PutUint64 at h
  split at h
  · simp at h
  · simp only [Option.some.injEq] at h
    subst h
    simp only [List.length_cons, List.length_drop]
    omega

/-- When `12 + InfoSize + DataSize` does not fit 32 bits, `ToBytes` panics: the
wrapped `totalSize` is too small for the slice `buf[12 : 12+InfoSize]`. -/
theorem ToBytes_overflow (p : Packet) (hI : p.InfoSize < 2 ^ 32) (hD : p.DataSize < 2 ^ 32)
    (hsum : 2 ^ 32 ≤ 12 + p.InfoSize + p.DataSize) : p.ToBytes = none := by
  rcases h : p.ToBytes with _ | bs
  · rfl
  · exfalso
    unfold Packet.ToBytes at h
    simp only [Option.bind_eq_some] at h
    obtain ⟨b1, h1, b2, h2, b3, h3, b4, h4, _⟩ := h
    have l1 := onSlice_length (PutUint16_length p.Typ) h1
    have l2 := onSlice_length (PutUint32_length p.InfoSize) h2
    have l3 := onSlice_length (PutUint32_length p.DataSize) h3
    have l4 := onSlice_bounds h4
    rw [List.length_replicate] at l1
    omega

theorem ReadFull_append (a rest : List Byte) (n : Nat) (h : n = a.length) :
    ReadFull (a ++ rest) n = (a, none, rest) := by
  subst h
  simp [ReadFull]

/-- Decoding of a well-formed frame followed by `rest`; the sizes need not add up
to less than `2 ^ 32`. -/
theorem PacketFromReader_wire (typ : Nat) (info data rest : List Byte) (ht : typ < 2 ^ 16)
    (hI : info.length < 2 ^ 32) (hD : data.length < 2 ^ 32) :
    PacketFromReader (wireHeader typ info.length data.length ++ info ++ data ++ rest)
      = (some (NewPacket typ info data, none), rest) := by
  unfold PacketFromReader
  rw [List.append_assoc, List.append_assoc, ReadFull_append _ _ 12 (by simp [wireHeader])]
  have hfill : Packet.zero.fillHeaderFromBytes (wireHeader typ info.length data.length)
      = some ({ Packet.zero with Typ := typ, InfoSize := info.length,
                                 DataSize := data.length }, none) := by
    simp only [Packet.fillHeaderFromBytes, wireHeader, slice, Uint16, Uint32]
    simp [toByte_val]
    refine ⟨?_, ?_, ?_⟩ <;> omega
  simp only [hfill]
  rw [ReadFull_append _ _ _ rfl]
  simp only []
  rw [ReadFull_append _ _ _ rfl]
  have hI' : info.length % 4294967296 = info.length := by omega
  have hD' : data.length % 4294967296 = data.length := by omega
  simp [NewPacket, Packet.zero, hI', hD']

/-- Framing round trip when the total size fits 32 bits. -/
theorem PacketFromReader_ToBytes (typ : Nat) (info data rest : List Byte) (ht : typ < 2 ^ 16)
    (hsum : 12 + info.length + data.length < 2 ^ 32) :
    ∃ bs, (NewPacket typ info data).ToBytes = some bs ∧
      PacketFromReader (bs ++ rest) = (some (NewPacket typ info data, none), rest) := by
  have hI : info.length % 2 ^ 32 = info.length := Nat.mod_eq_of_lt (by omega)
  have hD : data.length % 2 ^ 32 = data.length := Nat.mod_eq_of_lt (by omega)
  refine ⟨_, ToBytes_eq (NewPacket typ info data) hI hD hsum, ?_⟩
  have := PacketFromReader_wire typ info data rest ht (by omega) (by omega)
  have e : wireHeader (NewPacket typ info data).Typ (NewPacket typ info data).InfoSize
      (NewPacket typ info data).DataSize = wireHeader typ info.length data.length := by
    simp only [NewPacket, hI, hD]
  rw [e]
  exact this

theorem wireHeader_length (typ infoSize dataSize : Nat) :
    (wireHeader typ infoSize dataSize).length = 12 := rfl

/-- Wire layout of a frame whose total size fits 32 bits: length, header
fields, reserved bytes, `Info`, `Data`. -/
theorem ToBytes_layout (p : Packet) (hI : p.InfoSize = p.Info.length)
    (hD : p.DataSize = p.Data.length) (hsum : 12 + p.Info.length + p.Data.length < 2 ^ 32) :
    ∃ bs, p.ToBytes = some bs ∧ bs.length = 12 + p.InfoSize + p.DataSize ∧
      slice bs 0 2 = some [toByte (p.Typ / 2 ^ 8), toByte p.Typ] ∧
      slice bs 2 6 = some [toByte (p.InfoSize / 2 ^ 24), toByte (p.InfoSize / 2 ^ 16),
        toByte (p.InfoSize / 2 ^ 8), toByte p.InfoSize] ∧
      slice bs 6 10 = some [toByte (p.DataSize / 2 ^ 24), toByte (p.DataSize / 2 ^ 16),
        toByte (p.DataSize / 2 ^ 8), toByte p.DataSize] ∧
      slice bs 10 12 = some [0, 0] ∧
      slice bs 12 (12 + p.InfoSize) = some p.Info ∧
      slice bs (12 + p.InfoSize) bs.length = some p.Data := by
  refine ⟨_, ToBytes_eq p hI hD hsum, ?_, ?_, ?_, ?_, ?_, ?_, ?_⟩
  · simp only [List.length_append, wireHeader_length, hI, hD]
  · simp [wireHeader, slice]
  · simp [wireHeader, slice]
  · simp [wireHeader, slice]
  · simp [wireHeader, slice]
  · rw [List.append_assoc]
    exact slice_mid (wireHeader p.Typ p.InfoSize p.DataSize) p.Info p.Data 12
      (12 + p.InfoSize) rfl (by rw [wireHeader_length, hI])
  · have := slice_mid (wireHeader p.Typ p.InfoSize p.DataSize ++ p.Info) p.Data []
      (12 + p.InfoSize)
      (wireHeader p.Typ p.InfoSize p.DataSize ++ p.Info ++ p.Data).length
      (by simp only [List.length_append, wireHeader_length, hI])
      (by simp only [List.length_append])
    simpa using this

/-- The sizes `NewPacket` sets agree with buffers shorter than `2 ^ 32`. -/
theorem NewPacket_sizes (typ : Nat) (info data : List Byte) (hI : info.length < 2 ^ 32)
    (hD : data.length < 2 ^ 32) :
    (NewPacket typ info data).InfoSize = info.length ∧
      (NewPacket typ info data).DataSize = data.length :=
  ⟨Nat.mod_eq_of_lt hI, Nat.mod_eq_of_lt hD⟩

theorem NewPacket_ToBytes_overflow (typ : Nat) (info data : List Byte)
    (hI : info.length < 2 ^ 32) (hD : data.length < 2 ^ 32)
    (hsum : 2 ^ 32 ≤ 12 + info.length + data.length) :
    (NewPacket typ info data).ToBytes = none := by
  obtain ⟨h1, h2⟩ := NewPacket_sizes typ info data hI hD
  apply ToBytes_overflow
  · rw [h1]; exact hI
  · rw [h2]; exact hD
  · rw [h1, h2]; exact hsum

/-- The framing round trip at a short message followed by one more byte. -/
theorem PacketFromReader_ToBytes_at_message :
    ∃ bs, (NewPacket 2 [73] [100, 97]).ToBytes = some bs ∧
      PacketFromReader (bs ++ [9]) = (some (NewPacket 2 [73] [100, 97], none), [9]) :=
  PacketFromReader_ToBytes 2 [73] [100, 97] [9] (by decide) (by decide)

/-- C1 (framing round trip), evaluated where the code departs from it: a frame
with a 16-bit type, an empty `info` and a `data` of `2^32 - 12` bytes, both
shorter than `2^32`, is never written, because `ToBytes` panics on it. -/
theorem framing_total_size_overflow :
    (0 : Nat) < 2 ^ 16 ∧ ([] : List Byte).length < 2 ^ 32 ∧
      (List.replicate (2 ^ 32 - 12) (0 : Byte)).length < 2 ^ 32 ∧
      (NewPacket 0 [] (List.replicate (2 ^ 32 - 12) 0)).ToBytes = none := by
  have hlen : (List.replicate (2 ^ 32 - 12) (0 : Byte)).length = 2 ^ 32 - 12 :=
    List.length_replicate _ _
  have h0 : ([] : List Byte).length = 0 := rfl
  refine ⟨by norm_num, by rw [h0]; norm_num, by rw [hlen]; norm_num,
    NewPacket_ToBytes_overflow 0 [] _ (by rw [h0]; norm_num) (by rw [hlen]; norm_num) ?_⟩
  rw [hlen, h0]; norm_num

/-- C2 (wire layout), evaluated where the code departs from it: a packet whose
sizes agree with its buffers, `2^31` bytes each, has no encoding, because
`ToBytes` allocates only `12` bytes and panics on `buf[12 : 12+InfoSize]`. -/
theorem layout_total_size_overflow :
    (NewPacket 0 (List.replicate (2 ^ 31) 0) (List.replicate (2 ^ 31) 0)).InfoSize
        = (List.replicate (2 ^ 31) (0 : Byte)).length ∧
      (NewPacket 0 (List.replicate (2 ^ 31) 0) (List.replicate (2 ^ 31) 0)).DataSize
        = (List.replicate (2 ^ 31) (0 : Byte)).length ∧
      (NewPacket 0 (List.replicate (2 ^ 31) 0) (List.replicate (2 ^ 31) 0)).ToBytes = none := by
  have hlen : (List.replicate (2 ^ 31) (0 : Byte)).length = 2 ^ 31 :=
    List.length_replicate _ _
  have hlt : (List.replicate (2 ^ 31) (0 : Byte)).length < 2 ^ 32 := by rw [hlen]; norm_num
  obtain ⟨h1, h2⟩ := NewPacket_sizes 0 _ _ hlt hlt
  refine ⟨h1, h2, NewPacket_ToBytes_overflow 0 _ _ hlt hlt ?_⟩
  rw [hlen]; norm_num

/-! ## Big-endian representation -/

theorem bigEndian_length (n v : Nat) : (bigEndian n v).length = n := by
  induction n generalizing v with
  | zero => rfl
  | succ n ih => simp [bigEndian, ih]

theorem bigEndianValue_append (bs : List Byte) (b : Byte) :
    bigEndianValue (bs ++ [b]) = bigEndianValue bs * 256 + b.val := by
  simp [bigEndianValue]

/-- The big-endian representation denotes the value it was made from. -/
theorem bigEndianValue_bigEndian (n v : Nat) : bigEndianValue (bigEndian n v) = v % 256 ^ n := by
  induction n generalizing v with
  | zero => simp [bigEndian, bigEndianValue, Nat.mod_one]
  | succ n ih =>
    rw [bigEndian, bigEndianValue_append, ih, toByte_val, pow_succ, Nat.mul_comm (256 ^ n) 256,
      Nat.mod_mul]
    omega

theorem bigEndian_two (v : Nat) : bigEndian 2 v = [toByte (v / 2 ^ 8), toByte v] := by
  simp [bigEndian]

theorem bigEndian_four (v : Nat) :
    bigEndian 4 v = [toByte (v / 2 ^ 24), toByte (v / 2 ^ 16), toByte (v / 2 ^ 8), toByte v] := by
  simp [bigEndian, Nat.div_div_eq_div_mul]

theorem bigEndian_eight (v : Nat) :
    bigEndian 8 v = [toByte (v / 2 ^ 56), toByte (v / 2 ^ 48), toByte (v / 2 ^ 40),
      toByte (v / 2 ^ 32), toByte (v / 2 ^ 24), toByte (v / 2 ^ 16), toByte (v / 2 ^ 8),
      toByte v] := by
  simp [bigEndian, Nat.div_div_eq_div_mul]

theorem PutUint64_eq (b : List Byte) (v : Nat) (hb : 8 ≤ b.length) :
    PutUint64 b v = some (bigEndian 8 v ++ b.drop 8) := by
  have : ¬ b.length < 8 := by omega
  simp [PutUint64, this, bigEndian_eight]

theorem Uint64_bigEndian (v : Nat) (rest : List Byte) (hv : v < 2 ^ 64) :
    Uint64 (bigEndian 8 v ++ rest) = some v := by
  simp only [bigEndian_eight, List.cons_append, List.nil_append, Uint64, toByte_val,
    Option.some.injEq]
  omega

theorem Uint64_lt (b : List Byte) (v : Nat) (h : Uint64 b = some v) : v < 2 ^ 64 := by
  unfold Uint64 at h
  split at h
  · simp only [Option.some.injEq] at h
    omega
  · simp at h

theorem copy_length (dst src : List Byte) : (copy dst src).length = dst.length := by
  simp only [copy, List.length_append, List.length_take, List.length_drop]
  omega

/-! ## Typed views -/

theorem slice_front (s : List Byte) (k : Nat) (h : k ≤ s.length) :
    slice s 0 k = some (s.take k) := by
  simp [slice, h]

theorem slice_back (s : List Byte) (k : Nat) (h : k ≤ s.length) :
    slice s k s.length = some (s.drop k) := by
  simp [slice, h]

theorem onSlice_front (s : List Byte) (k : Nat) (f : List Byte → Option (List Byte))
    (h : k ≤ s.length) : onSlice s 0 k f = (f (s.take k)).map (fun t => t ++ s.drop k) := by
  have := onSlice_append [] (s.take k) (s.drop k) f
  simpa [List.length_take, Nat.min_eq_left h] using this

theorem onSlice_back (s : List Byte) (k : Nat) (f : List Byte → Option (List Byte))
    (h : k ≤ s.length) :
    onSlice s k s.length f = (f (s.drop k)).map (fun t => s.take k ++ t) := by
  have := onSlice_append (s.take k) (s.drop k) [] f
  have e : k + (s.length - k) = s.length := by omega
  simpa [List.length_take, Nat.min_eq_left h, e] using this

theorem onSlice_none_of_lt (s : List Byte) (lo hi : Nat) (f : List Byte → Option (List Byte))
    (h : hi < lo) : onSlice s lo hi f = none := by
  have : ¬ (lo ≤ hi ∧ hi ≤ s.length) := by omega
  simp [onSlice, slice, this]

theorem BigFileHeader.SetFileName_eq (b : Packet) (fileName : GoString)
    (h : 8 + fileName.length < 2 ^ 32) :
    BigFileHeader.SetFileName b fileName
      = some { b with
          DataSize := 8 + fileName.length
          Data := (if 8 ≤ b.Data.length then b.Data.take 8 else List.replicate 8 0)
            ++ fileName } := by
  have hm : (8 + fileName.length) % 2 ^ 32 = 8 + fileName.length := Nat.mod_eq_of_lt h
  unfold BigFileHeader.SetFileName
  simp only [hm, ge_iff_le]
  by_cases h8 : 8 ≤ b.Data.length
  · simp only [h8, if_true, slice_front _ _ h8, Option.map_some', Option.some_bind]
    have hc : copy (List.replicate (8 + fileName.length) 0) (List.take 8 b.Data)
        = List.take 8 b.Data ++ List.replicate fileName.length 0 := by
      simp [copy, List.length_take, Nat.min_eq_left h8, List.take_take]
    rw [hc]
    have := onSlice_append (List.take 8 b.Data) (List.replicate fileName.length 0) []
      (fun d => some (copy d fileName))
    simp only [List.length_take, Nat.min_eq_left h8, List.length_replicate, List.append_nil,
      copy_replicate _ _ rfl, Option.map_some'] at this
    simp only [List.length_append, List.length_take, Nat.min_eq_left h8,
      List.length_replicate, this, Option.map_some']
  · simp only [h8, if_false, Option.some_bind]
    have := onSlice_append (List.replicate 8 0) (List.replicate fileName.length 0) []
      (fun d => some (copy d fileName))
    simp only [List.length_replicate, List.append_nil,
      copy_replicate _ _ rfl, Option.map_some'] at this
    simp only [List.replicate_add, List.length_append,
      List.length_replicate, this, Option.map_some']

theorem BigFileHeader.SetFileName_overflow (b : Packet) (fileName : GoString)
    (h : (8 + fileName.length) % 2 ^ 32 < 8) :
    BigFileHeader.SetFileName b fileName = none := by
  unfold BigFileHeader.SetFileName
  by_cases h8 : 8 ≤ b.Data.length
  · simp only [ge_iff_le, h8, if_true, slice_front _ _ h8, Option.map_some', Option.some_bind]
    rw [onSlice_none_of_lt _ _ _ _ (by rw [copy_length, List.length_replicate]; exact h)]
    rfl
  · simp only [ge_iff_le, h8, if_false, Option.some_bind]
    rw [onSlice_none_of_lt _ _ _ _ (by rw [List.length_replicate]; exact h)]
    rfl

theorem BigFileHeader.SetFileSize_eq (b : Packet) (fileSize : Nat)
    (h : 8 ≤ b.DataSize → 8 ≤ b.Data.length) :
    BigFileHeader.SetFileSize b fileSize
      = some (if b.DataSize < 8 then
          { b with DataSize := 8, Data := bigEndian 8 fileSize }
        else { b with Data := bigEndian 8 fileSize ++ b.Data.drop 8 }) := by
  unfold BigFileHeader.SetFileSize
  by_cases h8 : b.DataSize < 8
  · simp only [h8, if_true]
    rw [onSlice_front _ _ _ (by simp), PutUint64_eq _ _ (by simp)]
    simp
  · simp only [h8, if_false]
    have hl : 8 ≤ b.Data.length := h (by omega)
    rw [onSlice_front _ _ _ hl, PutUint64_eq _ _ (by simp [List.length_take, hl])]
    simp [List.drop_take]

theorem BigFileRequest.SetStart_request_eq (b : Packet) (start : Nat) :
    BigFileRequest.SetStart b start
      = some (if b.Data.length < 16 then
          { b with DataSize := 16, Data := bigEndian 8 start ++ List.replicate 8 0 }
        else { b with Data := bigEndian 8 start ++ b.Data.drop 8 }) := by
  unfold BigFileRequest.SetStart
  by_cases h16 : b.Data.length < 16
  · simp only [h16, if_true]
    rw [onSlice_front _ _ _ (by simp), PutUint64_eq _ _ (by simp)]
    simp
  · simp only [h16, if_false]
    have hl : 8 ≤ b.Data.length := by omega
    rw [onSlice_front _ _ _ hl, PutUint64_eq _ _ (by simp [List.length_take, hl])]
    simp [List.drop_take]

theorem BigFileRequest.SetLength_eq (b : Packet) (length : Nat) :
    BigFileRequest.SetLength b length
      = some (if b.Data.length < 16 then
          { b with DataSize := 16, Data := List.replicate 8 0 ++ bigEndian 8 length }
        else { b with Data := b.Data.take 8 ++ bigEndian 8 length ++ b.Data.drop 16 }) := by
  unfold BigFileRequest.SetLength
  by_cases h16 : b.Data.length < 16
  · simp only [h16, if_true]
    have := onSlice_back (List.replicate 16 (0 : Byte)) 8 (fun d => PutUint64 d length)
      (by simp)
    rw [this]
    beta_reduce
    rw [PutUint64_eq _ _ (by simp)]
    simp
  · simp only [h16, if_false]
    have hl : 8 ≤ b.Data.length := by omega
    rw [onSlice_back _ _ _ hl, PutUint64_eq _ _ (by simp only [List.length_drop]; omega)]
    simp

theorem BigFileResponse.SetFileID_response_eq (b : Packet) (fileID : List Byte)
    (h : 8 + fileID.length < 2 ^ 32) :
    BigFileResponse.SetFileID b fileID
      = some { b with
          InfoSize := 8 + fileID.length
          Info := (if 8 ≤ b.Info.length then b.Info.take 8 else List.replicate 8 0)
            ++ fileID } := by
  have hm : (8 + fileID.length) % 2 ^ 32 = 8 + fileID.length := Nat.mod_eq_of_lt h
  unfold BigFileResponse.SetFileID
  simp only [hm, ge_iff_le]
  by_cases h8 : 8 ≤ b.Info.length
  · simp only [h8, if_true, slice_front _ _ h8, Option.map_some', Option.some_bind]
    have hc : copy (List.replicate (8 + fileID.length) 0) (List.take 8 b.Info)
        = List.take 8 b.Info ++ List.replicate fileID.length 0 := by
      simp [copy, List.length_take, Nat.min_eq_left h8, List.take_take]
    rw [hc]
    have := onSlice_append (List.take 8 b.Info) (List.replicate fileID.length 0) []
      (fun d => some (copy d fileID))
    simp only [List.length_take, Nat.min_eq_left h8, List.length_replicate, List.append_nil,
      copy_replicate _ _ rfl, Option.map_some'] at this
    simp only [List.length_append, List.length_take, Nat.min_eq_left h8,
      List.length_replicate, this, Option.map_some']
  · simp only [h8, if_false, Option.some_bind]
    have := onSlice_append (List.replicate 8 0) (List.replicate fileID.length 0) []
      (fun d => some (copy d fileID))
    simp only [List.length_replicate, List.append_nil,
      copy_replicate _ _ rfl, Option.map_some'] at this
    simp only [List.replicate_add, List.length_append,
      List.length_replicate, this, Option.map_some']

theorem BigFileResponse.SetFileID_response_overflow (b : Packet) (fileID : List Byte)
    (h : (8 + fileID.length) % 2 ^ 32 < 8) :
    BigFileResponse.SetFileID b fileID = none := by
  unfold BigFileResponse.SetFileID
  by_cases h8 : 8 ≤ b.Info.length
  · simp only [ge_iff_le, h8, if_true, slice_front _ _ h8, Option.map_some', Option.some_bind]
    rw [onSlice_none_of_lt _ _ _ _ (by rw [copy_length, List.length_replicate]; exact h)]
    rfl
  · simp only [ge_iff_le, h8, if_false, Option.some_bind]
    rw [onSlice_none_of_lt _ _ _ _ (by rw [List.length_replicate]; exact h)]
    rfl

theorem BigFileResponse.SetStart_response_eq (b : Packet) (start : Nat)
    (h : 8 ≤ b.InfoSize → 8 ≤ b.Info.length) :
    BigFileResponse.SetStart b start
      = some (if b.InfoSize < 8 then
          { b with InfoSize := 8, Info := bigEndian 8 start }
        else { b with Info := bigEndian 8 start ++ b.Info.drop 8 }) := by
  unfold BigFileResponse.SetStart
  by_cases h8 : b.InfoSize < 8
  · simp only [h8, if_true]
    rw [onSlice_front _ _ _ (by simp), PutUint64_eq _ _ (by simp)]
    simp
  · simp only [h8, if_false]
    have hl : 8 ≤ b.Info.length := h (by omega)
    rw [onSlice_front _ _ _ hl, PutUint64_eq _ _ (by simp [List.length_take, hl])]
    simp [List.drop_take]

/-! ## Size agreement -/

theorem SizesAgree.of_SetFileName {p : Packet} (hp : SizesAgree p) (fileName : GoString)
    (h : 8 + fileName.length < 2 ^ 32) :
    ∃ q, BigFileHeader.SetFileName p fileName = some q ∧ SizesAgree q := by
  refine ⟨_, BigFileHeader.SetFileName_eq p fileName h, hp.1, ?_⟩
  show 8 + fileName.length = _
  split
  · simp [List.length_take, *]
  · simp only [List.length_append, List.length_replicate]

theorem SizesAgree.of_SetFileSize {p : Packet} (hp : SizesAgree p) (fileSize : Nat) :
    ∃ q, BigFileHeader.SetFileSize p fileSize = some q ∧ SizesAgree q := by
  refine ⟨_, BigFileHeader.SetFileSize_eq p fileSize (by rw [hp.2]; exact id), ?_⟩
  obtain ⟨h1, h2⟩ := hp
  split
  · exact ⟨h1, by simp [bigEndian_length]⟩
  · refine ⟨h1, ?_⟩
    simp only [List.length_append, bigEndian_length, List.length_drop]
    omega

theorem SizesAgree.of_SetStart {p : Packet} (hp : SizesAgree p) (start : Nat) :
    ∃ q, BigFileRequest.SetStart p start = some q ∧ SizesAgree q := by
  refine ⟨_, BigFileRequest.SetStart_request_eq p start, ?_⟩
  obtain ⟨h1, h2⟩ := hp
  split
  · exact ⟨h1, by simp [bigEndian_length]⟩
  · refine ⟨h1, ?_⟩
    simp only [List.length_append, bigEndian_length, List.length_drop]
    omega

theorem SizesAgree.of_SetLength {p : Packet} (hp : SizesAgree p) (length : Nat) :
    ∃ q, BigFileRequest.SetLength p length = some q ∧ SizesAgree q := by
  refine ⟨_, BigFileRequest.SetLength_eq p length, ?_⟩
  obtain ⟨h1, h2⟩ := hp
  split
  · exact ⟨h1, by simp [bigEndian_length]⟩
  · refine ⟨h1, ?_⟩
    simp only [List.length_append, bigEndian_length, List.length_drop, List.length_take]
    omega

theorem SizesAgree.of_ResponseSetFileID {p : Packet} (hp : SizesAgree p) (fileID : List Byte)
    (h : 8 + fileID.length < 2 ^ 32) :
    ∃ q, BigFileResponse.SetFileID p fileID = some q ∧ SizesAgree q := by
  refine ⟨_, BigFileResponse.SetFileID_response_eq p fileID h, ?_, hp.2⟩
  show 8 + fileID.length = _
  split
  · simp [List.length_take, *]
  · simp only [List.length_append, List.length_replicate]

theorem SizesAgree.of_ResponseSetStart {p : Packet} (hp : SizesAgree p) (start : Nat) :
    ∃ q, BigFileResponse.SetStart p start = some q ∧ SizesAgree q := by
  refine ⟨_, BigFileResponse.SetStart_response_eq p start (by rw [hp.1]; exact id), ?_⟩
  obtain ⟨h1, h2⟩ := hp
  split
  · exact ⟨by simp [bigEndian_length], h2⟩
  · refine ⟨?_, h2⟩
    simp only [List.length_append, bigEndian_length, List.length_drop]
    omega

theorem SizesAgree.setInfo {p : Packet} (hp : SizesAgree p) (info : List Byte)
    (h : info.length < 2 ^ 32) :
    SizesAgree { p with Info := info, InfoSize := info.length % 2 ^ 32 } :=
  ⟨Nat.mod_eq_of_lt h, hp.2⟩

theorem SizesAgree.setData {p : Packet} (hp : SizesAgree p) (data : List Byte)
    (h : data.length < 2 ^ 32) :
    SizesAgree { p with Data := data, DataSize := data.length % 2 ^ 32 } :=
  ⟨hp.1, Nat.mod_eq_of_lt h⟩

theorem SizesAgree.of_NewPacket (typ : Nat) (info data : List Byte) (hI : info.length < 2 ^ 32)
    (hD : data.length < 2 ^ 32) : SizesAgree (NewPacket typ info data) :=
  NewPacket_sizes typ info data hI hD

theorem SizesAgree.of_NewBigFileHeader (fileID : List Byte) (fileName : GoString) (fileSize : Nat)
    (hI : fileID.length < 2 ^ 32) (hN : 8 + fileName.length < 2 ^ 32) :
    ∃ h, NewBigFileHeader fileID fileName fileSize = some h ∧ SizesAgree h := by
  have h0 : SizesAgree (NewPacket PacketTypeBigFileHeader [] []) := by decide
  obtain ⟨q, hq, hqs⟩ := (h0.setInfo fileID hI).of_SetFileName fileName hN
  obtain ⟨r, hr, hrs⟩ := hqs.of_SetFileSize fileSize
  refine ⟨r, ?_, hrs⟩
  unfold NewBigFileHeader BigFileHeader.SetFileID
  simp only []
  rw [hq]
  exact hr

theorem SizesAgree.of_NewBigFileRequest (fileID : List Byte) (start length : Nat)
    (hI : fileID.length < 2 ^ 32) :
    ∃ r, NewBigFileRequest fileID start length = some r ∧ SizesAgree r := by
  have h0 : SizesAgree (NewPacket PacketTypeBigFileRequest [] []) := by decide
  obtain ⟨q, hq, hqs⟩ := (h0.setInfo fileID hI).of_SetStart start
  obtain ⟨r, hr, hrs⟩ := hqs.of_SetLength length
  refine ⟨r, ?_, hrs⟩
  unfold NewBigFileRequest BigFileRequest.SetFileID
  simp only []
  rw [hq]
  exact hr

theorem SizesAgree.of_NewBigFileResponse (fileID : List Byte) (start : Nat)
    (fileContent : List Byte) (hI : 8 + fileID.length < 2 ^ 32)
    (hC : fileContent.length < 2 ^ 32) :
    ∃ r, NewBigFileResponse fileID start fileContent = some r ∧ SizesAgree r := by
  have h0 : SizesAgree (NewPacket PacketTypeBigFileResponse [] []) := by decide
  obtain ⟨q, hq, hqs⟩ := h0.of_ResponseSetFileID fileID hI
  obtain ⟨r, hr, hrs⟩ := hqs.of_ResponseSetStart start
  refine ⟨_, ?_, hrs.setData fileContent hC⟩
  unfold NewBigFileResponse
  simp only []
  rw [hq, Option.some_bind, hr]
  rfl

theorem SetFileContent_not_sizesAgree (p : Packet) (content : List Byte)
    (h : content.length = 2 ^ 32) :
    ¬ SizesAgree (BigFileResponse.SetFileContent p content) := by
  intro hs
  have h2 : content.length % 2 ^ 32 = content.length := hs.2
  rw [h] at h2
  norm_num at h2

/-- C3 as stated fails: `SetFileName` applied to a packet whose sizes agree,
with a file name shorter than `2^32` bytes (`2^32 - 8` of them), panics instead
of yielding a packet, and so does `NewBigFileHeader` with that name; and
`SetFileContent` with a content of `2^32` bytes yields a packet whose `DataSize`
is `0`. -/
theorem long_fileName_breaks_sizes :
    SizesAgree (NewPacket PacketTypeBigFileHeader [] []) ∧
      (List.replicate (2 ^ 32 - 8) (0 : Byte)).length < 2 ^ 32 ∧
      BigFileHeader.SetFileName (NewPacket PacketTypeBigFileHeader [] [])
        (List.replicate (2 ^ 32 - 8) 0) = none ∧
      NewBigFileHeader [] (List.replicate (2 ^ 32 - 8) 0) 0 = none ∧
      ¬ SizesAgree (BigFileResponse.SetFileContent (NewPacket PacketTypeBigFileHeader [] [])
        (List.replicate (2 ^ 32) 0)) := by
  have hlen : (List.replicate (2 ^ 32 - 8) (0 : Byte)).length = 2 ^ 32 - 8 :=
    List.length_replicate _ _
  have hov : (8 + (List.replicate (2 ^ 32 - 8) (0 : Byte)).length) % 2 ^ 32 < 8 := by
    rw [hlen]; norm_num
  refine ⟨by decide, by rw [hlen]; norm_num,
    BigFileHeader.SetFileName_overflow _ _ hov, ?_, ?_⟩
  · unfold NewBigFileHeader
    simp only []
    rw [BigFileHeader.SetFileName_overflow _ _ hov]
    rfl
  · exact SetFileContent_not_sizesAgree _ _ (List.length_replicate _ _)

/-- C3, amended: every packet built by `NewPacket`, `NewMessage`,
`NewBigFileHeader`, `NewBigFileRequest` or `NewBigFileResponse` whose resulting
`Info` and `Data` are shorter than `2^32` bytes has sizes that agree with its
buffers, and every mutator applied to a packet whose sizes agree yields a packet
whose sizes agree, provided the buffer it installs is shorter than `2^32` bytes
(`8 + len` for `SetFileName` and for `BigFileResponse.SetFileID`). -/
theorem size_agreement (p : Packet) (hp : SizesAgree p) (typ fileSize start length : Nat)
    (info data fileID fileName content : List Byte) :
    (info.length < 2 ^ 32 → data.length < 2 ^ 32 → SizesAgree (NewPacket typ info data)) ∧
    (info.length < 2 ^ 32 → data.length < 2 ^ 32 → SizesAgree (NewMessage info data)) ∧
    (fileID.length < 2 ^ 32 → 8 + fileName.length < 2 ^ 32 →
      ∃ h, NewBigFileHeader fileID fileName fileSize = some h ∧ SizesAgree h) ∧
    (fileID.length < 2 ^ 32 →
      ∃ r, NewBigFileRequest fileID start length = some r ∧ SizesAgree r) ∧
    (8 + fileID.length < 2 ^ 32 → content.length < 2 ^ 32 →
      ∃ r, NewBigFileResponse fileID start content = some r ∧ SizesAgree r) ∧
    (fileID.length < 2 ^ 32 → SizesAgree (BigFileHeader.SetFileID p fileID)) ∧
    (8 + fileName.length < 2 ^ 32 →
      ∃ q, BigFileHeader.SetFileName p fileName = some q ∧ SizesAgree q) ∧
    (∃ q, BigFileHeader.SetFileSize p fileSize = some q ∧ SizesAgree q) ∧
    (fileID.length < 2 ^ 32 → SizesAgree (BigFileHeader.SetFileHash p fileID)) ∧
    (fileID.length < 2 ^ 32 → SizesAgree (BigFileRequest.SetFileID p fileID)) ∧
    (∃ q, BigFileRequest.SetStart p start = some q ∧ SizesAgree q) ∧
    (∃ q, BigFileRequest.SetLength p length = some q ∧ SizesAgree q) ∧
    (8 + fileID.length < 2 ^ 32 →
      ∃ q, BigFileResponse.SetFileID p fileID = some q ∧ SizesAgree q) ∧
    (∃ q, BigFileResponse.SetStart p start = some q ∧ SizesAgree q) ∧
    (content.length < 2 ^ 32 → SizesAgree (BigFileResponse.SetFileContent p content)) ∧
    (info.length < 2 ^ 32 → SizesAgree (Message.SetInfo p info)) ∧
    (data.length < 2 ^ 32 → SizesAgree (Message.SetContent p data)) :=
  ⟨SizesAgree.of_NewPacket typ info data,
   SizesAgree.of_NewPacket PacketTypeMessage info data,
   SizesAgree.of_NewBigFileHeader fileID fileName fileSize,
   SizesAgree.of_NewBigFileRequest fileID start length,
   SizesAgree.of_NewBigFileResponse fileID start content,
   hp.setInfo fileID,
   hp.of_SetFileName fileName,
   hp.of_SetFileSize fileSize,
   hp.setInfo fileID,
   hp.setInfo fileID,
   hp.of_SetStart start,
   hp.of_SetLength length,
   hp.of_ResponseSetFileID fileID,
   hp.of_ResponseSetStart start,
   hp.setData content,
   hp.setInfo info,
   hp.setData data⟩

/-- The size agreement theorem at a small packet and short buffers. -/
theorem size_agreement_witness :
    SizesAgree (NewPacket 6 [1, 2] [3]) ∧
      (∃ q, BigFileHeader.SetFileName (NewPacket 6 [1, 2] [3]) [65, 66] = some q ∧
        SizesAgree q) ∧
      (∃ q, BigFileResponse.SetStart (NewPacket 6 [1, 2] [3]) 7 = some q ∧ SizesAgree q) :=
  ⟨by decide,
   (size_agreement (NewPacket 6 [1, 2] [3]) (by decide) 6 5 7 9 [1] [2] [3] [65, 66]
     [4]).2.2.2.2.2.2.1 (by decide),
   (size_agreement (NewPacket 6 [1, 2] [3]) (by decide) 6 5 7 9 [1] [2] [3] [65, 66]
     [4]).2.2.2.2.2.2.2.2.2.2.2.2.2.1⟩

/-! ## The three typed views -/

theorem NewBigFileHeader_eq (fileID : List Byte) (fileName : GoString) (fileSize : Nat)
    (hN : 8 + fileName.length < 2 ^ 32) :
    NewBigFileHeader fileID fileName fileSize
      = some { Typ := PacketTypeBigFileHeader, InfoSize := fileID.length % 2 ^ 32,
               DataSize := 8 + fileName.length, Info := fileID,
               Data := bigEndian 8 fileSize ++ fileName } := by
  unfold NewBigFileHeader BigFileHeader.SetFileID
  simp only []
  rw [BigFileHeader.SetFileName_eq _ _ hN, Option.some_bind, BigFileHeader.SetFileSize_eq]
  · have : ¬ (8 + fileName.length < 8) := by omega
    simp [NewPacket, this]
  · intro _
    simp [NewPacket]

theorem NewBigFileRequest_eq (fileID : List Byte) (start length : Nat) :
    NewBigFileRequest fileID start length
      = some { Typ := PacketTypeBigFileRequest, InfoSize := fileID.length % 2 ^ 32,
               DataSize := 16, Info := fileID,
               Data := bigEndian 8 start ++ bigEndian 8 length } := by
  unfold NewBigFileRequest BigFileRequest.SetFileID
  simp only []
  rw [BigFileRequest.SetStart_request_eq, Option.some_bind, BigFileRequest.SetLength_eq]
  simp [NewPacket, bigEndian_length]

theorem NewBigFileResponse_eq (fileID : List Byte) (start : Nat) (fileContent : List Byte)
    (hI : 8 + fileID.length < 2 ^ 32) :
    NewBigFileResponse fileID start fileContent
      = some { Typ := PacketTypeBigFileResponse, InfoSize := 8 + fileID.length,
               DataSize := fileContent.length % 2 ^ 32,
               Info := bigEndian 8 start ++ fileID, Data := fileContent } := by
  unfold NewBigFileResponse
  simp only []
  rw [BigFileResponse.SetFileID_response_eq _ _ hI, Option.some_bind,
    BigFileResponse.SetStart_response_eq]
  · have : ¬ (8 + fileID.length < 8) := by omega
    simp [NewPacket, this, BigFileResponse.SetFileContent]
  · intro _
    simp [NewPacket]

theorem Uint64_slice_front (v : Nat) (rest : List Byte) (hv : v < 2 ^ 64) :
    (slice (bigEndian 8 v ++ rest) 0 8).bind Uint64 = some v := by
  rw [slice_front _ _ (by simp [bigEndian_length])]
  have : List.take 8 (bigEndian 8 v ++ rest) = bigEndian 8 v ++ [] := by
    simp [List.take_append_eq_append_take, bigEndian_length]
  rw [this, Option.some_bind, Uint64_bigEndian v [] hv]

theorem slice_after_front (a rest : List Byte) (k : Nat) (h : k = a.length) :
    slice (a ++ rest) k (a ++ rest).length = some rest := by
  subst h
  rw [slice_back _ _ (by simp)]
  simp

/-- C4 (HEADER view): `NewBigFileHeader` builds a packet of type 4 whose `Info`
is the file id and whose `Data` is the 8-byte big-endian file size followed by
the file name, and the accessors return the arguments. -/
theorem header_view (fileID : List Byte) (fileName : GoString) (fileSize : Nat)
    (hN : 8 + fileName.length < 2 ^ 32) (hS : fileSize < 2 ^ 64) :
    ∃ h, NewBigFileHeader fileID fileName fileSize = some h ∧
      h.Typ = 4 ∧ h.Info = fileID ∧ h.Data = bigEndian 8 fileSize ++ fileName ∧
      BigFileHeader.FileID h = fileID ∧ BigFileHeader.FileHash h = fileID ∧
      BigFileHeader.FileName h = some fileName ∧
      BigFileHeader.FileSize h = some fileSize :=
  ⟨_, NewBigFileHeader_eq fileID fileName fileSize hN, rfl, rfl, rfl, rfl, rfl,
    slice_after_front _ _ 8 (bigEndian_length 8 fileSize).symm,
    Uint64_slice_front fileSize fileName hS⟩

/-- The HEADER view theorem at a 16-byte id, the name "a.txt" and a size of
1.5 blocks. -/
theorem header_view_witness :
    8 + ([97, 46, 116, 120, 116] : GoString).length < 2 ^ 32 ∧ 1572864 < 2 ^ 64 ∧
    ∃ h, NewBigFileHeader (List.replicate 16 7) [97, 46, 116, 120, 116] 1572864 = some h ∧
      h.Typ = 4 ∧ h.Info = List.replicate 16 7 ∧
      h.Data = bigEndian 8 1572864 ++ [97, 46, 116, 120, 116] ∧
      BigFileHeader.FileID h = List.replicate 16 7 ∧
      BigFileHeader.FileHash h = List.replicate 16 7 ∧
      BigFileHeader.FileName h = some [97, 46, 116, 120, 116] ∧
      BigFileHeader.FileSize h = some 1572864 :=
  ⟨by decide, by decide,
    header_view (List.replicate 16 7) [97, 46, 116, 120, 116] 1572864 (by decide) (by decide)⟩

/-- C5 (REQUEST view): `NewBigFileRequest` builds a packet of type 5 whose
`Info` is the file id and whose `Data` is exactly 16 bytes, the big-endian start
followed by the big-endian length, and the accessors return the arguments. -/
theorem request_view (fileID : List Byte) (start length : Nat) (hs : start < 2 ^ 64)
    (hl : length < 2 ^ 64) :
    ∃ r, NewBigFileRequest fileID start length = some r ∧
      r.Typ = 5 ∧ r.Info = fileID ∧ r.Data.length = 16 ∧
      r.Data = bigEndian 8 start ++ bigEndian 8 length ∧
      BigFileRequest.FileID r = fileID ∧ BigFileRequest.Start r = some start ∧
      BigFileRequest.Length r = some length := by
  refine ⟨_, NewBigFileRequest_eq fileID start length, rfl, rfl, ?_, rfl, rfl,
    Uint64_slice_front start _ hs, ?_⟩
  · simp [bigEndian_length]
  · show (slice (bigEndian 8 start ++ bigEndian 8 length) _ _).bind Uint64 = _
    rw [slice_after_front _ _ 8 (bigEndian_length 8 start).symm, Option.some_bind]
    have := Uint64_bigEndian length [] hl
    simpa using this

/-- The REQUEST view theorem at the second block of a file. -/
theorem request_view_witness :
    1048576 < 2 ^ 64 ∧ ∃ r, NewBigFileRequest (List.replicate 16 7) 1048576 1048576 = some r ∧
      r.Typ = 5 ∧ r.Info = List.replicate 16 7 ∧ r.Data.length = 16 ∧
      r.Data = bigEndian 8 1048576 ++ bigEndian 8 1048576 ∧
      BigFileRequest.FileID r = List.replicate 16 7 ∧
      BigFileRequest.Start r = some 1048576 ∧ BigFileRequest.Length r = some 1048576 :=
  ⟨by decide, request_view (List.replicate 16 7) 1048576 1048576 (by decide) (by decide)⟩

/-- C6 (RESPONSE view): `NewBigFileResponse` builds a packet of type 6 whose
`Info` is the 8-byte big-endian start followed by the file id and whose `Data`
is the content, and the accessors return the arguments. -/
theorem response_view (fileID : List Byte) (start : Nat) (content : List Byte)
    (hI : 8 + fileID.length < 2 ^ 32) (hs : start < 2 ^ 64) :
    ∃ r, NewBigFileResponse fileID start content = some r ∧
      r.Typ = 6 ∧ r.Info = bigEndian 8 start ++ fileID ∧ r.Data = content ∧
      BigFileResponse.Start r = some start ∧ BigFileResponse.FileID r = some fileID ∧
      BigFileResponse.FileContent r = content :=
  ⟨_, NewBigFileResponse_eq fileID start content hI, rfl, rfl, rfl,
    Uint64_slice_front start fileID hs,
    slice_after_front _ _ 8 (bigEndian_length 8 start).symm, rfl⟩

/-- The RESPONSE view theorem at a three-byte block. -/
theorem response_view_witness :
    8 + (List.replicate 16 (7 : Byte)).length < 2 ^ 32 ∧ 1048576 < 2 ^ 64 ∧
    ∃ r, NewBigFileResponse (List.replicate 16 7) 1048576 [1, 2, 3] = some r ∧
      r.Typ = 6 ∧ r.Info = bigEndian 8 1048576 ++ List.replicate 16 7 ∧ r.Data = [1, 2, 3] ∧
      BigFileResponse.Start r = some 1048576 ∧
      BigFileResponse.FileID r = some (List.replicate 16 7) ∧
      BigFileResponse.FileContent r = [1, 2, 3] :=
  ⟨by decide, by decide,
    response_view (List.replicate 16 7) 1048576 [1, 2, 3] (by decide) (by decide)⟩

/-! ## Block count -/

theorem BigFileHeader.FileSize_lt (h : Packet) (S : Nat)
    (hS : BigFileHeader.FileSize h = some S) : S < 2 ^ 64 := by
  unfold BigFileHeader.FileSize at hS
  obtain ⟨b, _, hb⟩ := Option.bind_eq_some.mp hS
  exact Uint64_lt b S hb

theorem numBlock_eq (w : BigFileReceiverWorker) (S : Nat)
    (hS : BigFileHeader.FileSize w.header = some S) (hBS : 1 ≤ w.blockSize) :
    w._numBlock = some (S / w.blockSize + if S % w.blockSize > 0 then 1 else 0) := by
  have hlt := BigFileHeader.FileSize_lt _ _ hS
  have hne : w.blockSize ≠ 0 := by omega
  unfold BigFileReceiverWorker._numBlock
  rw [hS, Option.some_bind, if_neg hne]
  by_cases hr : S % w.blockSize > 0
  · have h2 : 2 ≤ w.blockSize := by
      by_contra hc
      have : w.blockSize = 1 := by omega
      rw [this, Nat.mod_one] at hr
      omega
    have hq : S / w.blockSize ≤ S / 2 := Nat.div_le_div_left h2 (by norm_num)
    have : (S / w.blockSize + 1) % 2 ^ 64 = S / w.blockSize + 1 :=
      Nat.mod_eq_of_lt (by omega)
    simp only [hr, if_true, this]
  · simp only [hr, if_false, Nat.add_zero]

/-- C7 (block count): for a header carrying file size `S` and a block size of at
least one, `_numBlock` returns the ceiling of `S / blockSize`, the least `n`
with `n * blockSize ≥ S`; it is `0` for `S = 0` and `S / blockSize` when the
block size divides `S`. -/
theorem numBlock_ceil (w : BigFileReceiverWorker) (S : Nat)
    (hS : BigFileHeader.FileSize w.header = some S) (hBS : 1 ≤ w.blockSize) :
    ∃ n, w._numBlock = some n ∧
      n = ⌈(S : ℚ) / (w.blockSize : ℚ)⌉₊ ∧
      S ≤ n * w.blockSize ∧ (∀ m, S ≤ m * w.blockSize → n ≤ m) ∧
      (S = 0 → n = 0) ∧ (w.blockSize ∣ S → n = S / w.blockSize) := by
  refine ⟨_, numBlock_eq w S hS hBS, ?_⟩
  generalize w.blockSize = BS at hBS ⊢
  have hdm := Nat.div_add_mod S BS
  have hmod : S % BS < BS := Nat.mod_lt _ (by omega)
  have hup : S ≤ (S / BS + if S % BS > 0 then 1 else 0) * BS := by
    split
    · rw [Nat.add_mul, Nat.mul_comm]; omega
    · rw [Nat.add_zero, Nat.mul_comm]; omega
  have hleast : ∀ m, S ≤ m * BS → (S / BS + if S % BS > 0 then 1 else 0) ≤ m := by
    intro m hm
    by_contra hc
    split at hc
    · have hle : m ≤ S / BS := by omega
      have := Nat.mul_le_mul_right BS hle
      rw [Nat.mul_comm (S / BS) BS] at this
      omega
    · have hle : m + 1 ≤ S / BS := by omega
      have := Nat.mul_le_mul_right BS hle
      rw [Nat.mul_comm (S / BS) BS, Nat.add_mul] at this
      omega
  have hpos : (0 : ℚ) < (BS : ℚ) := by exact_mod_cast hBS
  refine ⟨?_, hup, hleast, ?_, ?_⟩
  · apply le_antisymm
    · apply hleast
      have := Nat.le_ceil ((S : ℚ) / (BS : ℚ))
      rw [div_le_iff₀ hpos] at this
      exact_mod_cast this
    · apply Nat.ceil_le.mpr
      rw [div_le_iff₀ hpos]
      exact_mod_cast hup
  · intro h0
    subst h0
    simp
  · intro hd
    have : S % BS = 0 := Nat.mod_eq_zero_of_dvd hd
    simp [this]

/-- The block count theorem at the 1.5-block file of the worker, which has two
blocks. -/
theorem numBlock_ceil_witness :
    BigFileHeader.FileSize
        (NewBigFileReceiverWorker
          ((NewBigFileHeader (List.replicate 16 7) [97] 1572864).getD Packet.zero)).header
      = some 1572864 ∧
    1 ≤ (NewBigFileReceiverWorker
          ((NewBigFileHeader (List.replicate 16 7) [97] 1572864).getD Packet.zero)).blockSize ∧
    ∃ n, (NewBigFileReceiverWorker
          ((NewBigFileHeader (List.replicate 16 7) [97] 1572864).getD Packet.zero))._numBlock
        = some n ∧
      n = ⌈((1572864 : ℕ) : ℚ) / ((NewBigFileReceiverWorker
          ((NewBigFileHeader (List.replicate 16 7) [97] 1572864).getD Packet.zero)).blockSize
            : ℚ)⌉₊ ∧
      1572864 ≤ n * DefaultBlockSize ∧ (∀ m, 1572864 ≤ m * DefaultBlockSize → n ≤ m) ∧
      ((1572864 : ℕ) = 0 → n = 0) ∧
      (DefaultBlockSize ∣ 1572864 → n = 1572864 / DefaultBlockSize) :=
  ⟨by decide, by decide,
    numBlock_ceil (NewBigFileReceiverWorker
      ((NewBigFileHeader (List.replicate 16 7) [97] 1572864).getD Packet.zero)) 1572864
      (by decide) (by decide)⟩

/-! ## The sender's answer to a request -/

theorem int64_of_le (x : Nat) (h : x ≤ MaxInt) : int64 x = (x : Int) := by
  unfold MaxInt at h
  unfold int64
  have h1 : x % 2 ^ 64 = x := Nat.mod_eq_of_lt (by omega)
  rw [h1, if_pos (by omega)]

theorem File.ReadAt_eq (file : File) (n off : Nat) (h : off + n ≤ MaxInt) :
    file.ReadAt (List.replicate n 0) (off : Int)
      = (((file.contents.drop off).take n).length,
         copy (List.replicate n 0) ((file.contents.drop off).take n),
         if ((file.contents.drop off).take n).length < n then some GoError.EOF else none) := by
  unfold File.ReadAt
  have hneg : ¬ ((off : Int) < 0) := by omega
  rw [if_neg hneg]
  by_cases hn : n = 0
  · subst hn
    simp [copy]
  · have hlen : ¬ ((List.replicate n (0 : Byte)).length = 0) := by simpa using hn
    have hoff : ¬ ((off : Int).toNat + (List.replicate n (0 : Byte)).length > MaxInt) := by
      simp only [Int.toNat_ofNat, List.length_replicate]
      omega
    rw [if_neg hlen, if_neg hoff]
    simp

theorem slice_copy_replicate (n : Nat) (got : List Byte) (h : got.length ≤ n) :
    slice (copy (List.replicate n 0) got) 0 got.length = some got := by
  rw [slice_front _ _ (by rw [copy_length, List.length_replicate]; exact h)]
  simp [copy, List.take_append_eq_append_take, List.take_of_length_le h]

/-- The bytes `ReadAt` delivers are the bytes of the file in
`[min(start, S), min(start + length, S))`. -/
theorem drop_take_eq_clip (B : List Byte) (start length : Nat) :
    (B.drop start).take length
      = (B.take (min (start + length) B.length)).drop (min start B.length) := by
  have e1 : B.take (min (start + length) B.length) = B.take (start + length) := by
    by_cases h1 : start + length ≤ B.length
    · rw [Nat.min_eq_left h1]
    · rw [Nat.min_eq_right (by omega), List.take_of_length_le (le_refl _),
        List.take_of_length_le (by omega)]
  rw [e1]
  by_cases h2 : start ≤ B.length
  · rw [Nat.min_eq_left h2, List.take_drop]
  · rw [Nat.min_eq_right (by omega), List.drop_eq_nil_of_le (by omega), List.take_nil,
      List.drop_eq_nil_of_le (by rw [List.length_take]; omega)]

theorem responseReq_eq (s : BigFileSender) (fs : FileSystem) (fileID : List Byte)
    (file : File) (start length : Nat) (hadv : Advertised s fs fileID file)
    (hl : length ≤ maxAlloc) (hoff : start + length ≤ MaxInt) (req : Packet)
    (hI : req.Info = fileID) (hD : req.Data = bigEndian 8 start ++ bigEndian 8 length) :
    s.responseReq fs req
      = Result.ok { Typ := PacketTypeBigFileResponse, InfoSize := 8 + fileID.length,
                    DataSize := ((file.contents.drop start).take length).length % 2 ^ 32,
                    Info := bigEndian 8 start ++ fileID,
                    Data := (file.contents.drop start).take length } := by
  obtain ⟨h16, filePath, hload, hopen⟩ := hadv
  have hs : start ≤ MaxInt := by omega
  have hs64 : start < 2 ^ 64 := by unfold MaxInt at hs; omega
  have hl64 : length < 2 ^ 64 := by unfold maxAlloc at hl; omega
  have hStart : BigFileRequest.Start req = some start := by
    unfold BigFileRequest.Start
    rw [hD]
    exact Uint64_slice_front start _ hs64
  have hLength : BigFileRequest.Length req = some length := by
    unfold BigFileRequest.Length
    rw [hD, slice_after_front _ _ 8 (bigEndian_length 8 start).symm, Option.some_bind]
    have := Uint64_bigEndian length [] hl64
    simpa using this
  have hmake : makeBytes length = some (List.replicate length 0) := by
    unfold makeBytes
    rw [if_pos hl]
  have hgot : ((file.contents.drop start).take length).length ≤ length := by
    rw [List.length_take]
    exact Nat.min_le_left _ _
  unfold BigFileSender.responseReq
  simp only [BigFileRequest.FileID, hI, hload, hopen, hLength, hStart, Option.some_bind, hmake,
    int64_of_le start hs, File.ReadAt_eq file length start hoff]
  have herr : ¬ ((if ((file.contents.drop start).take length).length < length
      then some GoError.EOF else none) ≠ none ∧
      (if ((file.contents.drop start).take length).length < length
      then some GoError.EOF else none) ≠ some GoError.EOF) := by
    split <;> simp
  rw [if_neg herr, slice_copy_replicate _ _ hgot, Option.some_bind,
    NewBigFileResponse_eq _ _ _ (by omega)]

theorem SyncMap.Load_Store {V : Type} (m : SyncMap V) (key : GoString) (value : V) :
    SyncMap.Load (SyncMap.Store m key value) key = some value := by
  simp [SyncMap.Load, SyncMap.Store, List.lookup]

/-- After `AppendFile` on a file that opens, the file is advertised under its
MD5 digest. -/
theorem AppendFile_advertised (s s' : BigFileSender) (fs : FileSystem)
    (md5sum : List Byte → List Byte) (base : GoString → GoString) (filePath : GoString)
    (file : File) (hopen : fs filePath = some file)
    (hsum : (md5sum file.contents).length = 16)
    (h : s.AppendFile fs md5sum base filePath = some s') :
    Advertised s' fs (md5sum file.contents) file := by
  unfold BigFileSender.AppendFile at h
  simp only [hopen, Option.map_eq_some'] at h
  obtain ⟨header, _, rfl⟩ := h
  exact ⟨hsum, filePath, SyncMap.Load_Store _ _ _, hopen⟩

theorem demo_advertised : Advertised demoSender demoFS demoFileID demoFile :=
  ⟨by decide, demoPath, by decide, rfl⟩

/-- C8 as stated fails: for the advertised five-byte file, the request with
start `2^63` and length `1` gets the error of a negative `ReadAt` offset and no
response, the request with start `2^63 - 1` and length `1` gets the error of
`pread` (`EINVAL`, the read would end beyond the largest offset) and no
response, and the request with start `0` and length `2^48 + 1` panics in
`make`. -/
theorem request_beyond_int_range_not_clipped :
    Advertised demoSender demoFS demoFileID demoFile ∧
      (∃ req, NewBigFileRequest demoFileID (2 ^ 63) 1 = some req ∧
        demoSender.responseReq demoFS req = Result.err GoError.readFileError) ∧
      (∃ req, NewBigFileRequest demoFileID (2 ^ 63 - 1) 1 = some req ∧
        demoSender.responseReq demoFS req = Result.err GoError.readFileError) ∧
      (∃ req, NewBigFileRequest demoFileID 0 (2 ^ 48 + 1) = some req ∧
        demoSender.responseReq demoFS req = Result.panic) :=
  ⟨demo_advertised,
   ⟨_, NewBigFileRequest_eq demoFileID (2 ^ 63) 1, by decide⟩,
   ⟨_, NewBigFileRequest_eq demoFileID (2 ^ 63 - 1) 1, by decide⟩,
   ⟨_, NewBigFileRequest_eq demoFileID 0 (2 ^ 48 + 1), by decide⟩⟩

/-- C8, amended: for every advertised file with contents `B` of size `S` and
every request with `length ≤ 2^48` (the largest buffer `make` allocates) and
`start + length ≤ 2^63 - 1` (the read ends within the `int64` offsets),
including those with `start + length > S`, `responseReq` returns a response
whose file id and start are those of the request and whose content is exactly
the bytes of `B` in `[min(start, S), min(start+length, S))`. -/
theorem sender_clipping (s : BigFileSender) (fs : FileSystem) (fileID : List Byte)
    (file : File) (start length : Nat) (hadv : Advertised s fs fileID file)
    (hl : length ≤ maxAlloc) (hoff : start + length ≤ MaxInt) :
    ∃ req resp, NewBigFileRequest fileID start length = some req ∧
      s.responseReq fs req = Result.ok resp ∧
      BigFileResponse.FileID resp = some fileID ∧
      BigFileResponse.Start resp = some start ∧
      BigFileResponse.FileContent resp
        = (file.contents.take (min (start + length) file.contents.length)).drop
            (min start file.contents.length) := by
  have hs64 : start < 2 ^ 64 := by unfold MaxInt at hoff; omega
  refine ⟨_, _, NewBigFileRequest_eq fileID start length,
    responseReq_eq s fs fileID file start length hadv hl hoff _ rfl rfl,
    slice_after_front _ _ 8 (bigEndian_length 8 start).symm,
    Uint64_slice_front start fileID hs64, ?_⟩
  exact drop_take_eq_clip file.contents start length

/-- The sender clipping theorem at a request that runs past the end of the
five-byte file: bytes 3 and 4 come back. -/
theorem sender_clipping_witness :
    Advertised demoSender demoFS demoFileID demoFile ∧ 10 ≤ maxAlloc ∧ 3 + 10 ≤ MaxInt ∧
    ∃ req resp, NewBigFileRequest demoFileID 3 10 = some req ∧
      demoSender.responseReq demoFS req = Result.ok resp ∧
      BigFileResponse.FileID resp = some demoFileID ∧
      BigFileResponse.Start resp = some 3 ∧
      BigFileResponse.FileContent resp
        = (demoFile.contents.take (min (3 + 10) demoFile.contents.length)).drop
            (min 3 demoFile.contents.length) :=
  ⟨demo_advertised, by decide, by decide,
    sender_clipping demoSender demoFS demoFileID demoFile 3 10 demo_advertised
      (by decide) (by decide)⟩

/-! ## Blocks -/

theorem requestDownload_eq (w : BigFileReceiverWorker) (fileID : List Byte) (i : Nat)
    (hid : BigFileHeader.FileID w.header = fileID) (h16 : fileID.length = 16)
    (hi : w.blockSize * i < 2 ^ 64) (hi' : i < 2 ^ 64) :
    w.requestDownload i { incoming := [], outgoing := [] }
      = some ({ incoming := [],
                outgoing := wireHeader PacketTypeBigFileRequest fileID.length
                    (bigEndian 8 (w.blockSize * i) ++ bigEndian 8 w.blockSize).length
                  ++ fileID ++ (bigEndian 8 (w.blockSize * i) ++ bigEndian 8 w.blockSize)
                  ++ [] }, none) := by
  unfold BigFileReceiverWorker.requestDownload
  simp only [Nat.mod_eq_of_lt hi', Nat.mod_eq_of_lt hi, hid, NewBigFileRequest_eq,
    Option.some_bind, Packet.WriteTo]
  have hm : fileID.length % 2 ^ 32 = fileID.length := by rw [h16]; rfl
  have hlen : (bigEndian 8 (w.blockSize * i) ++ bigEndian 8 w.blockSize).length = 16 := by
    simp [bigEndian_length]
  rw [ToBytes_eq _ (by simp only [hm]) (by simp only [hlen])
    (by simp only [hlen, h16]; norm_num)]
  have hm' : fileID.length % 4294967296 = fileID.length := hm
  simp [Conn.Write, hm', hlen]

theorem blockResponse_eq (s : BigFileSender) (fs : FileSystem) (w : BigFileReceiverWorker)
    (fileID : List Byte) (file : File) (i : Nat) (hadv : Advertised s fs fileID file)
    (hid : BigFileHeader.FileID w.header = fileID) (hBS : w.blockSize ≤ maxAlloc)
    (hi : w.blockSize * i + w.blockSize ≤ MaxInt) (hi' : i < 2 ^ 64) :
    blockResponse s fs w i
      = some { Typ := PacketTypeBigFileResponse, InfoSize := 8 + fileID.length,
               DataSize :=
                 ((file.contents.drop (w.blockSize * i)).take w.blockSize).length % 2 ^ 32,
               Info := bigEndian 8 (w.blockSize * i) ++ fileID,
               Data := (file.contents.drop (w.blockSize * i)).take w.blockSize } := by
  have h16 := hadv.1
  have hi64 : w.blockSize * i < 2 ^ 64 := by unfold MaxInt at hi; omega
  unfold blockResponse
  rw [requestDownload_eq w fileID i hid h16 hi64 hi']
  simp only []
  rw [PacketFromReader_wire PacketTypeBigFileRequest fileID _ [] (by decide)
    (by rw [h16]; norm_num) (by simp [bigEndian_length])]
  simp only [NewPacket, if_true, PacketAsBigFileRequest]
  rw [responseReq_eq s fs fileID file (w.blockSize * i) w.blockSize hadv hBS hi _ rfl rfl]

theorem block_start_lt (S BS i : Nat) (hBS : 1 ≤ BS)
    (hi : i < S / BS + if S % BS > 0 then 1 else 0) : BS * i < S := by
  have hdm := Nat.div_add_mod S BS
  split at hi
  · have := Nat.mul_le_mul_left BS (by omega : i ≤ S / BS)
    omega
  · have := Nat.mul_le_mul_left BS (by omega : i + 1 ≤ S / BS)
    rw [Nat.mul_add, Nat.mul_one] at this
    omega

theorem blockContents_eq (s : BigFileSender) (fs : FileSystem) (w : BigFileReceiverWorker)
    (fileID : List Byte) (file : File) (hadv : Advertised s fs fileID file)
    (hid : BigFileHeader.FileID w.header = fileID) (h1 : 1 ≤ w.blockSize)
    (hBS : w.blockSize ≤ DefaultBlockSize) (k : Nat)
    (hk : k ≤ file.contents.length / w.blockSize
      + if file.contents.length % w.blockSize > 0 then 1 else 0) :
    blockContents s fs w k = some (file.contents.take (w.blockSize * k)) := by
  induction k with
  | zero => simp [blockContents]
  | succ k ih =>
    have hlt := block_start_lt file.contents.length w.blockSize k h1 (by omega)
    have hle := file.size_le
    unfold MaxFileSize at hle
    have hBS' : w.blockSize ≤ maxAlloc := le_trans hBS (by decide)
    have hk64 : k < 2 ^ 64 := by
      have := Nat.mul_le_mul_right k h1
      unfold MaxInt at hle
      omega
    rw [blockContents, ih (by omega), Option.some_bind, blockContent,
      blockResponse_eq s fs w fileID file k hadv hid hBS' (by omega) hk64]
    simp only [Option.map_some', BigFileResponse.FileContent, Nat.mul_add, Nat.mul_one,
      List.take_add]

theorem request_ToBytes (fileID : List Byte) (start length : Nat) (h16 : fileID.length = 16) :
    ∃ req bytes, NewBigFileRequest fileID start length = some req ∧
      req.ToBytes = some bytes ∧
      bytes = wireHeader PacketTypeBigFileRequest fileID.length
          (bigEndian 8 start ++ bigEndian 8 length).length
        ++ fileID ++ (bigEndian 8 start ++ bigEndian 8 length) ++ [] := by
  have hm : fileID.length % 2 ^ 32 = fileID.length := by rw [h16]; rfl
  have hlen : (bigEndian 8 start ++ bigEndian 8 length).length = 16 := by
    simp [bigEndian_length]
  refine ⟨_, _, NewBigFileRequest_eq fileID start length,
    ToBytes_eq _ (by simp only [hm]) (by simp only [hlen])
      (by simp only [hlen, h16]; norm_num), ?_⟩
  simp only [hm, hlen, List.append_nil]

theorem last_block_is_short (s : BigFileSender) (fs : FileSystem) (fileID : List Byte)
    (file : File) (w : BigFileReceiverWorker) (hadv : Advertised s fs fileID file)
    (hid : BigFileHeader.FileID w.header = fileID)
    (hsize : BigFileHeader.FileSize w.header = some file.contents.length)
    (h1 : 1 ≤ w.blockSize) (hBS : w.blockSize ≤ DefaultBlockSize)
    (hnd : ¬ w.blockSize ∣ file.contents.length) :
    ∃ n, w._numBlock = some n ∧ 1 ≤ n ∧
      ∀ i, i < n → ∃ resp, blockResponse s fs w i = some resp ∧
        ((BigFileResponse.FileContent resp).length < w.blockSize ↔ i = n - 1) ∧
        (i = n - 1 →
          (BigFileResponse.FileContent resp).length = file.contents.length % w.blockSize) ∧
        (i ≠ n - 1 → (BigFileResponse.FileContent resp).length = w.blockSize) := by
  have hle := file.size_le
  unfold MaxFileSize at hle
  have hBS' : w.blockSize ≤ maxAlloc := le_trans hBS (by decide)
  have hr : file.contents.length % w.blockSize > 0 := by
    rcases Nat.eq_zero_or_pos (file.contents.length % w.blockSize) with h0 | hpos
    · exact absurd (Nat.dvd_of_mod_eq_zero h0) hnd
    · exact hpos
  have hn := numBlock_eq w _ hsize h1
  rw [if_pos hr] at hn
  refine ⟨_, hn, Nat.le_add_left 1 _, ?_⟩
  intro i hi
  have hdm := Nat.div_add_mod file.contents.length w.blockSize
  have hmod := Nat.mod_lt file.contents.length (by omega : w.blockSize > 0)
  have hiq : i ≤ file.contents.length / w.blockSize := by omega
  have hmul := Nat.mul_le_mul_left w.blockSize hiq
  have hi64 : i < 2 ^ 64 := by
    have := Nat.mul_le_mul_right i h1
    unfold MaxInt at hle
    omega
  refine ⟨_, blockResponse_eq s fs w fileID file i hadv hid hBS' (by omega) hi64, ?_⟩
  simp only [BigFileResponse.FileContent, List.length_take, List.length_drop,
    Nat.add_sub_cancel]
  by_cases hlast : i = file.contents.length / w.blockSize
  · subst hlast
    refine ⟨?_, ?_, ?_⟩
    · constructor
      · intro _; omega
      · intro _; omega
    · intro _; omega
    · intro hne; omega
  · have hlt : i + 1 ≤ file.contents.length / w.blockSize := by omega
    have hmul' := Nat.mul_le_mul_left w.blockSize hlt
    rw [Nat.mul_add, Nat.mul_one] at hmul'
    refine ⟨?_, ?_, ?_⟩
    · constructor
      · intro _; omega
      · intro _; omega
    · intro _; omega
    · intro _; omega

/-- C10 (EOF block): for an advertised file whose size `S` is not divisible by
the block size of the worker (`DefaultBlockSize`, 1 MiB), among the responses to
the worker's requests for blocks `0 .. numBlock-1` exactly the one for block
`numBlock-1` is shorter than the block size, its length is `S mod` block size,
and every other block has exactly the block size. -/
theorem eof_block (s : BigFileSender) (fs : FileSystem) (fileID : List Byte) (file : File)
    (header : Packet) (hadv : Advertised s fs fileID file)
    (hid : BigFileHeader.FileID header = fileID)
    (hsize : BigFileHeader.FileSize header = some file.contents.length)
    (hnd : ¬ DefaultBlockSize ∣ file.contents.length) :
    ∃ n, (NewBigFileReceiverWorker header)._numBlock = some n ∧ 1 ≤ n ∧
      ∀ i, i < n →
        ∃ resp, blockResponse s fs (NewBigFileReceiverWorker header) i = some resp ∧
          ((BigFileResponse.FileContent resp).length < DefaultBlockSize ↔ i = n - 1) ∧
          (i = n - 1 → (BigFileResponse.FileContent resp).length
            = file.contents.length % DefaultBlockSize) ∧
          (i ≠ n - 1 → (BigFileResponse.FileContent resp).length = DefaultBlockSize) :=
  last_block_is_short s fs fileID file (NewBigFileReceiverWorker header) hadv hid hsize
    (show 1 ≤ DefaultBlockSize by decide) (le_refl DefaultBlockSize) hnd

/-- The EOF block theorem at the five-byte file: its only block has five
bytes. -/
theorem eof_block_witness :
    Advertised demoSender demoFS demoFileID demoFile ∧
    BigFileHeader.FileID demoHeader = demoFileID ∧
    BigFileHeader.FileSize demoHeader = some demoFile.contents.length ∧
    ¬ DefaultBlockSize ∣ demoFile.contents.length ∧
    ∃ n, (NewBigFileReceiverWorker demoHeader)._numBlock = some n ∧ 1 ≤ n ∧
      ∀ i, i < n →
        ∃ resp, blockResponse demoSender demoFS (NewBigFileReceiverWorker demoHeader) i
            = some resp ∧
          ((BigFileResponse.FileContent resp).length < DefaultBlockSize ↔ i = n - 1) ∧
          (i = n - 1 → (BigFileResponse.FileContent resp).length
            = demoFile.contents.length % DefaultBlockSize) ∧
          (i ≠ n - 1 → (BigFileResponse.FileContent resp).length = DefaultBlockSize) :=
  ⟨demo_advertised, by decide, by decide, by decide,
    eof_block demoSender demoFS demoFileID demoFile demoHeader demo_advertised
      (by decide) (by decide) (by decide)⟩


/-! ## Decoding a byte slice -/

/-- C18 (code evaluated at the failing input): on the twelve bytes
`00 00 FF FF FF F4 00 00 00 00 00 00` the sizes read are `info_size = 2^32 - 12`
and `data_size = 0`, so the slice is shorter than `12 + info_size + data_size`;
yet `PacketFromBytes` returns no error: the `uint32` sum wraps to `0`, the
length check passes, and slicing `b[12 : 0]` panics. -/
theorem PacketFromBytes_wrapped_bound_panics :
    ([0, 0, 255, 255, 255, 244, 0, 0, 0, 0, 0, 0] : List Byte).length = 12 ∧
    (slice [0, 0, 255, 255, 255, 244, 0, 0, 0, 0, 0, 0] 2 6).bind Uint32
      = some (2 ^ 32 - 12) ∧
    (slice [0, 0, 255, 255, 255, 244, 0, 0, 0, 0, 0, 0] 6 10).bind Uint32 = some 0 ∧
    PacketFromBytes [0, 0, 255, 255, 255, 244, 0, 0, 0, 0, 0, 0] = Result.panic := by
  decide

/-! ## The message view -/

/-- C19 (message view): for every info and data the Message view over
`NewPacket(2, info, data)` returns `GetInfo() = info` and `GetContent() = data`,
and its `ToBytes()` is the encoding of the underlying packet; `NewMessage(info,
content)` has type 2 with `GetInfo() = info` and `GetContent() = content`. -/
theorem message_view (info data : List Byte) :
    Message.GetInfo (PacketAsMessage (NewPacket 2 info data)) = info ∧
    Message.GetContent (PacketAsMessage (NewPacket 2 info data)) = data ∧
    Message.ToBytes (PacketAsMessage (NewPacket 2 info data))
      = Packet.ToBytes (NewPacket 2 info data) ∧
    (NewMessage info data).Typ = 2 ∧
    Message.GetInfo (NewMessage info data) = info ∧
    Message.GetContent (NewMessage info data) = data :=
  ⟨rfl, rfl, rfl, rfl, rfl, rfl⟩

/-! ## The distributer -/

theorem lookup_filter_ne {V : Type} (t k : Nat) (l : List (Nat × V)) (h : (t == k) = false) :
    List.lookup k (l.filter fun e => e.1 != t) = List.lookup k l := by
  induction l with
  | nil => rfl
  | cons e l ih =>
    obtain ⟨a, v⟩ := e
    by_cases hat : a = t
    · subst hat
      have hka : (k == a) = false := by
        rw [beq_eq_false_iff_ne] at h ⊢
        exact fun hk => h hk.symm
      simp [List.filter_cons, List.lookup_cons, hka, ih]
    · have hne : (a != t) = true := by simp [hat]
      simp only [List.filter_cons, hne, if_true, List.lookup_cons, ih]

/-- C17 (dispatcher routing): `Distributer.Receive` returns what the handler
registered last for the packet's type returns on that packet, a registration
for another type changes nothing, and with no handler registered for the type
the state is left as it was (no handler ran) and the channel returned already
holds the single value `false`. -/
theorem distributer_routing {σ : Type} (d : Distributer σ) (packet : Packet) (state : σ) :
    (∀ h : PacketReceiver σ,
      (d.Register packet.Typ h).Receive packet state = some (h packet state)) ∧
    (∀ (t : Nat) (h : PacketReceiver σ), t ≠ packet.Typ →
      (d.Register t h).Receive packet state = d.Receive packet state) ∧
    (List.lookup packet.Typ d.packetReceivers = none →
      d.Receive packet state = some ({ cap := 1, buf := [false] }, state)) := by
  refine ⟨?_, ?_, ?_⟩
  · intro h
    simp [Distributer.Receive, Distributer.Register, List.lookup_cons]
  · intro t h hne
    have hb : (t == packet.Typ) = false := by simpa using hne
    have hb' : (packet.Typ == t) = false := by
      simpa using fun hh : packet.Typ = t => hne hh.symm
    simp only [Distributer.Receive, Distributer.Register, List.lookup_cons, hb',
      lookup_filter_ne t packet.Typ d.packetReceivers hb]
  · intro hnone
    simp [Distributer.Receive, hnone, Chan.make, Chan.trySend]

/-- The routing theorem at a distributer with a counting handler for type 2:
a message reaches the handler, a packet of type 9 reaches none. -/
theorem distributer_routing_witness :
    ((Distributer.Register { packetReceivers := [] } 2 countingReceiver).Receive
        (NewMessage [104] [105]) 0 = some ({ cap := 1, buf := [true] }, 1)) ∧
    List.lookup (NewPacket 9 [] []).Typ
        (Distributer.Register { packetReceivers := [] } 2 countingReceiver).packetReceivers
      = none ∧
    (Distributer.Register { packetReceivers := [] } 2 countingReceiver).Receive
        (NewPacket 9 [] []) 0 = some ({ cap := 1, buf := [false] }, 0) :=
  ⟨(distributer_routing { packetReceivers := [] } (NewMessage [104] [105]) 0).1
      countingReceiver,
    rfl,
    (distributer_routing (Distributer.Register { packetReceivers := [] } 2 countingReceiver)
      (NewPacket 9 [] []) 0).2.2 rfl⟩

/-! ## The master of the receiving side -/

/-- C16 (idempotent HEADER): once a worker is registered for a file id, handling
any number of further HEADER frames with that file id leaves the registry, the
wait-group counter and the disk as they were: no worker is created or started,
and the one registered stays the only one. -/
theorem header_idempotent (r : BigFileReceiver) (fileID : List Byte)
    (worker : BigFileReceiverWorker) (headers : List Packet) (disk : Disk)
    (hreg : r.workerMap.Load (FileIDString fileID) = some worker)
    (hsame : ∀ header ∈ headers, BigFileHeader.FileID header = fileID) :
    r.handleHeaders headers disk = Exec.done (r, disk) := by
  induction headers with
  | nil => rfl
  | cons header rest ih =>
    have hid : BigFileHeader.FileID header = fileID := hsame header (List.mem_cons_self _ _)
    have hrest : ∀ h ∈ rest, BigFileHeader.FileID h = fileID :=
      fun h hh => hsame h (List.mem_cons_of_mem _ hh)
    simp only [BigFileReceiver.handleHeaders, BigFileReceiver.handleBigFileHeader, hid, hreg,
      Exec.bind]
    exact ih hrest

/-- The idempotence theorem at the master that runs a worker for the five-byte
file: two further HEADER frames of the file change nothing. -/
theorem header_idempotent_witness :
    demoReceiver.workerMap.Load (FileIDString demoFileID)
      = some (NewBigFileReceiverWorker demoHeader) ∧
    (∀ header ∈ [demoHeader, demoHeader], BigFileHeader.FileID header = demoFileID) ∧
    demoReceiver.handleHeaders [demoHeader, demoHeader] { entries := [] }
      = Exec.done (demoReceiver, { entries := [] }) :=
  ⟨by decide, by decide,
    header_idempotent demoReceiver demoFileID (NewBigFileReceiverWorker demoHeader)
      [demoHeader, demoHeader] { entries := [] } (by decide) (by decide)⟩

/-! ## The scan of the staging directory -/

/-- C12 (code evaluated at the failing input): the five-byte file has one block;
with a staging directory that holds only "foo.block", and likewise with one
that holds only ".block", `init` marks block 0 as saved although no file
"0.block" exists: `Sscanf` fails, its error is dropped and `p` keeps the value
0. -/
theorem checkSaved_marks_block_zero_for_any_block_file :
    (NewBigFileReceiverWorker demoHeader).init (stagingDisk [(fooBlock, [1])])
      = Exec.done
          ({ NewBigFileReceiverWorker demoHeader with
              numBlock := 1, savedBlock := [true],
              saveDir := (NewBigFileReceiverWorker demoHeader)._saveDir },
            stagingDisk [(fooBlock, [1])]) ∧
    (NewBigFileReceiverWorker demoHeader).init (stagingDisk [(blockExt, [1])])
      = Exec.done
          ({ NewBigFileReceiverWorker demoHeader with
              numBlock := 1, savedBlock := [true],
              saveDir := (NewBigFileReceiverWorker demoHeader)._saveDir },
            stagingDisk [(blockExt, [1])]) ∧
    List.lookup (decimal 0 ++ blockExt) [(fooBlock, ([1] : List Byte))] = none ∧
    List.lookup (decimal 0 ++ blockExt) [(blockExt, ([1] : List Byte))] = none := by
  decide

/-! ## Runs of the worker -/

/-- C15 (code evaluated at the failing input): for the HEADER of an empty file
(`file_size = 0`) and an empty working directory, `Run` computes `numBlock = 0`,
requests nothing, and `merge` ends the process with `log.Fatal` because
"0.block" cannot be opened; the working directory then holds the empty staging
directory and no artifact. -/
theorem empty_file_run_is_fatal (md5sum : List Byte → List Byte) (peer : Peer)
    (fuel : Nat) :
    BigFileHeader.FileSize emptyHeader = some 0 ∧
    (NewBigFileReceiverWorker emptyHeader).Run md5sum peer (fuel + 1) World.initial
      = Exec.fatal
          { entries := [((NewBigFileReceiverWorker emptyHeader)._saveDir, Node.dir [])] } ∧
    Disk.stat
        { entries := [((NewBigFileReceiverWorker emptyHeader)._saveDir, Node.dir [])] }
        demoPath = none := by
  refine ⟨by decide, ?_, by decide⟩
  rfl

theorem answer_of_request (s : BigFileSender) (fs : FileSystem) (written rest : List Byte)
    (packet resp : Packet) (hp : PacketFromReader written = (some (packet, none), rest))
    (ht : packet.Typ = PacketTypeBigFileRequest)
    (hr : s.responseReq fs packet = Result.ok resp) :
    s.answer fs written = (resp.ToBytes).getD [] := by
  have h1 : ¬ (PacketTypeBigFileRequest = PacketTypeBigFileHeader) := by decide
  unfold BigFileSender.answer
  rw [hp]
  simp only [ht, h1, if_false, ne_eq, not_true_eq_false, PacketAsBigFileRequest, hr]

theorem demoSender_answer_request : demoSender.answer demoFS demoRequest = demoResponse := by
  have hparse : PacketFromReader demoRequest
      = (some ({ Typ := 5, InfoSize := 16, DataSize := 16, Info := demoFileID,
                 Data := bigEndian 8 0 ++ bigEndian 8 DefaultBlockSize }, none), []) := by
    decide
  have hresp := responseReq_eq demoSender demoFS demoFileID demoFile 0 DefaultBlockSize
    demo_advertised (by decide) (by decide)
    { Typ := 5, InfoSize := 16, DataSize := 16, Info := demoFileID,
      Data := bigEndian 8 0 ++ bigEndian 8 DefaultBlockSize } rfl rfl
  exact (answer_of_request demoSender demoFS demoRequest [] _ _ hparse rfl hresp).trans
    (by decide)

theorem demoSender_answer_eq : demoSender.answer demoFS = demoAnswer := by
  funext written
  unfold demoAnswer
  split
  · next h => rw [h]; exact demoSender_answer_request
  · rfl

/-- C11 (code evaluated at the failing input): for the one-block file with an
empty working directory, against the sender that serves the file, the worker
runs to completion with a correct artifact and has written two REQUESTs for
block 0, not one: the first send to `wait` succeeds at once, the sweep ends
before the RESPONSE is read, and the rescan finds block 0 still missing. -/
theorem one_block_file_requested_twice :
    ((NewBigFileReceiverWorker demoHeader).Run demoSum (demoSender.answer demoFS) 5
        World.initial).bind
      (fun r => Exec.done (r.2.1, requestsOf r.2.2.trace, r.2.2.disk))
      = Exec.done (some true, [0, 0],
          { entries := [(demoPath, Node.file demoFile.contents)] }) := by
  rw [demoSender_answer_eq]
  decide

/-- C20 (code evaluated at the failing input): in the run of the worker for the
one-block file against the sender that serves it, with the window of `Run`
(`wait` has capacity 1), the record of the connection is REQUEST 0, REQUEST 0,
RESPONSE 0: after the second event two REQUESTs have been written and `Receive`
has processed no RESPONSE, so two are outstanding, more than the window. -/
theorem two_requests_outstanding_with_window_one :
    ((NewBigFileReceiverWorker demoHeader).Run demoSum (demoSender.answer demoFS) 5
        World.initial).bind
      (fun r => Exec.done (r.1.wait.map Chan.cap, r.2.2.trace,
        outstanding (r.2.2.trace.take 2)))
      = Exec.done (some 1,
          [Event.request 0, Event.request 0, Event.response 0], 2) := by
  rw [demoSender_answer_eq]
  decide

/-! ## The disk -/

theorem lookup_kvErase_self {V : Type} (k : GoString) (l : List (GoString × V)) :
    List.lookup k (kvErase k l) = none := by
  induction l with
  | nil => rfl
  | cons e l ih =>
    obtain ⟨a, v⟩ := e
    by_cases h : a = k
    · subst h
      simpa [kvErase, List.filter_cons] using ih
    · have hne : (a != k) = true := by simp [h]
      have hka : (k == a) = false := by
        rw [beq_eq_false_iff_ne]
        exact fun hk => h hk.symm
      simpa [kvErase, List.filter_cons, hne, List.lookup_cons, hka] using ih

theorem lookup_kvErase_ne {V : Type} (k k' : GoString) (l : List (GoString × V))
    (h : k ≠ k') : List.lookup k (kvErase k' l) = List.lookup k l := by
  induction l with
  | nil => rfl
  | cons e l ih =>
    obtain ⟨a, v⟩ := e
    by_cases hak : a = k'
    · subst hak
      have hka : (k == a) = false := by
        rw [beq_eq_false_iff_ne]
        exact h
      simpa [kvErase, List.filter_cons, List.lookup_cons, hka] using ih
    · have hne : (a != k') = true := by simp [hak]
      have ih' : List.lookup k (List.filter (fun e => e.1 != k') l) = List.lookup k l := ih
      simp only [kvErase, List.filter_cons, hne, if_true, List.lookup_cons, ih']

theorem lookup_kvSet_self {V : Type} (k : GoString) (v : V) (l : List (GoString × V)) :
    List.lookup k (kvSet k v l) = some v := by
  simp [kvSet, List.lookup_cons]

theorem lookup_kvSet_ne {V : Type} (k k' : GoString) (v : V) (l : List (GoString × V))
    (h : k ≠ k') : List.lookup k (kvSet k' v l) = List.lookup k l := by
  have hk : (k == k') = false := by
    rw [beq_eq_false_iff_ne]
    exact h
  simp only [kvSet, List.lookup_cons, hk]
  exact lookup_kvErase_ne k k' l h

/-! ## Block file names -/

theorem decimalAux_append (fuel n : Nat) (acc : List Byte) :
    decimalAux fuel n acc = decimalAux fuel n [] ++ acc := by
  induction fuel generalizing n acc with
  | zero => rfl
  | succ fuel ih =>
    unfold decimalAux
    by_cases h : n < 10
    · simp [h]
    · simp only [h, if_false]
      rw [ih (n / 10) (toByte (48 + n % 10) :: acc), ih (n / 10) [toByte (48 + n % 10)]]
      simp

theorem digitsValue_append_single (l : List Byte) (d : Byte) :
    digitsValue (l ++ [d]) = digitsValue l * 10 + (d.val - 48) := by
  simp [digitsValue, List.foldl_append]

theorem digitsValue_decimalAux (fuel n : Nat) (h : n < 10 ^ fuel) :
    digitsValue (decimalAux fuel n []) = n := by
  induction fuel generalizing n with
  | zero =>
    have h0 : n = 0 := by simpa using h
    subst h0
    rfl
  | succ fuel ih =>
    unfold decimalAux
    by_cases h10 : n < 10
    · simp only [h10, if_true]
      have hv : (toByte (48 + n)).val = 48 + n := by
        rw [toByte_val]
        omega
      simp [digitsValue, hv]
    · simp only [h10, if_false]
      rw [decimalAux_append, digitsValue_append_single]
      have hdiv : n / 10 < 10 ^ fuel := by
        apply Nat.div_lt_of_lt_mul
        rw [pow_succ] at h
        omega
      rw [ih (n / 10) hdiv]
      have hv : (toByte (48 + n % 10)).val = 48 + n % 10 := by
        rw [toByte_val]
        omega
      rw [hv]
      omega

theorem digitsValue_decimal (n : Nat) : digitsValue (decimal n) = n := by
  unfold decimal
  apply digitsValue_decimalAux
  calc n < 10 ^ n := Nat.lt_pow_self (by decide) n
    _ ≤ 10 ^ (n + 1) := Nat.pow_le_pow_right (by decide) (Nat.le_succ n)

theorem decimal_inj (a b : Nat) (h : decimal a = decimal b) : a = b := by
  rw [← digitsValue_decimal a, ← digitsValue_decimal b, h]

theorem mem_decimalAux (fuel n : Nat) (acc : List Byte) (c : Byte)
    (hc : c ∈ decimalAux fuel n acc) : (48 ≤ c.val ∧ c.val ≤ 57) ∨ c ∈ acc := by
  induction fuel generalizing n acc with
  | zero => exact Or.inr hc
  | succ fuel ih =>
    unfold decimalAux at hc
    by_cases h10 : n < 10
    · simp only [h10, if_true, List.mem_cons] at hc
      rcases hc with hc | hc
      · left
        rw [hc, toByte_val]
        omega
      · exact Or.inr hc
    · simp only [h10, if_false] at hc
      rcases ih (n / 10) _ hc with h | h
      · exact Or.inl h
      · rw [List.mem_cons] at h
        rcases h with h | h
        · left
          rw [h, toByte_val]
          omega
        · exact Or.inr h

theorem blockName_inj (a b : Nat) (h : decimal a ++ blockExt = decimal b ++ blockExt) :
    a = b :=
  decimal_inj a b (List.append_cancel_right h)

/-! ## Paths -/

theorem contains_eq_false {x : Byte} {l : List Byte} :
    l.contains x = false ↔ x ∉ l := by
  rw [Bool.eq_false_iff]
  constructor
  · intro h hm
    apply h
    rw [List.elem_iff]
    exact hm
  · intro h hm
    apply h
    rw [List.elem_iff] at hm
    exact hm

theorem plainName_parts (d : GoString) (hd : plainName d = true) :
    d ≠ [] ∧ (47 : Byte) ∉ d ∧ (0 : Byte) ∉ d ∧ d ≠ [46] ∧ d ≠ [46, 46]
      ∧ d.length ≤ NAME_MAX := by
  unfold plainName at hd
  simp only [Bool.and_eq_true, bne_iff_ne, ne_eq, Bool.not_eq_true', decide_eq_true_eq] at hd
  obtain ⟨⟨⟨⟨⟨h1, h2⟩, h3⟩, h4⟩, h5⟩, h6⟩ := hd
  exact ⟨h1, contains_eq_false.mp h2, contains_eq_false.mp h3, h4, h5, h6⟩

theorem plainName_of_parts (d : GoString) (h1 : d ≠ []) (h2 : (47 : Byte) ∉ d)
    (h3 : (0 : Byte) ∉ d) (h4 : d ≠ [46]) (h5 : d ≠ [46, 46]) (h6 : d.length ≤ NAME_MAX) :
    plainName d = true := by
  unfold plainName
  simp only [Bool.and_eq_true, bne_iff_ne, ne_eq, Bool.not_eq_true', decide_eq_true_eq]
  exact ⟨⟨⟨⟨⟨h1, contains_eq_false.mpr h2⟩, contains_eq_false.mpr h3⟩, h4⟩, h5⟩, h6⟩

theorem splitPath_plain (name : GoString) (h : (47 : Byte) ∉ name) :
    splitPath name = [name] := by
  induction name with
  | nil => rfl
  | cons c cs ih =>
    have hc : c ≠ 47 := fun hh => h (hh ▸ List.mem_cons_self _ _)
    have hcs : (47 : Byte) ∉ cs := fun hh => h (List.mem_cons_of_mem _ hh)
    simp [splitPath, hc, ih hcs]

theorem splitPath_append (d n : GoString) (hd : (47 : Byte) ∉ d) :
    splitPath (d ++ 47 :: n) = d :: splitPath n := by
  induction d with
  | nil => simp [splitPath]
  | cons c cs ih =>
    have hc : c ≠ 47 := fun hh => hd (hh ▸ List.mem_cons_self _ _)
    have hcs : (47 : Byte) ∉ cs := fun hh => hd (List.mem_cons_of_mem _ hh)
    simp [splitPath, hc, ih hcs]

theorem head_plain (d rest : GoString) (hne : d ≠ []) (h47 : (47 : Byte) ∉ d) :
    (d ++ rest).head? ≠ some 47 := by
  cases d with
  | nil => exact absurd rfl hne
  | cons c cs =>
    intro h
    simp only [List.cons_append, List.head?_cons, Option.some.injEq] at h
    exact h47 (h ▸ List.mem_cons_self _ _)

theorem pathJoin_plain (d name : GoString) (hd : plainName d = true)
    (hn : plainName name = true) : pathJoin d name = d ++ 47 :: name := by
  obtain ⟨hne, h47, _, hdot, hdots, _⟩ := plainName_parts d hd
  obtain ⟨hne', h47', _, hdot', hdots', _⟩ := plainName_parts name hn
  have hhead := head_plain d (47 :: name) hne h47
  have hnil : d ++ 47 :: name ≠ [] := by simp
  unfold pathJoin pathClean
  rw [if_neg (fun h => hne h.1), if_neg hne, if_neg hnil, if_neg hhead,
    splitPath_append d name h47, splitPath_plain name h47']
  simp [cleanStack, hne, hdot, hdots, hne', hdot', hdots', joinSlash]

theorem locate_plain (disk : Disk) (name : GoString) (h : plainName name = true) :
    disk.locate name = Sys.ok (Loc.top name) := by
  obtain ⟨hne, h47, h0, hdot, hdots, hlen⟩ := plainName_parts name h
  have hhead : name.head? ≠ some 47 := by
    have := head_plain name [] hne h47
    simpa using this
  have hl : ¬ name.length ≥ PATH_MAX := by
    unfold PATH_MAX
    unfold NAME_MAX at hlen
    omega
  have hl' : ¬ name.length > NAME_MAX := by omega
  unfold Disk.locate
  rw [if_neg hne, contains_eq_false.mpr h0, if_neg (by simp), if_neg hl, if_neg hhead,
    splitPath_plain name h47]
  simp [Disk.walk, hne, hdot, hdots, hl']

theorem locate_join (disk : Disk) (sd nm : GoString) (hd : plainName sd = true)
    (hn : plainName nm = true) :
    disk.locate (sd ++ 47 :: nm)
      = if disk.isDir sd = true then Sys.ok (Loc.inDir sd nm) else Sys.error := by
  obtain ⟨hne, h47, h0, hdot, hdots, hlen⟩ := plainName_parts sd hd
  obtain ⟨hne', h47', h0', hdot', hdots', hlen'⟩ := plainName_parts nm hn
  have hhead := head_plain sd (47 :: nm) hne h47
  have hnil : sd ++ 47 :: nm ≠ [] := by simp
  have hz : (0 : Byte) ∉ sd ++ 47 :: nm := by
    intro h
    rw [List.mem_append, List.mem_cons] at h
    rcases h with h | h | h
    · exact h0 h
    · exact absurd h (by decide)
    · exact h0' h
  have hl : ¬ (sd ++ 47 :: nm).length ≥ PATH_MAX := by
    rw [List.length_append, List.length_cons]
    unfold PATH_MAX
    unfold NAME_MAX at hlen hlen'
    omega
  have hl1 : ¬ sd.length > NAME_MAX := by omega
  have hl2 : ¬ nm.length > NAME_MAX := by omega
  unfold Disk.locate
  rw [if_neg hnil, contains_eq_false.mpr hz, if_neg (by simp), if_neg hl, if_neg hhead,
    splitPath_append sd nm h47, splitPath_plain nm h47']
  by_cases hdir : disk.isDir sd = true
  · simp [Disk.walk, hne, hdot, hdots, hl1, hne', hdot', hdots', hl2, hdir]
  · have hdir' : disk.isDir sd = false := by simpa using hdir
    simp [Disk.walk, hne, hdot, hdots, hl1, hdir']

theorem isDir_of_lookup (disk : Disk) (sd : GoString) (files : Dir)
    (hs : List.lookup sd disk.entries = some (Node.dir files)) : disk.isDir sd = true := by
  unfold Disk.isDir
  rw [hs]

theorem lookup_of_isDir (disk : Disk) (sd : GoString) (h : disk.isDir sd = true) :
    ∃ files, List.lookup sd disk.entries = some (Node.dir files) := by
  unfold Disk.isDir at h
  rcases hl : List.lookup sd disk.entries with _ | node
  · rw [hl] at h; simp at h
  · cases node with
    | file c => rw [hl] at h; simp at h
    | dir files => exact ⟨files, rfl⟩

theorem endsWithDot_plain (sd : GoString) (hd : plainName sd = true) :
    endsWithDot sd = false := by
  obtain ⟨_, h47, _, hdot, _, _⟩ := plainName_parts sd hd
  unfold endsWithDot
  rw [Bool.or_eq_false_iff]
  constructor
  · simpa using hdot
  · rw [Bool.eq_false_iff]
    intro h
    rw [List.isSuffixOf_iff_suffix] at h
    exact h47 (h.subset (List.mem_cons_self _ _))

theorem removeAll_plain (disk : Disk) (sd : GoString) (hd : plainName sd = true) :
    disk.removeAll sd = Disk.mk (kvErase sd disk.entries) := by
  unfold Disk.removeAll
  rw [endsWithDot_plain sd hd, locate_plain disk sd hd]
  simp

theorem stat_top (disk : Disk) (name : GoString) (hn : plainName name = true) :
    disk.stat name = List.lookup name disk.entries := by
  unfold Disk.stat
  rw [locate_plain disk name hn]
  rfl

theorem stat_removeAll_self (disk : Disk) (sd : GoString) (hd : plainName sd = true) :
    (disk.removeAll sd).stat sd = none := by
  rw [removeAll_plain disk sd hd, stat_top _ sd hd]
  exact lookup_kvErase_self sd disk.entries

theorem locate_of_readFile (disk : Disk) (path : GoString) (c : List Byte)
    (h : disk.readFile path = some c) : disk.locate path ≠ Sys.unsupported := by
  intro hu
  unfold Disk.readFile Disk.stat at h
  rw [hu] at h
  simp at h

/-! ## The verdict on the merged file -/

theorem merge_done_removes_saveDir (w : BigFileReceiverWorker) (disk disk' : Disk)
    (hmerge : w.merge disk = Exec.done disk') : disk'.stat w.saveDir = none := by
  unfold BigFileReceiverWorker.merge at hmerge
  by_cases hp : plainName w.saveDir = false
  · rw [if_pos hp] at hmerge
    exact absurd hmerge (by simp)
  rw [if_neg hp] at hmerge
  have hd : plainName w.saveDir = true := by simpa using hp
  simp only [] at hmerge
  rcases h0 : disk.readFile (w.BlockTmpFilePath 0) with _ | c0
  · rw [h0] at hmerge; simp at hmerge
  · rw [h0] at hmerge
    simp only [] at hmerge
    rcases hb : w.mergeBlocks (List.range' 1 (w.numBlock - 1)) disk with d1 | d1 | _ | _ | _ | _
    all_goals rw [hb] at hmerge
    all_goals simp only [Exec.bind] at hmerge
    all_goals try exact absurd hmerge (by simp)
    rcases hn : BigFileHeader.FileName w.header with _ | fileName
    · rw [hn] at hmerge; simp at hmerge
    · rw [hn] at hmerge
      simp only [] at hmerge
      by_cases hu : d1.locate fileName = Sys.unsupported
      · rw [if_pos hu] at hmerge
        exact absurd hmerge (by simp)
      rw [if_neg hu] at hmerge
      rcases hr : d1.rename (w.BlockTmpFilePath 0) fileName with _ | d2
      · rw [hr] at hmerge; simp at hmerge
      · rw [hr] at hmerge
        simp only [Exec.done.injEq] at hmerge
        rw [← hmerge]
        exact stat_removeAll_self d2 w.saveDir hd

/-- C14 (integrity verdict): when `merge` has returned and left the artifact
`file_name` on the disk, `checkFinalSum` returns a verdict, and the verdict is
true exactly when the MD5 digest of the artifact (`md5sum` of its contents)
equals the file id of the header; whatever the verdict, the staging directory
is gone, and the rest of `Run` returns that verdict and leaves the disk as
`merge` left it, so a broken artifact stays where it is. -/
theorem integrity_verdict (w : BigFileReceiverWorker) (md5sum : List Byte → List Byte)
    (disk disk' : Disk) (fileName : GoString) (contents : List Byte)
    (hmerge : w.merge disk = Exec.done disk')
    (hname : BigFileHeader.FileName w.header = some fileName)
    (hart : disk'.readFile fileName = some contents) :
    ∃ correct : Bool,
      w.checkFinalSum md5sum disk' = Exec.done correct ∧
      (correct = true ↔ md5sum contents = BigFileHeader.FileID w.header) ∧
      disk'.stat w.saveDir = none ∧
      ∀ (peer : Peer) (world world' : World) (verdict : Bool), world.disk = disk →
        w.RunFinish md5sum peer world = Exec.done (verdict, world') →
          verdict = correct ∧ world'.disk = disk' ∧
            world'.disk.readFile fileName = some contents := by
  have hsum : w.checkFinalSum md5sum disk'
      = Exec.done (md5sum contents == BigFileHeader.FileHash w.header) := by
    simp only [BigFileReceiverWorker.checkFinalSum, hname, hart,
      if_neg (locate_of_readFile disk' fileName contents hart)]
  refine ⟨md5sum contents == BigFileHeader.FileHash w.header, hsum, ?_,
    merge_done_removes_saveDir w disk disk' hmerge, ?_⟩
  · simp [BigFileHeader.FileHash]
  · intro peer world world' verdict hdisk hrun
    unfold BigFileReceiverWorker.RunFinish at hrun
    rw [hdisk, hmerge] at hrun
    simp only [Exec.bind, hsum] at hrun
    rcases hw : Packet.WriteTo w.header world.conn with _ | ⟨conn, n, e⟩
    · rw [hw] at hrun; simp at hrun
    · rw [hw] at hrun
      simp only [Exec.done.injEq, Prod.mk.injEq] at hrun
      obtain ⟨hv, hworld⟩ := hrun
      subst hworld
      exact ⟨hv.symm, rfl, hart⟩

theorem decimalAux_length (fuel : Nat) :
    ∀ (n k : Nat), n < 10 ^ k → 1 ≤ k → (decimalAux fuel n []).length ≤ k := by
  induction fuel with
  | zero =>
    intro n k _ _
    exact Nat.zero_le k
  | succ fuel ih =>
    intro n k h hk
    unfold decimalAux
    by_cases h10 : n < 10
    · simpa [h10] using hk
    · simp only [h10, if_false]
      rw [decimalAux_append, List.length_append]
      obtain ⟨j, rfl⟩ : ∃ j, k = j + 1 := ⟨k - 1, by omega⟩
      have hj : 1 ≤ j := by
        rcases Nat.eq_zero_or_pos j with h0 | h0
        · subst h0
          simp at h
          omega
        · exact h0
      have hdiv : n / 10 < 10 ^ j := by
        apply Nat.div_lt_of_lt_mul
        rw [pow_succ] at h
        omega
      have := ih (n / 10) j hdiv hj
      simp only [List.length_singleton]
      omega

theorem decimal_length (i : Nat) (hi : i < 2 ^ 64) : (decimal i).length ≤ 20 :=
  decimalAux_length (i + 1) i 20 (lt_of_lt_of_le hi (by norm_num)) (by decide)

theorem plainName_blockName (i : Nat) (hi : i < 2 ^ 64) :
    plainName (decimal i ++ blockExt) = true := by
  have hmem : ∀ c ∈ decimal i ++ blockExt, c ≠ (47 : Byte) ∧ c ≠ (0 : Byte) := by
    intro c hc
    rw [List.mem_append] at hc
    rcases hc with hc | hc
    · rcases mem_decimalAux _ _ _ _ hc with h | h
      · constructor
        · intro h47; rw [h47] at h; revert h; decide
        · intro h0; rw [h0] at h; revert h; decide
      · simp at h
    · have hb : c = 46 ∨ c = 98 ∨ c = 108 ∨ c = 111 ∨ c = 99 ∨ c = 107 := by
        simpa [blockExt] using hc
      rcases hb with h | h | h | h | h | h <;> subst h <;> decide
  have hlen : (decimal i ++ blockExt).length = (decimal i).length + 6 := by
    rw [List.length_append]
    rfl
  have hne : ∀ l : List Byte, l.length < 6 → decimal i ++ blockExt ≠ l := by
    intro l hl h
    rw [h] at hlen
    omega
  refine plainName_of_parts _ (hne [] (by decide)) (fun h => (hmem 47 h).1 rfl)
    (fun h => (hmem 0 h).2 rfl) (hne [46] (by decide)) (hne [46, 46] (by decide)) ?_
  have := decimal_length i hi
  rw [hlen]
  unfold NAME_MAX
  omega

theorem FileIDString_length (l : List Byte) : (FileIDString l).length = 2 * l.length := by
  induction l with
  | nil => rfl
  | cons b bs ih =>
    simp only [FileIDString, List.length_cons, ih]
    omega

theorem hexDigit_plain : ∀ n, n < 16 → hexDigit n ≠ 47 ∧ hexDigit n ≠ 0 := by
  decide

theorem mem_FileIDString (l : List Byte) (c : Byte) (hc : c ∈ FileIDString l) :
    c ≠ 47 ∧ c ≠ 0 := by
  induction l with
  | nil => simp [FileIDString] at hc
  | cons b bs ih =>
    simp only [FileIDString, List.mem_cons] at hc
    rcases hc with hc | hc | hc
    · rw [hc]
      exact hexDigit_plain _ (Nat.div_lt_of_lt_mul (by have := b.isLt; omega))
    · rw [hc]
      exact hexDigit_plain _ (Nat.mod_lt _ (by decide))
    · exact ih hc

theorem plainName_saveDir (w : BigFileReceiverWorker)
    (h1 : 1 ≤ (BigFileHeader.FileID w.header).length)
    (h2 : (BigFileHeader.FileID w.header).length ≤ 127) :
    plainName w._saveDir = true := by
  unfold BigFileReceiverWorker._saveDir
  have hlen := FileIDString_length (BigFileHeader.FileID w.header)
  have hne : ∀ l : List Byte, l.length < 3 →
      46 :: FileIDString (BigFileHeader.FileID w.header) ≠ l := by
    intro l hl h
    have := congrArg List.length h
    rw [List.length_cons, hlen] at this
    omega
  have hmem : ∀ c ∈ 46 :: FileIDString (BigFileHeader.FileID w.header),
      c ≠ (47 : Byte) ∧ c ≠ (0 : Byte) := by
    intro c hc
    rw [List.mem_cons] at hc
    rcases hc with hc | hc
    · subst hc
      decide
    · exact mem_FileIDString _ c hc
  refine plainName_of_parts _ (hne [] (by decide)) (fun h => (hmem 47 h).1 rfl)
    (fun h => (hmem 0 h).2 rfl) (hne [46] (by decide)) (hne [46, 46] (by decide)) ?_
  rw [List.length_cons, hlen]
  unfold NAME_MAX
  omega

/-! ## Files of the staging directory -/

theorem locate_staged (disk : Disk) (sd nm : GoString) (files : Dir)
    (hd : plainName sd = true) (hn : plainName nm = true)
    (hs : List.lookup sd disk.entries = some (Node.dir files)) :
    disk.locate (pathJoin sd nm) = Sys.ok (Loc.inDir sd nm) := by
  rw [pathJoin_plain sd nm hd hn, locate_join disk sd nm hd hn,
    if_pos (isDir_of_lookup disk sd files hs)]

theorem stat_join (disk : Disk) (sd nm : GoString) (files : Dir)
    (hd : plainName sd = true) (hn : plainName nm = true)
    (hs : List.lookup sd disk.entries = some (Node.dir files)) :
    disk.stat (pathJoin sd nm) = (List.lookup nm files).map Node.file := by
  unfold Disk.stat
  rw [locate_staged disk sd nm files hd hn hs]
  simp only [Disk.nodeAt, hs]

theorem stat_join_missing (disk : Disk) (sd nm : GoString)
    (hd : plainName sd = true) (hn : plainName nm = true)
    (hs : List.lookup sd disk.entries = none) :
    disk.stat (pathJoin sd nm) = none := by
  have hdir : ¬ disk.isDir sd = true := by
    unfold Disk.isDir
    rw [hs]
    simp
  unfold Disk.stat
  rw [pathJoin_plain sd nm hd hn, locate_join disk sd nm hd hn, if_neg hdir]

theorem readFile_join (disk : Disk) (sd nm : GoString) (files : Dir)
    (hd : plainName sd = true) (hn : plainName nm = true)
    (hs : List.lookup sd disk.entries = some (Node.dir files)) :
    disk.readFile (pathJoin sd nm) = List.lookup nm files := by
  unfold Disk.readFile
  rw [stat_join disk sd nm files hd hn hs]
  rcases List.lookup nm files with _ | c <;> rfl

theorem putFile_join (disk : Disk) (sd nm : GoString) (files : Dir) (c : List Byte)
    (hd : plainName sd = true) (hn : plainName nm = true)
    (hs : List.lookup sd disk.entries = some (Node.dir files)) :
    disk.putFile (pathJoin sd nm) c
      = some { entries := kvSet sd (Node.dir (kvSet nm c files)) disk.entries } := by
  unfold Disk.putFile
  rw [locate_staged disk sd nm files hd hn hs]
  simp only [Disk.putAt, hs]

theorem removeAt_staged (disk : Disk) (sd nm : GoString) (files : Dir) (c : List Byte)
    (hs : List.lookup sd disk.entries = some (Node.dir files))
    (hf : List.lookup nm files = some c) :
    disk.removeAt (Loc.inDir sd nm)
      = some { entries := kvSet sd (Node.dir (kvErase nm files)) disk.entries } := by
  simp only [Disk.removeAt, hs, hf]

theorem remove_join (disk : Disk) (sd nm : GoString) (files : Dir) (c : List Byte)
    (hd : plainName sd = true) (hn : plainName nm = true)
    (hs : List.lookup sd disk.entries = some (Node.dir files))
    (hf : List.lookup nm files = some c) :
    disk.remove (pathJoin sd nm)
      = some { entries := kvSet sd (Node.dir (kvErase nm files)) disk.entries } := by
  unfold Disk.remove
  rw [locate_staged disk sd nm files hd hn hs]
  exact removeAt_staged disk sd nm files c hs hf

theorem mergeBlocks_done (w : BigFileReceiverWorker) (b : Nat → List Byte)
    (hd : plainName w.saveDir = true) :
    ∀ (is : List Nat) (disk : Disk) (files : Dir) (acc : List Byte),
      is.Nodup → 0 ∉ is → (∀ i ∈ is, i < 2 ^ 64) →
      List.lookup w.saveDir disk.entries = some (Node.dir files) →
      List.lookup (decimal 0 ++ blockExt) files = some acc →
      (∀ i ∈ is, List.lookup (decimal i ++ blockExt) files = some (b i)) →
      ∃ disk' files', w.mergeBlocks is disk = Exec.done disk' ∧
        List.lookup w.saveDir disk'.entries = some (Node.dir files') ∧
        List.lookup (decimal 0 ++ blockExt) files' = some (acc ++ (is.map b).flatten) ∧
        (∀ k, k ≠ w.saveDir → List.lookup k disk'.entries = List.lookup k disk.entries) := by
  intro is
  induction is with
  | nil =>
    intro disk files acc _ _ _ hs h0 _
    exact ⟨disk, files, rfl, hs, by simpa using h0, fun _ _ => rfl⟩
  | cons i rest ih =>
    intro disk files acc hnd hz hlt hs h0 hb
    have hi0 : i ≠ 0 := fun h => hz (h ▸ List.mem_cons_self _ _)
    have hname : decimal i ++ blockExt ≠ decimal 0 ++ blockExt :=
      fun h => hi0 (blockName_inj i 0 h)
    have hpi := plainName_blockName i (hlt i (List.mem_cons_self _ _))
    have hp0 := plainName_blockName 0 (by decide)
    have hread : disk.readFile (w.BlockTmpFilePath i) = some (b i) := by
      unfold BigFileReceiverWorker.BlockTmpFilePath
      rw [readFile_join disk _ _ files hd hpi hs]
      exact hb i (List.mem_cons_self _ _)
    have happ : disk.appendFile (w.BlockTmpFilePath 0) (b i)
        = some (Disk.mk (kvSet w.saveDir
            (Node.dir (kvSet (decimal 0 ++ blockExt) (acc ++ b i) files)) disk.entries)) := by
      unfold Disk.appendFile BigFileReceiverWorker.BlockTmpFilePath
      rw [readFile_join disk _ _ files hd hp0 hs, h0]
      exact putFile_join disk _ _ files _ hd hp0 hs
    have hrem := remove_join
      (Disk.mk (kvSet w.saveDir
          (Node.dir (kvSet (decimal 0 ++ blockExt) (acc ++ b i) files)) disk.entries))
      w.saveDir (decimal i ++ blockExt)
      (kvSet (decimal 0 ++ blockExt) (acc ++ b i) files) (b i) hd hpi
      (lookup_kvSet_self _ _ _)
      (by rw [lookup_kvSet_ne _ _ _ _ hname]; exact hb i (List.mem_cons_self _ _))
    have hnd' : rest.Nodup := (List.nodup_cons.mp hnd).2
    have hni : i ∉ rest := (List.nodup_cons.mp hnd).1
    have hz' : 0 ∉ rest := fun h => hz (List.mem_cons_of_mem _ h)
    obtain ⟨disk', files', hrun, hs', h0', hk'⟩ := ih
      (Disk.mk (kvSet w.saveDir
          (Node.dir (kvErase (decimal i ++ blockExt)
            (kvSet (decimal 0 ++ blockExt) (acc ++ b i) files)))
          (kvSet w.saveDir
            (Node.dir (kvSet (decimal 0 ++ blockExt) (acc ++ b i) files)) disk.entries)))
      (kvErase (decimal i ++ blockExt) (kvSet (decimal 0 ++ blockExt) (acc ++ b i) files))
      (acc ++ b i) hnd' hz' (fun j hj => hlt j (List.mem_cons_of_mem _ hj))
      (lookup_kvSet_self _ _ _)
      (by rw [lookup_kvErase_ne _ _ _ hname.symm, lookup_kvSet_self])
      (by
        intro j hj
        have hji : j ≠ i := fun h => hni (h ▸ hj)
        have hj0 : j ≠ 0 := fun h => hz' (h ▸ hj)
        rw [lookup_kvErase_ne _ _ _ (fun h => hji (blockName_inj j i h)),
          lookup_kvSet_ne _ _ _ _ (fun h => hj0 (blockName_inj j 0 h))]
        exact hb j (List.mem_cons_of_mem _ hj))
    refine ⟨disk', files', ?_, hs', ?_, ?_⟩
    · unfold BigFileReceiverWorker.mergeBlocks
      simp only [hread, happ]
      unfold BigFileReceiverWorker.BlockTmpFilePath
      rw [hrem]
      exact hrun
    · rw [h0']
      simp [List.append_assoc]
    · intro k hk
      rw [hk' k hk]
      simp only []
      rw [lookup_kvSet_ne _ _ _ _ hk, lookup_kvSet_ne _ _ _ _ hk]

theorem range_flatten_split (n : Nat) (b : Nat → List Byte) (hpos : 1 ≤ n) :
    ((List.range n).map b).flatten = b 0 ++ ((List.range' 1 (n - 1)).map b).flatten := by
  obtain ⟨m, rfl⟩ : ∃ m, n = m + 1 := ⟨n - 1, by omega⟩
  rw [List.range_eq_range', List.range'_succ]
  simp

/-! ## Paths on disks with the same directories -/

theorem walk_mono (d1 d2 : Disk) (h : ∀ k, d1.isDir k = true → d2.isDir k = true) :
    ∀ (cs : List GoString) (loc l : Loc),
      d1.walk loc cs = Sys.ok l → d2.walk loc cs = Sys.ok l := by
  intro cs
  induction cs with
  | nil =>
    intro loc l hw
    simpa [Disk.walk] using hw
  | cons c cs ih =>
    intro loc l hw
    cases loc with
    | inDir d n => simp [Disk.walk] at hw
    | cwd =>
      simp only [Disk.walk] at hw ⊢
      split_ifs at hw ⊢ with h1 h2 h3
      · exact ih _ _ hw
      · exact ih _ _ hw
    | top d =>
      simp only [Disk.walk] at hw ⊢
      by_cases hd : d1.isDir d = true
      · have hd2 := h d hd
        rw [hd2]
        rw [hd] at hw
        simp only [Bool.true_eq_false, if_false] at hw ⊢
        split_ifs at hw ⊢ with h1 h2 h3
        · exact ih _ _ hw
        · exact ih _ _ hw
        · exact ih _ _ hw
      · have hd' : d1.isDir d = false := by simpa using hd
        rw [hd'] at hw
        simp at hw

theorem locate_mono (d1 d2 : Disk) (h : ∀ k, d1.isDir k = true → d2.isDir k = true)
    (path : GoString) (l : Loc) (hl : d1.locate path = Sys.ok l) :
    d2.locate path = Sys.ok l := by
  unfold Disk.locate at hl ⊢
  split_ifs at hl ⊢ with h1 h2 h3 h4
  exact walk_mono d1 d2 h _ _ _ hl

theorem walk_inDir (disk : Disk) :
    ∀ (cs : List GoString) (loc : Loc) (d n : GoString),
      disk.walk loc cs = Sys.ok (Loc.inDir d n) →
        loc = Loc.inDir d n ∨ disk.isDir d = true := by
  intro cs
  induction cs with
  | nil =>
    intro loc d n hw
    left
    simpa [Disk.walk] using hw
  | cons c cs ih =>
    intro loc d n hw
    cases loc with
    | inDir d0 n0 => simp [Disk.walk] at hw
    | cwd =>
      simp only [Disk.walk] at hw
      split_ifs at hw with h1 h2 h3
      · rcases ih _ _ _ hw with h | h
        · cases h
        · exact Or.inr h
      · rcases ih _ _ _ hw with h | h
        · cases h
        · exact Or.inr h
    | top d0 =>
      simp only [Disk.walk] at hw
      by_cases hd : disk.isDir d0 = true
      · rw [hd] at hw
        simp only [Bool.true_eq_false, if_false] at hw
        split_ifs at hw with h1 h2 h3
        · rcases ih _ _ _ hw with h | h
          · cases h
          · exact Or.inr h
        · rcases ih _ _ _ hw with h | h
          · cases h
          · exact Or.inr h
        · rcases ih _ _ _ hw with h | h
          · cases h
            exact Or.inr hd
          · exact Or.inr h
      · have hd' : disk.isDir d0 = false := by simpa using hd
        rw [hd'] at hw
        simp at hw

theorem locate_inDir (disk : Disk) (path d n : GoString)
    (hl : disk.locate path = Sys.ok (Loc.inDir d n)) : disk.isDir d = true := by
  unfold Disk.locate at hl
  split_ifs at hl with h1 h2 h3 h4
  rcases walk_inDir disk _ _ _ _ hl with h | h
  · cases h
  · exact h

theorem rename_from_stage (disk : Disk) (sd nm fileName : GoString) (files : Dir)
    (c : List Byte) (dst : Loc) (hd : plainName sd = true) (hn : plainName nm = true)
    (hs : List.lookup sd disk.entries = some (Node.dir files))
    (hf : List.lookup nm files = some c)
    (hloc : disk.locate fileName = Sys.ok dst)
    (hne : dst ≠ Loc.inDir sd nm)
    (hnodir : ∀ d, disk.nodeAt dst ≠ some (Node.dir d)) :
    disk.rename (pathJoin sd nm) fileName
      = (Disk.mk (kvSet sd (Node.dir (kvErase nm files)) disk.entries)).putAt dst c := by
  unfold Disk.rename
  rw [locate_staged disk sd nm files hd hn hs, readFile_join disk sd nm files hd hn hs, hf,
    hloc]
  simp only []
  rw [if_neg (fun h => hne h.symm), removeAt_staged disk sd nm files c hs hf]
  rcases hnode : disk.nodeAt dst with _ | node
  · rfl
  · cases node with
    | file c' => rfl
    | dir d => exact absurd hnode (hnodir d)

theorem isDir_congr (d1 d2 : Disk) (k : GoString)
    (h : List.lookup k d2.entries = List.lookup k d1.entries) (hk : d1.isDir k = true) :
    d2.isDir k = true := by
  unfold Disk.isDir at hk ⊢
  rw [h]
  exact hk

theorem isDir_erased (disk : Disk) (sd k : GoString)
    (hk : (Disk.mk (kvErase sd disk.entries)).isDir k = true) :
    k ≠ sd ∧ disk.isDir k = true := by
  have hne : k ≠ sd := by
    intro h
    rw [h] at hk
    unfold Disk.isDir at hk
    simp [lookup_kvErase_self] at hk
  refine ⟨hne, ?_⟩
  unfold Disk.isDir at hk ⊢
  simp only [] at hk
  rw [lookup_kvErase_ne _ _ _ hne] at hk
  exact hk

/-! ## Merge -/

/-- C13 (merge, amended): take a worker with `1 ≤ numBlock ≤ 2^64` whose
staging directory is the one `init` sets, `.` followed by the hexadecimal digits
of a file id of 1 to 127 bytes, and holds the blocks `0 .. numBlock-1` with
contents `b 0 .. b (numBlock-1)`.  When the file name of the header leads,
without passing through the staging directory, to a place `dst` inside the
working directory (an entry of the working directory or of one of its
directories) where no directory is, `merge` returns and leaves at that path a
regular file whose contents are `b 0 ++ b 1 ++ ...` in ascending order of the
index, and neither the staging directory nor any block file is left. -/
theorem merge_concatenates (w : BigFileReceiverWorker) (disk : Disk) (files : Dir)
    (fileName : GoString) (b : Nat → List Byte) (dst : Loc)
    (hpos : 1 ≤ w.numBlock) (hn64 : w.numBlock ≤ 2 ^ 64)
    (hsd : w.saveDir = w._saveDir)
    (hid1 : 1 ≤ (BigFileHeader.FileID w.header).length)
    (hid2 : (BigFileHeader.FileID w.header).length ≤ 127)
    (hs : List.lookup w.saveDir disk.entries = some (Node.dir files))
    (hb : ∀ i, i < w.numBlock → List.lookup (decimal i ++ blockExt) files = some (b i))
    (hname : BigFileHeader.FileName w.header = some fileName)
    (hloc : (Disk.mk (kvErase w.saveDir disk.entries)).locate fileName = Sys.ok dst)
    (hnodir : ∀ d, disk.nodeAt dst ≠ some (Node.dir d)) :
    ∃ disk', w.merge disk = Exec.done disk' ∧
      disk'.stat fileName = some (Node.file ((List.range w.numBlock).map b).flatten) ∧
      disk'.stat w.saveDir = none ∧
      ∀ i, i < w.numBlock → disk'.stat (w.BlockTmpFilePath i) = none := by
  have hd : plainName w.saveDir = true := by
    rw [hsd]
    exact plainName_saveDir w hid1 hid2
  have hd' : ¬ plainName w.saveDir = false := by simp [hd]
  have hp0 := plainName_blockName 0 (by decide)
  have h0 : disk.readFile (w.BlockTmpFilePath 0) = some (b 0) := by
    unfold BigFileReceiverWorker.BlockTmpFilePath
    rw [readFile_join disk _ _ files hd hp0 hs]
    exact hb 0 hpos
  obtain ⟨disk1, files1, hrun, hs1, hall, hk1⟩ :=
    mergeBlocks_done w b hd (List.range' 1 (w.numBlock - 1)) disk files (b 0)
      (List.nodup_range' 1 (w.numBlock - 1))
      (by
        intro h
        rw [List.mem_range'_1] at h
        omega)
      (by
        intro i hi
        rw [List.mem_range'_1] at hi
        omega)
      hs (hb 0 hpos)
      (by
        intro i hi
        rw [List.mem_range'_1] at hi
        exact hb i (by omega))
  rw [← range_flatten_split w.numBlock b hpos] at hall
  have hdir1 : ∀ k, (Disk.mk (kvErase w.saveDir disk.entries)).isDir k = true →
      disk1.isDir k = true := by
    intro k hk
    obtain ⟨hne, hk'⟩ := isDir_erased disk w.saveDir k hk
    exact isDir_congr disk disk1 k (hk1 k hne) hk'
  have hloc1 := locate_mono _ disk1 hdir1 fileName dst hloc
  have hne_dst : dst ≠ Loc.inDir w.saveDir (decimal 0 ++ blockExt) := by
    intro h
    rw [h] at hloc
    exact (isDir_erased disk w.saveDir _ (locate_inDir _ _ _ _ hloc)).1 rfl
  have hgone : ∀ (disk' : Disk), List.lookup w.saveDir disk'.entries = none →
      ∀ i, i < w.numBlock → disk'.stat (w.BlockTmpFilePath i) = none := by
    intro disk' hl i hi
    unfold BigFileReceiverWorker.BlockTmpFilePath
    exact stat_join_missing disk' w.saveDir _ hd (plainName_blockName i (by omega)) hl
  cases dst with
  | cwd => exact absurd rfl (hnodir disk.files)
  | top name =>
    have hname_ne : name ≠ w.saveDir := by
      intro h
      apply hnodir files
      rw [h]
      exact hs
    have hnodir1 : ∀ d, disk1.nodeAt (Loc.top name) ≠ some (Node.dir d) := by
      intro d
      show List.lookup name disk1.entries ≠ _
      rw [hk1 name hname_ne]
      exact hnodir d
    have hren := rename_from_stage disk1 w.saveDir (decimal 0 ++ blockExt) fileName files1 _
      (Loc.top name) hd hp0 hs1 hall hloc1 hne_dst hnodir1
    have hput : (Disk.mk (kvSet w.saveDir (Node.dir (kvErase (decimal 0 ++ blockExt) files1))
          disk1.entries)).putAt (Loc.top name) ((List.range w.numBlock).map b).flatten
        = some (Disk.mk (kvSet name (Node.file ((List.range w.numBlock).map b).flatten)
            (kvSet w.saveDir (Node.dir (kvErase (decimal 0 ++ blockExt) files1))
              disk1.entries))) := by
      unfold Disk.putAt
      simp only []
      rw [lookup_kvSet_ne _ _ _ _ hname_ne]
      rcases hl : List.lookup name disk1.entries with _ | node
      · rfl
      · cases node with
        | file c' => rfl
        | dir d => exact absurd hl (hnodir1 d)
    have hmerge : w.merge disk
        = Exec.done (Disk.mk (kvErase w.saveDir
            (kvSet name (Node.file ((List.range w.numBlock).map b).flatten)
              (kvSet w.saveDir (Node.dir (kvErase (decimal 0 ++ blockExt) files1))
                disk1.entries)))) := by
      unfold BigFileReceiverWorker.merge
      rw [if_neg hd']
      simp only [h0, hrun, Exec.bind, hname]
      rw [if_neg (by rw [hloc1]; simp)]
      unfold BigFileReceiverWorker.BlockTmpFilePath
      rw [hren, hput]
      simp only []
      rw [removeAll_plain _ w.saveDir hd]
    refine ⟨_, hmerge, ?_, merge_done_removes_saveDir w disk _ hmerge,
      hgone _ (lookup_kvErase_self _ _)⟩
    have hdir' : ∀ k, (Disk.mk (kvErase w.saveDir disk.entries)).isDir k = true →
        (Disk.mk (kvErase w.saveDir
            (kvSet name (Node.file ((List.range w.numBlock).map b).flatten)
              (kvSet w.saveDir (Node.dir (kvErase (decimal 0 ++ blockExt) files1))
                disk1.entries)))).isDir k = true := by
      intro k hk
      obtain ⟨hne, hk'⟩ := isDir_erased disk w.saveDir k hk
      have hkn : k ≠ name := by
        intro h
        obtain ⟨fd, hfd⟩ := lookup_of_isDir disk k hk'
        apply hnodir fd
        rw [← h]
        exact hfd
      refine isDir_congr disk _ k ?_ hk'
      show List.lookup k (kvErase w.saveDir _) = _
      rw [lookup_kvErase_ne _ _ _ hne, lookup_kvSet_ne _ _ _ _ hkn,
        lookup_kvSet_ne _ _ _ _ hne, hk1 k hne]
    unfold Disk.stat
    rw [locate_mono _ _ hdir' fileName _ hloc]
    show List.lookup name (kvErase w.saveDir _) = _
    rw [lookup_kvErase_ne _ _ _ hname_ne, lookup_kvSet_self]
  | inDir d n =>
    obtain ⟨hd_ne, hd_dir⟩ := isDir_erased disk w.saveDir d (locate_inDir _ _ _ _ hloc)
    obtain ⟨fd, hfd⟩ := lookup_of_isDir disk d hd_dir
    have hnodir1 : ∀ x, disk1.nodeAt (Loc.inDir d n) ≠ some (Node.dir x) := by
      intro x
      simp only [Disk.nodeAt, hk1 d hd_ne, hfd]
      rcases List.lookup n fd with _ | c' <;> simp
    have hren := rename_from_stage disk1 w.saveDir (decimal 0 ++ blockExt) fileName files1 _
      (Loc.inDir d n) hd hp0 hs1 hall hloc1 hne_dst hnodir1
    have hput : (Disk.mk (kvSet w.saveDir (Node.dir (kvErase (decimal 0 ++ blockExt) files1))
          disk1.entries)).putAt (Loc.inDir d n) ((List.range w.numBlock).map b).flatten
        = some (Disk.mk (kvSet d
            (Node.dir (kvSet n ((List.range w.numBlock).map b).flatten fd))
            (kvSet w.saveDir (Node.dir (kvErase (decimal 0 ++ blockExt) files1))
              disk1.entries))) := by
      simp only [Disk.putAt, lookup_kvSet_ne _ _ _ _ hd_ne, hk1 d hd_ne, hfd]
    have hmerge : w.merge disk
        = Exec.done (Disk.mk (kvErase w.saveDir
            (kvSet d (Node.dir (kvSet n ((List.range w.numBlock).map b).flatten fd))
              (kvSet w.saveDir (Node.dir (kvErase (decimal 0 ++ blockExt) files1))
                disk1.entries)))) := by
      unfold BigFileReceiverWorker.merge
      rw [if_neg hd']
      simp only [h0, hrun, Exec.bind, hname]
      rw [if_neg (by rw [hloc1]; simp)]
      unfold BigFileReceiverWorker.BlockTmpFilePath
      rw [hren, hput]
      simp only []
      rw [removeAll_plain _ w.saveDir hd]
    refine ⟨_, hmerge, ?_, merge_done_removes_saveDir w disk _ hmerge,
      hgone _ (lookup_kvErase_self _ _)⟩
    have hdir' : ∀ k, (Disk.mk (kvErase w.saveDir disk.entries)).isDir k = true →
        (Disk.mk (kvErase w.saveDir
            (kvSet d (Node.dir (kvSet n ((List.range w.numBlock).map b).flatten fd))
              (kvSet w.saveDir (Node.dir (kvErase (decimal 0 ++ blockExt) files1))
                disk1.entries)))).isDir k = true := by
      intro k hk
      obtain ⟨hne, hk'⟩ := isDir_erased disk w.saveDir k hk
      by_cases hkd : k = d
      · rw [hkd]
        unfold Disk.isDir
        simp only []
        rw [lookup_kvErase_ne _ _ _ hd_ne, lookup_kvSet_self]
      · refine isDir_congr disk _ k ?_ hk'
        show List.lookup k (kvErase w.saveDir _) = _
        rw [lookup_kvErase_ne _ _ _ hne, lookup_kvSet_ne _ _ _ _ hkd,
          lookup_kvSet_ne _ _ _ _ hne, hk1 k hne]
    unfold Disk.stat
    rw [locate_mono _ _ hdir' fileName _ hloc]
    simp only [Disk.nodeAt, lookup_kvErase_ne _ _ _ hd_ne, lookup_kvSet_self, Option.map_some']

theorem stagingDisk_has_no_artifact (files : Dir) (d : Dir) :
    (stagingDisk files).nodeAt (Loc.top demoPath) ≠ some (Node.dir d) := by
  intro h
  have hl : (stagingDisk files).nodeAt (Loc.top demoPath) = none := rfl
  rw [hl] at h
  cases h

/-- The merge theorem at the five-byte file in three blocks of two bytes: the
artifact "a" holds the five bytes in order and the staging directory is gone. -/
theorem merge_concatenates_witness :
    1 ≤ (stagedWorker demoHeader 2 3).numBlock ∧
    (stagedWorker demoHeader 2 3).numBlock ≤ 2 ^ 64 ∧
    (stagedWorker demoHeader 2 3).saveDir = (stagedWorker demoHeader 2 3)._saveDir ∧
    1 ≤ (BigFileHeader.FileID (stagedWorker demoHeader 2 3).header).length ∧
    (BigFileHeader.FileID (stagedWorker demoHeader 2 3).header).length ≤ 127 ∧
    List.lookup (stagedWorker demoHeader 2 3).saveDir (stagingDisk threeBlocks).entries
      = some (Node.dir threeBlocks) ∧
    (∀ i, i < (stagedWorker demoHeader 2 3).numBlock →
      List.lookup (decimal i ++ blockExt) threeBlocks = some (demoBlock i)) ∧
    BigFileHeader.FileName (stagedWorker demoHeader 2 3).header = some demoPath ∧
    (Disk.mk (kvErase (stagedWorker demoHeader 2 3).saveDir
        (stagingDisk threeBlocks).entries)).locate demoPath = Sys.ok (Loc.top demoPath) ∧
    (∀ d, (stagingDisk threeBlocks).nodeAt (Loc.top demoPath) ≠ some (Node.dir d)) ∧
    ∃ disk', (stagedWorker demoHeader 2 3).merge (stagingDisk threeBlocks) = Exec.done disk' ∧
      disk'.stat demoPath
        = some (Node.file
            ((List.range (stagedWorker demoHeader 2 3).numBlock).map demoBlock).flatten) ∧
      disk'.stat (stagedWorker demoHeader 2 3).saveDir = none ∧
      ∀ i, i < (stagedWorker demoHeader 2 3).numBlock →
        disk'.stat ((stagedWorker demoHeader 2 3).BlockTmpFilePath i) = none :=
  ⟨by decide, by decide, by decide, by decide, by decide, by decide, by decide, by decide,
    by decide, stagingDisk_has_no_artifact threeBlocks,
    merge_concatenates (stagedWorker demoHeader 2 3) (stagingDisk threeBlocks) threeBlocks
      demoPath demoBlock (Loc.top demoPath) (by decide) (by decide) (by decide) (by decide)
      (by decide) (by decide) (by decide) (by decide) (by decide)
      (stagingDisk_has_no_artifact threeBlocks)⟩

set_option maxRecDepth 100000 in
/-- C13 (counterexample): a worker with one block whose staging directory holds
block 0.  With an empty file name in the header `os.Rename` fails and `merge`
ends the process with `log.Fatal`, leaving the staging directory with "0.block"
and no artifact; the same happens when the file name is the name of a directory
of the working directory, and when it is a name of 256 bytes, one more than a
file name may have.  With a file name that lies in the staging directory
`merge` returns, and `os.RemoveAll` has removed the artifact with the staging
directory. -/
theorem merge_fatal_on_unusable_file_name :
    1 ≤ (stagedWorker namelessHeader 5 1).numBlock ∧
    BigFileHeader.FileName namelessHeader = some [] ∧
    (stagingDisk [(decimal 0 ++ blockExt, demoFile.contents)]).readFile
        ((stagedWorker namelessHeader 5 1).BlockTmpFilePath 0) = some demoFile.contents ∧
    (stagedWorker namelessHeader 5 1).merge
        (stagingDisk [(decimal 0 ++ blockExt, demoFile.contents)])
      = Exec.fatal (stagingDisk [(decimal 0 ++ blockExt, demoFile.contents)]) ∧
    (stagedWorker demoHeader 5 1).merge
        { entries := [(demoPath, Node.dir []),
            ((stagedWorker demoHeader 5 1).saveDir,
              Node.dir [(decimal 0 ++ blockExt, demoFile.contents)])] }
      = Exec.fatal
        { entries := [(demoPath, Node.dir []),
            ((stagedWorker demoHeader 5 1).saveDir,
              Node.dir [(decimal 0 ++ blockExt, demoFile.contents)])] } ∧
    BigFileHeader.FileName longNameHeader = some (List.replicate 256 97) ∧
    (stagedWorker longNameHeader 5 1).merge
        (stagingDisk [(decimal 0 ++ blockExt, demoFile.contents)])
      = Exec.fatal (stagingDisk [(decimal 0 ++ blockExt, demoFile.contents)]) ∧
    BigFileHeader.FileName stagedNameHeader = some stagedPath ∧
    (stagedWorker stagedNameHeader 5 1).merge
        (stagingDisk [(decimal 0 ++ blockExt, demoFile.contents)])
      = Exec.done { entries := [] } ∧
    Disk.stat { entries := [] } stagedPath = none := by
  decide

/-- The verdict theorem at a tampered block: the one-block file was staged with
the bytes 1, 2, 3; `merge` leaves them as the artifact "a", the verdict is
false, the artifact stays and the staging directory is gone. -/
theorem integrity_verdict_witness :
    (stagedWorker demoHeader 5 1).merge (stagingDisk [(decimal 0 ++ blockExt, [1, 2, 3])])
      = Exec.done { entries := [(demoPath, Node.file [1, 2, 3])] } ∧
    BigFileHeader.FileName (stagedWorker demoHeader 5 1).header = some demoPath ∧
    Disk.readFile { entries := [(demoPath, Node.file [1, 2, 3])] } demoPath
      = some [1, 2, 3] ∧
    ∃ correct : Bool,
      (stagedWorker demoHeader 5 1).checkFinalSum demoSum
          { entries := [(demoPath, Node.file [1, 2, 3])] } = Exec.done correct ∧
      (correct = true ↔
        demoSum [1, 2, 3] = BigFileHeader.FileID (stagedWorker demoHeader 5 1).header) ∧
      Disk.stat { entries := [(demoPath, Node.file [1, 2, 3])] }
          (stagedWorker demoHeader 5 1).saveDir = none ∧
      ∀ (peer : Peer) (world world' : World) (verdict : Bool),
        world.disk = stagingDisk [(decimal 0 ++ blockExt, [1, 2, 3])] →
        (stagedWorker demoHeader 5 1).RunFinish demoSum peer world
            = Exec.done (verdict, world') →
          verdict = correct ∧
            world'.disk = { entries := [(demoPath, Node.file [1, 2, 3])] } ∧
            world'.disk.readFile demoPath = some [1, 2, 3] :=
  ⟨by decide, by decide, by decide,
    integrity_verdict (stagedWorker demoHeader 5 1) demoSum
      (stagingDisk [(decimal 0 ++ blockExt, [1, 2, 3])])
      { entries := [(demoPath, Node.file [1, 2, 3])] } demoPath [1, 2, 3]
      (by decide) (by decide) (by decide)⟩

/-! ## Block files out of range -/

/-- C21 (code evaluated at the failing input): the five-byte file has one block.
A staging directory that holds only "7.block" leaves `saved` as it was, but one
that holds only "-1.block" makes `init` panic: `Sscanf` reads `p = -1`, the test
`p < len(savedBlock)` passes and `savedBlock[-1]` is out of range. -/
theorem negative_block_name_indexes_out_of_range :
    Sscanf_d minusOneBlock 0 = -1 ∧
    (NewBigFileReceiverWorker demoHeader).init (stagingDisk [(minusOneBlock, [1])])
      = Exec.panic ∧
    (NewBigFileReceiverWorker demoHeader).init (stagingDisk [(decimal 7 ++ blockExt, [1])])
      = Exec.done
          ({ NewBigFileReceiverWorker demoHeader with
              numBlock := 1, savedBlock := [false],
              saveDir := (NewBigFileReceiverWorker demoHeader)._saveDir },
            stagingDisk [(decimal 7 ++ blockExt, [1])]) := by
  decide

/-! ## A block that cannot be saved -/

/-- C22 (code evaluated at the failing input): the worker for the one-block file
receives the RESPONSE for block 0 while `file.Write` fails after two bytes.
`Receive` leaves `saved[0]` false and "0.block" holds the two bytes; the next
`checkSaved` finds that file and sets `saved[0]`, so no block is missing and
block 0 is not requested again.  (When `os.OpenFile` fails instead, no file is
left and block 0 stays missing.) -/
theorem partly_written_block_counts_as_saved :
    (((NewBigFileReceiverWorker demoHeader).init { entries := [] }).bind fun r =>
      (r.1.Receive demoResponsePacket (faultyWorld r.2 (SaveFault.writeFails 2))).bind
        fun r => Exec.done (r.1.savedBlock, r.2.disk.readFile (r.1.BlockTmpFilePath 0)))
      = Exec.done ([false], some ([10, 11] : List Byte)) ∧
    (((NewBigFileReceiverWorker demoHeader).init { entries := [] }).bind fun r =>
      (r.1.Receive demoResponsePacket (faultyWorld r.2 (SaveFault.writeFails 2))).bind
        fun r => Exec.done
          ((r.1.checkSaved r.2.disk).map fun w => (w.savedBlock, w.missingBlockIndices)))
      = Exec.done (some ([true], ([] : List Nat))) ∧
    (((NewBigFileReceiverWorker demoHeader).init { entries := [] }).bind fun r =>
      (r.1.Receive demoResponsePacket (faultyWorld r.2 SaveFault.openFails)).bind
        fun r => Exec.done (r.1.savedBlock, r.2.disk.readFile (r.1.BlockTmpFilePath 0)))
      = Exec.done ([false], (none : Option (List Byte))) ∧
    (((NewBigFileReceiverWorker demoHeader).init { entries := [] }).bind fun r =>
      (r.1.Receive demoResponsePacket (faultyWorld r.2 SaveFault.openFails)).bind
        fun r => Exec.done
          ((r.1.checkSaved r.2.disk).map fun w => (w.savedBlock, w.missingBlockIndices)))
      = Exec.done (some ([false], ([0] : List Nat))) := by
  decide

/-! ## A response past the last block -/

/-- C26 (code evaluated at the failing input): the worker for the one-block file
receives a RESPONSE that bears its file id and the start `DefaultBlockSize`: the
block index is 1, `saveBlock` succeeds, and `savedBlock[1]` is out of range of
the one-element `savedBlock`, a panic.  (`checkSaved` tests its index against
`len(savedBlock)`; `Receive` does not.) -/
theorem response_past_last_block_panics :
    BigFileResponse.FileID farResponse = some (BigFileHeader.FileID demoHeader) ∧
    BigFileResponse.Start farResponse = some DefaultBlockSize ∧
    (((NewBigFileReceiverWorker demoHeader).init { entries := [] }).bind fun r =>
      Exec.done (r.1.numBlock, r.1.savedBlock)) = Exec.done (1, [false]) ∧
    (((NewBigFileReceiverWorker demoHeader).init { entries := [] }).bind fun r =>
      r.1.Receive farResponse { World.initial with disk := r.2 }) = Exec.panic := by
  decide

/-! ## The sender's loop -/

theorem writeHeaders_incoming (headers : List (GoString × Packet)) (conn conn' : Conn)
    (h : writeHeaders headers conn = some conn') : conn'.incoming = conn.incoming := by
  induction headers generalizing conn with
  | nil =>
    simp only [writeHeaders, Option.some.injEq] at h
    rw [← h]
  | cons e rest ih =>
    obtain ⟨key, header⟩ := e
    unfold writeHeaders at h
    rcases hb : header.ToBytes with _ | bs
    · simp [Packet.WriteTo, hb] at h
    · simp only [Packet.WriteTo, hb, Option.map_some', Conn.Write] at h
      exact ih ⟨conn.incoming, conn.outgoing ++ bs⟩ h

/-- Once the goroutine of `sendResponse` has left its loop, no sequence of
events makes the sender read the connection, serve again or return. -/
theorem SendLoop_stays_left (s : BigFileSender) (fs : FileSystem) (events : List SendEvent)
    (st st' : SendState) (hleft : st.serving = false)
    (hrun : s.SendLoop fs events st = Served.next st') :
    st'.serving = false ∧ st'.conn.incoming = st.conn.incoming ∧
      st'.returned = st.returned := by
  induction events generalizing st with
  | nil =>
    simp only [BigFileSender.SendLoop, Served.next.injEq] at hrun
    rw [← hrun]
    exact ⟨hleft, rfl, rfl⟩
  | cons e rest ih =>
    cases e with
    | round =>
      have hround : s.round fs st = Served.next st := by
        simp [BigFileSender.round, hleft]
      simp only [BigFileSender.SendLoop, hround, Served.bind] at hrun
      exact ih st hleft hrun
    | tick =>
      unfold BigFileSender.SendLoop BigFileSender.tick at hrun
      by_cases hret : st.returned = true
      · rw [if_pos hret] at hrun
        exact ih st hleft hrun
      · rw [if_neg hret] at hrun
        rcases hh : s.sendHeader st.conn with _ | conn
        · rw [hh] at hrun
          simp [Served.bind] at hrun
        · rw [hh] at hrun
          obtain ⟨h1, h2, h3⟩ := ih { st with conn := conn } hleft hrun
          exact ⟨h1, h2.trans (writeHeaders_incoming _ _ _ hh), h3⟩

/-- C23 (code evaluated at the failing input): the sender of the five-byte file
answers a REQUEST for it when that is the first frame.  When a REQUEST for an
unknown file id comes first, `responseReq` fails, no RESPONSE is written and the
goroutine of `sendResponse` leaves its loop: the REQUEST that follows is never
read, later rounds change nothing, and the only bytes written are the HEADER
and its repetition by the timer of `Send`. -/
theorem failed_request_ends_the_serving :
    servingSender.Send demoFS [SendEvent.round] { incoming := goodRequest, outgoing := [] }
      = Served.next
          { conn := { incoming := [], outgoing := demoHeaderFrame ++ demoResponse },
            serving := true, returned := false } ∧
    (PacketFromReader unknownRequest).1.map
        (fun r => servingSender.responseReq demoFS (PacketAsBigFileRequest r.1))
      = some (Result.err GoError.resourceNotFound) ∧
    servingSender.Send demoFS [SendEvent.round, SendEvent.round, SendEvent.tick, SendEvent.round]
        { incoming := unknownRequest ++ goodRequest, outgoing := [] }
      = Served.next
          { conn := { incoming := goodRequest, outgoing := demoHeaderFrame ++ demoHeaderFrame },
            serving := false, returned := false } := by
  decide

/-- C24 (code evaluated at the failing input): the first frame the sender reads
is a message (type 2).  The goroutine of `sendResponse` sends `false` on its
channel and leaves its loop; `Send` returns only on `true`, so it has not
returned, and at each firing of its three-second timer it writes the HEADER
again: after two firings the connection carries three HEADER frames. -/
theorem unexpected_frame_leaves_Send_repeating_headers :
    (PacketFromReader messageFrame).1.map (fun r => r.1.Typ) = some 2 ∧
    servingSender.Send demoFS [SendEvent.round, SendEvent.tick, SendEvent.tick]
        { incoming := messageFrame, outgoing := [] }
      = Served.next
          { conn := { incoming := [],
                      outgoing := demoHeaderFrame ++ demoHeaderFrame ++ demoHeaderFrame },
            serving := false, returned := false } := by
  decide

/-! ## The receiver's entry -/

/-- C25 (code evaluated at the failing input): a message frame whose header
announces four bytes of info arrives with two.  `PacketFromReader` returns the
error `io.ErrUnexpectedEOF` together with the packet read so far, and
`ReceiveAndHandle`, after printing the failure, hands that packet to the
distributer: the handler registered for type 2 runs (its call counter goes from
0 to 1). -/
theorem decode_error_still_dispatched :
    (PacketFromReader shortMessageFrame).1.map (fun r => (r.1.Typ, r.2))
      = some (2, some GoError.ErrUnexpectedEOF) ∧
    Receiver.ReceiveAndHandle
        (Distributer.Register { packetReceivers := [] } PacketTypeMessage countingReceiver)
        { incoming := shortMessageFrame, outgoing := [] } 0
      = (some ({ cap := 1, buf := [true] }, 1), { incoming := [], outgoing := [] }) := by
  decide

/-! ## Typed views over decoded frames -/

theorem ReadFull_length (reader rest bs : List Byte) (n : Nat)
    (h : ReadFull reader n = (bs, none, rest)) : bs.length = n := by
  unfold ReadFull at h
  split at h
  · next hn =>
    simp only [Prod.mk.injEq] at h
    rw [← h.1, List.length_take]
    omega
  · split at h <;> simp at h

theorem PacketFromReader_lengths (reader rest : Reader) (p : Packet)
    (h : PacketFromReader reader = (some (p, none), rest)) :
    p.Info.length = p.InfoSize ∧ p.Data.length = p.DataSize := by
  unfold PacketFromReader at h
  simp only [] at h
  split at h
  · simp at h
  · next header r1 h1 =>
    split at h
    · simp at h
    · next q e hfill =>
      split at h
      · simp at h
      · next info r2 h2 =>
        split at h
        · simp at h
        · next data r3 h3 =>
          simp only [Prod.mk.injEq, Option.some.injEq, and_true] at h
          have hI := ReadFull_length _ _ _ _ h2
          have hD := ReadFull_length _ _ _ _ h3
          rw [← h.1]
          exact ⟨hI, hD⟩

theorem Uint64_isSome_iff (b : List Byte) : (Uint64 b).isSome ↔ 8 ≤ b.length := by
  rcases b with _ | ⟨b0, _ | ⟨b1, _ | ⟨b2, _ | ⟨b3, _ | ⟨b4, _ | ⟨b5, _ | ⟨b6, _ | ⟨b7, t⟩⟩⟩⟩⟩⟩⟩⟩ <;>
    simp [Uint64]

theorem slice_isSome_iff (s : List Byte) (lo hi : Nat) :
    (slice s lo hi).isSome ↔ lo ≤ hi ∧ hi ≤ s.length := by
  unfold slice
  split <;> simp [*]

theorem Uint64_front_isSome_iff (s : List Byte) :
    ((slice s 0 8).bind Uint64).isSome ↔ 8 ≤ s.length := by
  by_cases h : 8 ≤ s.length
  · rw [slice_front s 8 h, Option.some_bind, Uint64_isSome_iff, List.length_take]
    omega
  · have hn : slice s 0 8 = none := by simp [slice, h]
    simp [hn, h]

theorem Uint64_back_isSome_iff (s : List Byte) :
    ((slice s 8 s.length).bind Uint64).isSome ↔ 16 ≤ s.length := by
  by_cases h : 8 ≤ s.length
  · rw [slice_back s 8 h, Option.some_bind, Uint64_isSome_iff, List.length_drop]
    omega
  · have hn : slice s 8 s.length = none := by simp [slice, h]
    have h16 : ¬ 16 ≤ s.length := by omega
    simp [hn, h16]

theorem slice_back_isSome_iff (s : List Byte) :
    (slice s 8 s.length).isSome ↔ 8 ≤ s.length := by
  rw [slice_isSome_iff]
  omega

/-- C27 (typed views, amended): for every packet that `PacketFromReader` decodes
without error, `BigFileHeader.FileSize` and `FileName` and `BigFileRequest.Start`
return a value exactly when the frame has at least 8 bytes of data,
`BigFileRequest.Length` exactly when it has at least 16, and
`BigFileResponse.Start` and `FileID` exactly when it has at least 8 bytes of
info; with less they slice out of range. -/
theorem typed_views_defined_iff (reader rest : Reader) (p : Packet)
    (h : PacketFromReader reader = (some (p, none), rest)) :
    ((BigFileHeader.FileSize p).isSome ↔ 8 ≤ p.DataSize) ∧
    ((BigFileHeader.FileName p).isSome ↔ 8 ≤ p.DataSize) ∧
    ((BigFileRequest.Start p).isSome ↔ 8 ≤ p.DataSize) ∧
    ((BigFileRequest.Length p).isSome ↔ 16 ≤ p.DataSize) ∧
    ((BigFileResponse.Start p).isSome ↔ 8 ≤ p.InfoSize) ∧
    ((BigFileResponse.FileID p).isSome ↔ 8 ≤ p.InfoSize) := by
  obtain ⟨hI, hD⟩ := PacketFromReader_lengths reader rest p h
  rw [← hI, ← hD]
  exact ⟨Uint64_front_isSome_iff p.Data, slice_back_isSome_iff p.Data,
    Uint64_front_isSome_iff p.Data, Uint64_back_isSome_iff p.Data,
    Uint64_front_isSome_iff p.Info, slice_back_isSome_iff p.Info⟩

/-- The typed-view theorem at the HEADER frame of the five-byte file, which has
9 bytes of data and 16 bytes of info. -/
theorem typed_views_defined_iff_witness :
    PacketFromReader demoHeaderFrame = (some (demoHeader, none), []) ∧
    ((BigFileHeader.FileSize demoHeader).isSome ↔ 8 ≤ demoHeader.DataSize) ∧
    ((BigFileHeader.FileName demoHeader).isSome ↔ 8 ≤ demoHeader.DataSize) ∧
    ((BigFileRequest.Start demoHeader).isSome ↔ 8 ≤ demoHeader.DataSize) ∧
    ((BigFileRequest.Length demoHeader).isSome ↔ 16 ≤ demoHeader.DataSize) ∧
    ((BigFileResponse.Start demoHeader).isSome ↔ 8 ≤ demoHeader.InfoSize) ∧
    ((BigFileResponse.FileID demoHeader).isSome ↔ 8 ≤ demoHeader.InfoSize) :=
  ⟨by decide, typed_views_defined_iff demoHeaderFrame [] demoHeader (by decide)⟩

/-- C27 (counterexample): the twelve-byte frames of type 4, 5 and 6 with no info
and no data are decoded without error, and on the decoded packets
`BigFileHeader.FileSize` and `FileName`, `BigFileRequest.Start` and `Length`,
and `BigFileResponse.Start` and `FileID` all slice out of range. -/
theorem empty_frames_break_typed_views :
    PacketFromReader (wireHeader PacketTypeBigFileHeader 0 0)
      = (some (NewPacket PacketTypeBigFileHeader [] [], none), []) ∧
    BigFileHeader.FileSize (NewPacket PacketTypeBigFileHeader [] []) = none ∧
    BigFileHeader.FileName (NewPacket PacketTypeBigFileHeader [] []) = none ∧
    PacketFromReader (wireHeader PacketTypeBigFileRequest 0 0)
      = (some (NewPacket PacketTypeBigFileRequest [] [], none), []) ∧
    BigFileRequest.Start (NewPacket PacketTypeBigFileRequest [] []) = none ∧
    BigFileRequest.Length (NewPacket PacketTypeBigFileRequest [] []) = none ∧
    PacketFromReader (wireHeader PacketTypeBigFileResponse 0 0)
      = (some (NewPacket PacketTypeBigFileResponse [] [], none), []) ∧
    BigFileResponse.Start (NewPacket PacketTypeBigFileResponse [] []) = none ∧
    BigFileResponse.FileID (NewPacket PacketTypeBigFileResponse [] []) = none := by
  decide

/-! ## Blocks over the wire -/

theorem blockReply_eq (s : BigFileSender) (fs : FileSystem) (w : BigFileReceiverWorker)
    (fileID : List Byte) (file : File) (i : Nat) (hadv : Advertised s fs fileID file)
    (hid : BigFileHeader.FileID w.header = fileID) (hBS : w.blockSize ≤ DefaultBlockSize)
    (hi : w.blockSize * i + w.blockSize ≤ MaxInt) (hi' : i < 2 ^ 64) :
    blockReply s fs w i
      = some (NewPacket PacketTypeBigFileResponse (bigEndian 8 (w.blockSize * i) ++ fileID)
          ((file.contents.drop (w.blockSize * i)).take w.blockSize)) := by
  have h16 := hadv.1
  have hi64 : w.blockSize * i < 2 ^ 64 := by unfold MaxInt at hi; omega
  have hBS' : w.blockSize ≤ maxAlloc := le_trans hBS (by decide)
  have hlen : ((file.contents.drop (w.blockSize * i)).take w.blockSize).length
      ≤ DefaultBlockSize := by
    rw [List.length_take]
    exact le_trans (Nat.min_le_left _ _) hBS
  have hinfo : (bigEndian 8 (w.blockSize * i) ++ fileID).length = 24 := by
    simp [bigEndian_length, h16]
  have hparse := PacketFromReader_wire PacketTypeBigFileRequest fileID
    (bigEndian 8 (w.blockSize * i) ++ bigEndian 8 w.blockSize) [] (by decide)
    (by rw [h16]; norm_num) (by simp [bigEndian_length])
  have hresp := responseReq_eq s fs fileID file (w.blockSize * i) w.blockSize hadv hBS' hi
    (NewPacket PacketTypeBigFileRequest fileID
      (bigEndian 8 (w.blockSize * i) ++ bigEndian 8 w.blockSize)) rfl rfl
  have hresp' : s.responseReq fs
      (NewPacket PacketTypeBigFileRequest fileID
        (bigEndian 8 (w.blockSize * i) ++ bigEndian 8 w.blockSize))
      = Result.ok (NewPacket PacketTypeBigFileResponse
          (bigEndian 8 (w.blockSize * i) ++ fileID)
          ((file.contents.drop (w.blockSize * i)).take w.blockSize)) := by
    rw [hresp]
    simp [NewPacket, hinfo, h16]
  have hans := answer_of_request s fs _ [] _ _ hparse rfl hresp'
  obtain ⟨bs, hbs, hdec⟩ := PacketFromReader_ToBytes PacketTypeBigFileResponse
    (bigEndian 8 (w.blockSize * i) ++ fileID)
    ((file.contents.drop (w.blockSize * i)).take w.blockSize) [] (by decide)
    (by
      rw [hinfo]
      have : DefaultBlockSize = 1048576 := by decide
      omega)
  rw [hbs, Option.getD_some] at hans
  rw [List.append_nil] at hdec
  unfold blockReply
  rw [requestDownload_eq w fileID i hid h16 hi64 hi']
  simp only []
  rw [hans, hdec]

theorem replyContents_eq (s : BigFileSender) (fs : FileSystem) (w : BigFileReceiverWorker)
    (fileID : List Byte) (file : File) (hadv : Advertised s fs fileID file)
    (hid : BigFileHeader.FileID w.header = fileID) (h1 : 1 ≤ w.blockSize)
    (hBS : w.blockSize ≤ DefaultBlockSize) (k : Nat)
    (hk : k ≤ file.contents.length / w.blockSize
      + if file.contents.length % w.blockSize > 0 then 1 else 0) :
    replyContents s fs w k = some (file.contents.take (w.blockSize * k)) := by
  induction k with
  | zero => simp [replyContents]
  | succ k ih =>
    have hlt := block_start_lt file.contents.length w.blockSize k h1 (by omega)
    have hle := file.size_le
    unfold MaxFileSize at hle
    have hk64 : k < 2 ^ 64 := by
      have := Nat.mul_le_mul_right k h1
      unfold MaxInt at hle
      omega
    rw [replyContents, ih (by omega), Option.some_bind,
      blockReply_eq s fs w fileID file k hadv hid hBS (by omega) hk64]
    simp only [Option.map_some', BigFileResponse.FileContent, NewPacket, Nat.mul_add,
      Nat.mul_one, List.take_add]

/-- C9 (blocks partition the file): for every advertised file with contents `B`
of size `S`, the worker for its header, whose block size `BS` is
`DefaultBlockSize` (1 MiB) as for every worker, writes the request
`REQUEST(file_id, i*BS, BS)` for each `i < numBlock(S)`; the frame the sender
writes in answer decodes to a RESPONSE that carries exactly
`B[i*BS, min((i+1)*BS, S))`, and the contents of the responses for
`i = 0 .. numBlock-1`, concatenated in ascending index order, equal `B`. -/
theorem blocks_partition (s : BigFileSender) (fs : FileSystem) (fileID : List Byte)
    (file : File) (header : Packet) (hadv : Advertised s fs fileID file)
    (hid : BigFileHeader.FileID header = fileID)
    (hsize : BigFileHeader.FileSize header = some file.contents.length) :
    ∃ n, (NewBigFileReceiverWorker header)._numBlock = some n ∧
      (∀ i, i < n → ∃ req bytes resp,
        NewBigFileRequest fileID (i * DefaultBlockSize) DefaultBlockSize = some req ∧
        req.ToBytes = some bytes ∧
        (NewBigFileReceiverWorker header).requestDownload i { incoming := [], outgoing := [] }
          = some ({ incoming := [], outgoing := bytes }, none) ∧
        blockReply s fs (NewBigFileReceiverWorker header) i = some resp ∧
        resp.Typ = PacketTypeBigFileResponse ∧
        BigFileResponse.FileID resp = some fileID ∧
        BigFileResponse.Start resp = some (i * DefaultBlockSize) ∧
        slice file.contents (i * DefaultBlockSize)
            (min ((i + 1) * DefaultBlockSize) file.contents.length)
          = some (BigFileResponse.FileContent resp)) ∧
      replyContents s fs (NewBigFileReceiverWorker header) n = some file.contents := by
  have hle := file.size_le
  unfold MaxFileSize at hle
  have h1 : 1 ≤ (NewBigFileReceiverWorker header).blockSize :=
    show 1 ≤ DefaultBlockSize by decide
  have hBS : (NewBigFileReceiverWorker header).blockSize ≤ DefaultBlockSize := le_refl _
  have hw : (NewBigFileReceiverWorker header).blockSize = DefaultBlockSize := rfl
  have hwid : BigFileHeader.FileID (NewBigFileReceiverWorker header).header = fileID := hid
  refine ⟨_, numBlock_eq (NewBigFileReceiverWorker header) _ hsize h1, ?_, ?_⟩
  · intro i hi
    rw [hw] at hi
    have hlt := block_start_lt _ _ i (by decide) hi
    have hi64 : i < 2 ^ 64 := by
      have := Nat.mul_le_mul_right i (show 1 ≤ DefaultBlockSize by decide)
      unfold MaxInt at hle
      omega
    have hmul64 : DefaultBlockSize * i < 2 ^ 64 := by unfold MaxInt at hle; omega
    have hc : i * DefaultBlockSize = DefaultBlockSize * i := Nat.mul_comm _ _
    have hc1 : (i + 1) * DefaultBlockSize = DefaultBlockSize * i + DefaultBlockSize := by
      rw [Nat.add_mul, Nat.one_mul, hc]
    rw [hc, hc1]
    obtain ⟨req, bytes, hreq, hbytes, hb⟩ :=
      request_ToBytes fileID (DefaultBlockSize * i) DefaultBlockSize hadv.1
    have hdl := requestDownload_eq (NewBigFileReceiverWorker header) fileID i hwid hadv.1
      hmul64 hi64
    rw [hw, ← hb] at hdl
    have hresp := blockReply_eq s fs (NewBigFileReceiverWorker header) fileID file i hadv
      hwid hBS (by rw [hw]; omega) hi64
    rw [hw] at hresp
    refine ⟨req, bytes, _, hreq, hbytes, hdl, hresp, rfl,
      slice_after_front _ _ 8 (bigEndian_length 8 _).symm,
      Uint64_slice_front _ fileID hmul64, ?_⟩
    show slice _ _ _ = some ((file.contents.drop (DefaultBlockSize * i)).take DefaultBlockSize)
    have hlo : DefaultBlockSize * i
        ≤ min (DefaultBlockSize * i + DefaultBlockSize) file.contents.length :=
      Nat.le_min.mpr ⟨by omega, by omega⟩
    unfold slice
    rw [if_pos ⟨hlo, Nat.min_le_right _ _⟩, drop_take_eq_clip,
      Nat.min_eq_left (by omega : DefaultBlockSize * i ≤ file.contents.length)]
  · rw [replyContents_eq s fs (NewBigFileReceiverWorker header) fileID file hadv hwid h1 hBS _
      (le_refl _)]
    congr 1
    apply List.take_of_length_le
    rw [hw]
    have hdm := Nat.div_add_mod file.contents.length DefaultBlockSize
    have hmod := Nat.mod_lt file.contents.length (show DefaultBlockSize > 0 by decide)
    split
    · rw [Nat.mul_add, Nat.mul_one]; omega
    · rw [Nat.add_zero]; omega

/-- The partition theorem at the five-byte file: its one block comes back over
the wire with the five bytes. -/
theorem blocks_partition_witness :
    Advertised demoSender demoFS demoFileID demoFile ∧
    BigFileHeader.FileID demoHeader = demoFileID ∧
    BigFileHeader.FileSize demoHeader = some demoFile.contents.length ∧
    ∃ n, (NewBigFileReceiverWorker demoHeader)._numBlock = some n ∧
      (∀ i, i < n → ∃ req bytes resp,
        NewBigFileRequest demoFileID (i * DefaultBlockSize) DefaultBlockSize = some req ∧
        req.ToBytes = some bytes ∧
        (NewBigFileReceiverWorker demoHeader).requestDownload i
            { incoming := [], outgoing := [] }
          = some ({ incoming := [], outgoing := bytes }, none) ∧
        blockReply demoSender demoFS (NewBigFileReceiverWorker demoHeader) i = some resp ∧
        resp.Typ = PacketTypeBigFileResponse ∧
        BigFileResponse.FileID resp = some demoFileID ∧
        BigFileResponse.Start resp = some (i * DefaultBlockSize) ∧
        slice demoFile.contents (i * DefaultBlockSize)
            (min ((i + 1) * DefaultBlockSize) demoFile.contents.length)
          = some (BigFileResponse.FileContent resp)) ∧
      replyContents demoSender demoFS (NewBigFileReceiverWorker demoHeader) n
        = some demoFile.contents :=
  ⟨demo_advertised, by decide, by decide,
    blocks_partition demoSender demoFS demoFileID demoFile demoHeader demo_advertised
      (by decide) (by decide)⟩
end Gofer
